import Mathlib

/-!
# VideoPlayer: bounded queue, audio/video sync engine, tempo filter, pipeline threads

Shallow embedding of `Queue.h` (`queue::Queue<T>`), of `AVSyncManager.h` /
`AVSyncManager.cpp` (`Clock`, `AVSyncManager`), of `TempoFilter.h` / `TempoFilter.cpp`
(`TempoFilter`), of the constructor of `MediaBuffer.h`, of the volume code of
`AudioPlayThread.cpp` and of `init` / `start` / `setSpeed` of `DemuxThread.cpp` and
`VideoPlayThread.cpp`.

Conventions of the embedding

* `size_t` values are natural numbers (no arithmetic is performed on them).
* A `T*` argument is an `Option α` (`none` is the null pointer); stored items are
  never null, so the container holds values of `α`.
* Every critical section of a blocking call is one atomic step.  A call that reaches
  `QWaitCondition::wait(&mtx_, 100)` has the outcome `waiting`; when the wait ends
  (wake-up or the 100 ms timeout) the loop runs the same step again.
* In the sync engine and the tempo filter `double` and `float` values are rationals
  with exact arithmetic and `static_cast<int>` is truncation toward zero onto unbounded
  integers; `av_gettime()` readings and the results of FFmpeg calls are parameters.
  Where a statement is about the numbers the program returns (the delay in
  milliseconds, the scaled samples), the methods are embedded once more with binary64
  or binary32 rounding and 32-bit `int` (namespaces `Machine` and `AudioPlayThread`).
-/

/-! ## Part 1. Definitions -/

namespace queue

/-- Fields of `queue::Queue<T>` guarded by `mtx_` plus the atomic `abort_` flag. -/
structure Queue (α : Type) where
  queue_ : List α
  abort_ : Bool
  minSize_ : Nat
  maxSize_ : Nat
deriving DecidableEq, Repr

/-- Result of a blocking call after one pass through its loop body. -/
inductive Outcome (β : Type) where
  | returned : β → Outcome β
  | waiting : Outcome β
deriving DecidableEq, Repr

/-- Condition-variable signal issued by a step. -/
inductive Wake where
  | none
  | notEmptyOne
  | notFullAll
deriving DecidableEq, Repr

/-- New state, outcome and signal of one atomic step of `enqueue` or `dequeue`. -/
structure Step (α β : Type) where
  q : Queue α
  outcome : Outcome β
  wake : Wake
deriving DecidableEq, Repr

/-- Constant `DEFAULT_QUEUE_SIZE`. -/
def DEFAULT_QUEUE_SIZE : Nat := 5

/-- Constructor `Queue(size_t minSize, size_t maxSize)`. -/
def Queue.new {α : Type} (minSize maxSize : Nat) : Queue α :=
  { queue_ := []
    abort_ := false
    minSize_ := if minSize ≤ 0 then DEFAULT_QUEUE_SIZE else minSize
    maxSize_ := if maxSize < minSize then minSize else maxSize }

/-- Method `setLimit(minSize, maxSize)`. -/
def Queue.setLimit {α : Type} (q : Queue α) (minSize maxSize : Nat) : Queue α :=
  if minSize ≤ 0 ∨ maxSize ≤ 0 ∨ minSize > maxSize then q
  else { q with minSize_ := minSize, maxSize_ := maxSize }

/-- One pass of the `while (!abort_.load())` loop of `enqueue` for a non-null item. -/
def Queue.enqueueStep {α : Type} (q : Queue α) (item : α) : Step α Bool :=
  if q.abort_ then ⟨q, .returned false, .none⟩
  else if q.queue_.length < q.maxSize_ then
    ⟨{ q with queue_ := q.queue_ ++ [item] }, .returned true, .notEmptyOne⟩
  else ⟨q, .waiting, .none⟩

/-- Method `enqueue(T* item)`: the entry check followed by the first pass of the loop. -/
def Queue.enqueue {α : Type} (q : Queue α) (item : Option α) : Step α Bool :=
  match item with
  | none => ⟨q, .returned false, .none⟩
  | some x => if q.abort_ then ⟨q, .returned false, .none⟩ else q.enqueueStep x

/-- Method `dequeue()`: one pass of its loop (the entry check and the loop condition
both test `abort_`). -/
def Queue.dequeue {α : Type} (q : Queue α) : Step α (Option α) :=
  if q.abort_ then ⟨q, .returned none, .none⟩
  else
    match q.queue_ with
    | item :: rest =>
      ⟨{ q with queue_ := rest }, .returned (some item),
        if rest.length ≤ q.minSize_ then .notFullAll else .none⟩
    | [] => ⟨q, .waiting, .none⟩

/-- Method `size()`. -/
def Queue.size {α : Type} (q : Queue α) : Nat := q.queue_.length

/-- Method `empty()`. -/
def Queue.empty {α : Type} (q : Queue α) : Bool := q.queue_.isEmpty

/-- Method `full()`. -/
def Queue.full {α : Type} (q : Queue α) : Bool := decide (q.queue_.length ≥ q.maxSize_)

/-- Method `abort()`. -/
def Queue.abort {α : Type} (q : Queue α) : Queue α := { q with abort_ := true }

/-- Method `resume()`. -/
def Queue.resume {α : Type} (q : Queue α) : Queue α := { q with abort_ := false }

/-- Method `clear()`: the emptied queue and the items handed to the disposal path,
in the order they are taken out. -/
def Queue.clear {α : Type} (q : Queue α) : Queue α × List α :=
  ({ q with queue_ := [] }, q.queue_)

/-- A call issued on the queue; a waiting `enqueue` or `dequeue` that runs its loop
again is the same call once more. -/
inductive Op (α : Type) where
  | enqueue : Option α → Op α
  | dequeue : Op α
  | clear : Op α
  | abort : Op α
  | resume : Op α
deriving DecidableEq, Repr

/-- What an observer sees of one step. -/
inductive Event (α : Type) where
  | enqueued : α → Event α
  | dequeued : α → Event α
  | silent : Event α
deriving DecidableEq, Repr

/-- Effect of one call, with the event it produces. -/
def Queue.step {α : Type} (q : Queue α) : Op α → Queue α × Event α
  | .enqueue item =>
    match item, (q.enqueue item).outcome with
    | some x, .returned true => ((q.enqueue item).q, .enqueued x)
    | _, _ => ((q.enqueue item).q, .silent)
  | .dequeue =>
    match q.dequeue.outcome with
    | .returned (some x) => (q.dequeue.q, .dequeued x)
    | _ => (q.dequeue.q, .silent)
  | .clear => (q.clear.1, .silent)
  | .abort => (q.abort, .silent)
  | .resume => (q.resume, .silent)

/-- Runs a sequence of calls, collecting the events in order. -/
def Queue.run {α : Type} (q : Queue α) : List (Op α) → Queue α × List (Event α)
  | [] => (q, [])
  | op :: ops =>
    let r := q.step op
    let rs := Queue.run r.1 ops
    (rs.1, r.2 :: rs.2)

/-- Items of the successful enqueues of a trace, in order. -/
def enqueuedItems {α : Type} : List (Event α) → List α
  | [] => []
  | .enqueued x :: es => x :: enqueuedItems es
  | _ :: es => enqueuedItems es

/-- Items returned by the successful dequeues of a trace, in order. -/
def dequeuedItems {α : Type} : List (Event α) → List α
  | [] => []
  | .dequeued x :: es => x :: dequeuedItems es
  | _ :: es => dequeuedItems es

/-- State after `n` consecutive `dequeue` calls. -/
def Queue.dequeueN {α : Type} (q : Queue α) : Nat → Queue α
  | 0 => q
  | n + 1 => (q.dequeue.q).dequeueN n

/-- Applies a sequence of `setLimit` calls. -/
def Queue.setLimits {α : Type} (q : Queue α) : List (Nat × Nat) → Queue α
  | [] => q
  | (a, b) :: rest => (q.setLimit a b).setLimits rest

/-- Queue of the scenario: limits 6 and 15, filled with the items 1 to 15. -/
def filled15 : Queue Nat :=
  (Queue.run (Queue.new 6 15) ((List.range 15).map (fun i => Op.enqueue (some (i + 1))))).1

end queue

/-! ### `AVSyncManager.h`: constants and `Clock` -/

/-- FFmpeg constant `AV_NOPTS_VALUE`, the 64-bit minimum, read as a `double`. -/
def AV_NOPTS_VALUE : ℚ := -(2 ^ 63)

def AV_SYNC_THRESHOLD_MIN : ℚ := 8 / 1000
def AV_SYNC_THRESHOLD_HALF : ℚ := 25 / 1000
def AV_SYNC_THRESHOLD_MAX : ℚ := 8 / 100
def AV_NOSYNC_THRESHOLD : ℚ := 5
def SYSTEM_DELAY_ESTIMATE : ℚ := 2 / 1000
def FINE_TUNE_RANGE : ℚ := 5 / 1000
def AV_SYNC_HISTORY_SIZE : Nat := 30
def DELAY_REDUCTION_FACTOR : ℚ := 6 / 10
def DELAY_INCREASE_FACTOR : ℚ := 14 / 10
def STABLE_VARIANCE_THRESHOLD : ℚ := 2 / 10000
def MIN_STABLE_SAMPLES : Nat := 8
def DEFAULT_FRAME_DURATION : ℚ := 1 / 30
def MAX_REASONABLE_DELAY_MS : Int := 200
def MIN_REASONABLE_DELAY_MS : Int := 0
def FALLBACK_TO_SYSTEM_THRESHOLD : ℚ := 5 / 10

/-- Conversion `static_cast<int>` of a `double`: truncation toward zero. -/
def castInt (x : ℚ) : Int := if 0 ≤ x then ⌊x⌋ else ⌈x⌉

/-- Function `std::round`: nearest integer, halves away from zero. -/
def stdRound (x : ℚ) : ℚ := if 0 ≤ x then ((⌊x + 1 / 2⌋ : Int) : ℚ) else ((⌈x - 1 / 2⌉ : Int) : ℚ)

/-- Qt `qBound(min, val, max)`, computed as `qMax(min, qMin(max, val))`. -/
def qBound (lo val hi : Int) : Int := max lo (min hi val)

/-- Struct `Clock`. -/
structure Clock where
  pts : ℚ
  duration : ℚ
  systemTime : ℚ
  lastSystemTime : ℚ
  presentationTime : ℚ
  isValid : Bool
  speed : ℚ
  lastSpeed : ℚ
  avgDuration : ℚ
  updateCount : Int
deriving DecidableEq

/-- Default member initialisers of `Clock`. -/
def Clock.init : Clock :=
  { pts := 0, duration := 0, systemTime := 0, lastSystemTime := 0, presentationTime := 0,
    isValid := false, speed := 1, lastSpeed := 1, avgDuration := DEFAULT_FRAME_DURATION,
    updateCount := 0 }

/-- Method `Clock::update`. -/
def Clock.update (c : Clock) (newPts newDuration currentSystemTime currentSpeed : ℚ) : Clock :=
  let speedChanged : Bool := decide (|c.speed - currentSpeed| > 1 / 1000)
  let lastSystemTime := c.systemTime
  let presentationTime :=
    if c.isValid = true ∧ lastSystemTime > 0 ∧ speedChanged = false then newPts else newPts
  let avg : ℚ × Int :=
    if newDuration > 0 ∧ newDuration < 10 then
      if c.updateCount < 10 then
        ((c.avgDuration * c.updateCount + newDuration) / (c.updateCount + 1), c.updateCount + 1)
      else (c.avgDuration * (95 / 100) + newDuration * (5 / 100), c.updateCount)
    else (c.avgDuration, c.updateCount)
  { pts := newPts
    duration := newDuration
    systemTime := currentSystemTime
    lastSystemTime := lastSystemTime
    presentationTime := presentationTime
    isValid := decide (newPts ≠ AV_NOPTS_VALUE)
    speed := currentSpeed
    lastSpeed := c.speed
    avgDuration := avg.1
    updateCount := avg.2 }

/-- Method `Clock::reset`. -/
def Clock.reset (_c : Clock) : Clock := Clock.init

/-- Method `Clock::getEffectiveDuration`. -/
def Clock.getEffectiveDuration (c : Clock) : ℚ :=
  let baseDuration := if c.duration > 0 ∧ c.duration < 10 then c.duration else c.avgDuration
  baseDuration / c.speed

/-- Method `Clock::getCurrentMediaTime`. -/
def Clock.getCurrentMediaTime (c : Clock) (currentSystemTime : ℚ) : ℚ :=
  if c.isValid = false then 0
  else
    let elapsed := currentSystemTime - c.systemTime
    if |c.speed - 1| < 1 / 1000 then c.pts + elapsed
    else if |c.speed - 2| < 1 / 1000 then c.pts + elapsed * 2
    else if |c.speed - 1 / 2| < 1 / 1000 then c.pts + elapsed * (1 / 2)
    else if |c.speed - 3 / 2| < 1 / 1000 then c.pts + (elapsed * 3) / 2
    else c.pts + elapsed * c.speed

/-- Media seconds per real second by which `Clock::getCurrentMediaTime` extrapolates:
the factor of `elapsed` in the branch it takes. -/
def Clock.rate (c : Clock) : ℚ :=
  if |c.speed - 1| < 1 / 1000 then 1
  else if |c.speed - 2| < 1 / 1000 then 2
  else if |c.speed - 1 / 2| < 1 / 1000 then 1 / 2
  else if |c.speed - 3 / 2| < 1 / 1000 then 3 / 2
  else c.speed

/-! ### `AVSyncManager.cpp` -/

/-- Data members of class `AVSyncManager` (the mutex is not modelled; the two `int`
counters are unbounded integers). -/
structure AVSyncManager where
  videoClock_ : Clock
  audioClock_ : Clock
  paused_ : Bool
  speed_ : ℚ
  frameCount_ : Int
  lastOffset_ : ℚ
  syncLogs_ : List ℚ
  consecutiveBadDelays_ : Int
  lastGoodOffset_ : ℚ
  forceSystemMode_ : Bool
deriving DecidableEq

namespace AVSyncManager

/-- Constructor `AVSyncManager::AVSyncManager`. -/
def new : AVSyncManager :=
  { videoClock_ := Clock.init, audioClock_ := Clock.init, paused_ := false, speed_ := 1,
    frameCount_ := 0, lastOffset_ := 0, syncLogs_ := [], consecutiveBadDelays_ := 0,
    lastGoodOffset_ := 0, forceSystemMode_ := false }

/-- Method `resetClocks`. -/
def resetClocks (m : AVSyncManager) : AVSyncManager :=
  { m with audioClock_ := m.audioClock_.reset, videoClock_ := m.videoClock_.reset }

/-- Method `reset`. -/
def reset (m : AVSyncManager) : AVSyncManager :=
  { m.resetClocks with
    frameCount_ := 0, lastOffset_ := 0, syncLogs_ := [], consecutiveBadDelays_ := 0,
    lastGoodOffset_ := 0, forceSystemMode_ := false }

/-- Method `pause`. -/
def pause (m : AVSyncManager) : AVSyncManager := { m with paused_ := true }

/-- Method `resume`. -/
def resume (m : AVSyncManager) : AVSyncManager := { m with paused_ := false }

/-- Method `setSpeed`. -/
def setSpeed (m : AVSyncManager) (speed : ℚ) : AVSyncManager :=
  if |m.speed_ - speed| < 1 / 1000 then m
  else
    let m1 := { m with speed_ := speed, forceSystemMode_ := false, consecutiveBadDelays_ := 0,
                       syncLogs_ := [] }
    if |speed - stdRound speed| > 1 / 1000 then { m1 with lastGoodOffset_ := 0 } else m1

/-- Method `isValidPts` (every modelled value is finite). -/
def isValidPts (pts : ℚ) : Bool := decide (pts ≠ AV_NOPTS_VALUE) && decide (pts ≥ 0)

/-- Method `isValidDuration` (every modelled value is finite). -/
def isValidDuration (duration : ℚ) : Bool := decide (duration > 0) && decide (duration < 10)

/-- Method `updateAudioClock`; `now` is the reading of `getSystemClock()`. -/
def updateAudioClock (m : AVSyncManager) (pts duration now : ℚ) : AVSyncManager :=
  if isValidPts pts && isValidDuration duration then
    { m with audioClock_ := m.audioClock_.update pts duration now m.speed_ }
  else m

/-- Method `getSpeedAdjustedSystemDelay`. -/
def getSpeedAdjustedSystemDelay (m : AVSyncManager) : ℚ :=
  if |m.speed_ - 1| < 1 / 1000 then SYSTEM_DELAY_ESTIMATE
  else if |m.speed_ - 2| < 1 / 1000 then SYSTEM_DELAY_ESTIMATE * (1 / 2)
  else if |m.speed_ - 1 / 2| < 1 / 1000 then SYSTEM_DELAY_ESTIMATE * 2
  else if |m.speed_ - 3 / 2| < 1 / 1000 then (SYSTEM_DELAY_ESTIMATE * 2) / 3
  else SYSTEM_DELAY_ESTIMATE / m.speed_

/-- Method `calculateSystemBasedDelay`. -/
def calculateSystemBasedDelay (m : AVSyncManager) (duration : ℚ) : Int :=
  let targetDelay : ℚ :=
    if |m.speed_ - 1| < 1 / 1000 then duration
    else if |m.speed_ - 2| < 1 / 1000 then duration * (1 / 2)
    else if |m.speed_ - 1 / 2| < 1 / 1000 then duration * 2
    else if |m.speed_ - 3 / 2| < 1 / 1000 then (duration * 2) / 3
    else duration / m.speed_
  let targetDelay := targetDelay - m.getSpeedAdjustedSystemDelay
  let targetDelay := max 0 targetDelay
  castInt (targetDelay * 1000)

/-- Method `isSystemStable`. -/
def isSystemStable (m : AVSyncManager) : Bool :=
  if m.syncLogs_.length < MIN_STABLE_SAMPLES then false
  else
    let sum : ℚ := m.syncLogs_.foldl (fun sum offset => sum + offset) 0
    let mean : ℚ := sum / m.syncLogs_.length
    let variance : ℚ := m.syncLogs_.foldl
      (fun variance offset => variance + (offset - mean) * (offset - mean)) 0
    let variance := variance / m.syncLogs_.length
    let adjustedThreshold := STABLE_VARIANCE_THRESHOLD * m.speed_
    decide (variance < adjustedThreshold)

/-- Method `shouldUsePtsSync`. -/
def shouldUsePtsSync (m : AVSyncManager) : Bool :=
  if m.audioClock_.isValid = false ∨ m.videoClock_.isValid = false then false
  else if m.isSystemStable = true ∧ |m.lastGoodOffset_| < AV_SYNC_THRESHOLD_MAX then true
  else if m.consecutiveBadDelays_ > 3 then false
  else true

/-- Method `calculateAVOffset`; `currentTime` is the reading of `getSystemClock()`. -/
def calculateAVOffset (m : AVSyncManager) (currentTime : ℚ) : ℚ :=
  if m.audioClock_.isValid = false ∨ m.videoClock_.isValid = false then 0
  else
    let audioCurrentTime := m.audioClock_.getCurrentMediaTime currentTime
    let videoCurrentTime := m.videoClock_.getCurrentMediaTime currentTime
    audioCurrentTime - videoCurrentTime

/-- Method `calculatePredictedAudioTime`. -/
def calculatePredictedAudioTime (m : AVSyncManager) (currentTime : ℚ) : ℚ :=
  if m.audioClock_.isValid = false then 0
  else m.audioClock_.getCurrentMediaTime currentTime

/-- Method `calculateBasicDelay`. -/
def calculateBasicDelay (m : AVSyncManager) (duration : ℚ) : Int :=
  let actualDuration : ℚ :=
    if |m.speed_ - 1| < 1 / 1000 then duration
    else if |m.speed_ - 2| < 1 / 1000 then duration * (1 / 2)
    else if |m.speed_ - 1 / 2| < 1 / 1000 then duration * 2
    else if |m.speed_ - 3 / 2| < 1 / 1000 then (duration * 2) / 3
    else duration / m.speed_
  let baseDelay := actualDuration - m.getSpeedAdjustedSystemDelay
  castInt (max 0 baseDelay * 1000)

/-- Method `calculateCorrectedDelay`. -/
def calculateCorrectedDelay (m : AVSyncManager) (offset duration : ℚ) : Int :=
  let adjustedDelay : ℚ :=
    if |m.speed_ - 1| < 1 / 1000 then duration
    else if |m.speed_ - 2| < 1 / 1000 then duration * (1 / 2)
    else if |m.speed_ - 1 / 2| < 1 / 1000 then duration * 2
    else if |m.speed_ - 3 / 2| < 1 / 1000 then (duration * 2) / 3
    else duration / m.speed_
  let adjustedDelay :=
    if offset > 0 then adjustedDelay * DELAY_REDUCTION_FACTOR
    else adjustedDelay * DELAY_INCREASE_FACTOR
  let adjustedDelay := adjustedDelay - m.getSpeedAdjustedSystemDelay
  castInt (max 0 adjustedDelay * 1000)

/-- Method `applyFineTune`. -/
def applyFineTune (m : AVSyncManager) (baseDelay : Int) (offset : ℚ) : Int :=
  if |offset| < FINE_TUNE_RANGE then baseDelay
  else if m.isSystemStable = false then baseDelay
  else
    let absOffset := |offset|
    let adjustment : Int :=
      if absOffset < AV_SYNC_THRESHOLD_HALF then
        let adjustmentFactor := 150 / m.speed_
        let adjustment : Int :=
          if offset > 0 then -castInt (offset * adjustmentFactor)
          else castInt (-offset * adjustmentFactor)
        let maxAdjustment := castInt (10 / m.speed_)
        qBound (-maxAdjustment) adjustment maxAdjustment
      else 0
    baseDelay + adjustment

/-- Method `isDelayReasonable`. -/
def isDelayReasonable (delay : Int) : Bool :=
  decide (delay ≥ MIN_REASONABLE_DELAY_MS) && decide (delay ≤ MAX_REASONABLE_DELAY_MS)

/-- Method `sanitizeDelay`. -/
def sanitizeDelay (m : AVSyncManager) (delay : Int) (duration : ℚ) : Int :=
  let maxDelay := castInt ((duration / m.speed_) * 2000)
  let minDelay : Int := 0
  qBound minDelay delay (min maxDelay MAX_REASONABLE_DELAY_MS)

/-- Method `logSyncOffset`. -/
def logSyncOffset (m : AVSyncManager) (offset : ℚ) : AVSyncManager :=
  let logs := m.syncLogs_ ++ [offset]
  let logs := if logs.length > AV_SYNC_HISTORY_SIZE then logs.tail else logs
  { m with syncLogs_ := logs, lastOffset_ := offset }

/-- Lines 75 to 114 of `calculateVideoDelay`: the choice between the system-based delay
and the offset-driven delay, for the state `m` after the video clock update.  Returns
the delay before fine-tuning and the state with the history and counters updated;
`now2` is the reading of `getSystemClock()` taken inside `calculateAVOffset`. -/
def syncDelay (m : AVSyncManager) (effectiveDuration now2 : ℚ) : Int × AVSyncManager :=
  if m.audioClock_.isValid = false ∨ m.forceSystemMode_ = true ∨
      m.shouldUsePtsSync = false then
    (m.calculateSystemBasedDelay effectiveDuration, m)
  else
    let offset := m.calculateAVOffset now2
    let absOffset := |offset|
    let m2 := m.logSyncOffset offset
    if absOffset > FALLBACK_TO_SYSTEM_THRESHOLD then
      let delay := m2.calculateSystemBasedDelay effectiveDuration
      let m3 := { m2 with consecutiveBadDelays_ := m2.consecutiveBadDelays_ + 1 }
      let m4 := if m3.consecutiveBadDelays_ > 5 then { m3 with forceSystemMode_ := true } else m3
      (delay, m4)
    else
      let m3 := { m2 with consecutiveBadDelays_ := 0, lastGoodOffset_ := offset }
      let delay : Int :=
        if absOffset < AV_SYNC_THRESHOLD_MIN then m3.calculateBasicDelay effectiveDuration
        else if absOffset < AV_SYNC_THRESHOLD_HALF then
          castInt ((m3.calculateBasicDelay effectiveDuration : ℚ) * (7 / 10))
        else if absOffset < AV_SYNC_THRESHOLD_MAX then
          m3.calculateCorrectedDelay offset effectiveDuration
        else if absOffset > AV_NOSYNC_THRESHOLD then
          m3.calculateBasicDelay effectiveDuration
        else m3.calculateCorrectedDelay offset effectiveDuration
      (delay, m3)

/-- Method `calculateVideoDelay`; `now1` is the reading of `getSystemClock()` passed to
the video clock update and `now2` the one taken inside `calculateAVOffset`.  Lines 75 to
114 are `syncDelay`.  Returns the delay in milliseconds and the state after the call. -/
def calculateVideoDelay (m : AVSyncManager) (pts duration now1 now2 : ℚ) :
    Int × AVSyncManager :=
  if m.paused_ = true then (0, m)
  else
    let effectiveDuration :=
      if isValidDuration duration = false then m.videoClock_.avgDuration else duration
    let m1 :=
      if isValidPts pts = true then
        { m with videoClock_ := m.videoClock_.update pts effectiveDuration now1 m.speed_ }
      else m
    let r := m1.syncDelay effectiveDuration now2
    let m5 := r.2
    let delay :=
      if m5.forceSystemMode_ = false ∧ m5.audioClock_.isValid = true then
        m5.applyFineTune r.1 m5.lastGoodOffset_
      else r.1
    let delay := m5.sanitizeDelay delay effectiveDuration
    (delay, { m5 with frameCount_ := m5.frameCount_ + 1 })

/-- Lines 66 to 69 of `calculateVideoDelay`: the duration the call works with. -/
def effectiveDurationOf (m : AVSyncManager) (duration : ℚ) : ℚ :=
  if isValidDuration duration = false then m.videoClock_.avgDuration else duration

/-- Lines 71 to 73 of `calculateVideoDelay`: the state after the video clock update. -/
def afterVideoUpdate (m : AVSyncManager) (pts duration now1 : ℚ) : AVSyncManager :=
  if isValidPts pts = true then
    { m with videoClock_ :=
        m.videoClock_.update pts (m.effectiveDurationOf duration) now1 m.speed_ }
  else m

/-- States the engine can be in: the constructed one and whatever the public methods
make of it, for any arguments and any clock readings. -/
inductive Reachable : AVSyncManager → Prop where
  | new : Reachable AVSyncManager.new
  | reset {m : AVSyncManager} : Reachable m → Reachable m.reset
  | pause {m : AVSyncManager} : Reachable m → Reachable m.pause
  | resume {m : AVSyncManager} : Reachable m → Reachable m.resume
  | setSpeed {m : AVSyncManager} (speed : ℚ) : Reachable m → Reachable (m.setSpeed speed)
  | updateAudioClock {m : AVSyncManager} (pts duration now : ℚ) :
      Reachable m → Reachable (m.updateAudioClock pts duration now)
  | calculateVideoDelay {m : AVSyncManager} (pts duration now1 now2 : ℚ) :
      Reachable m → Reachable (m.calculateVideoDelay pts duration now1 now2).2

/-- Engine after one audio block (pts 0, 20 ms) reported at time 100 and one video
frame (pts 0, 33 ms) timed at time 100. -/
def syncedOnce : AVSyncManager :=
  ((AVSyncManager.new.updateAudioClock 0 (2 / 100) 100).calculateVideoDelay
    0 (33 / 1000) 100 100).2

/-- Engine after one audio block (pts 0, 20 ms) reported at time 100 and one video
frame with pts 10 ms (33 ms long) timed at time 100: the measured offset is -10 ms. -/
def syncedWithOffset : AVSyncManager :=
  ((AVSyncManager.new.updateAudioClock 0 (2 / 100) 100).calculateVideoDelay
    (1 / 100) (33 / 1000) 100 100).2

end AVSyncManager

/-! ### `TempoFilter.h` and `TempoFilter.cpp`

`float` values are rationals with exact arithmetic, like the `double` values above.
The FFmpeg objects are reduced to what the control flow reads: a handle is a `Bool`
(`true` for a non-null pointer), and the results of the FFmpeg calls made while a graph
is built are the fields of `GraphEnv`. -/

def MIN_TEMPO : ℚ := 1 / 4
def MAX_TEMPO : ℚ := 4
def ATEMPO_MIN : ℚ := 1 / 2
def ATEMPO_MAX : ℚ := 2
def MAX_TEMPO_NODES : Nat := 4
def COMMON_TEMPOS : List ℚ := [1 / 4, 1 / 2, 3 / 4, 1, 5 / 4, 3 / 2, 7 / 4, 2, 5 / 2, 3, 4]

/-- FFmpeg `AVERROR(EINVAL)`. -/
def AVERROR_EINVAL : Int := -22

/-- FFmpeg `AVERROR(ENOMEM)`. -/
def AVERROR_ENOMEM : Int := -12

/-- FFmpeg `AVERROR(EAGAIN)`. -/
def AVERROR_EAGAIN : Int := -11

/-- FFmpeg `AVERROR_EOF`. -/
def AVERROR_EOF : Int := -541478725

/-- Struct `FilterNode`; the `AVFilterContext*` is not modelled. -/
structure FilterNode where
  tempoValue : ℚ
  inUse : Bool
deriving DecidableEq

/-- Struct `TempoStrategy`. -/
structure TempoStrategy where
  targetTempo : ℚ
  chain : List ℚ
deriving DecidableEq

/-- Values of `lastError_`: one constructor per message text, with its arguments. -/
inductive LastError where
  | empty
  | notInitialized
  | invalidTempo (tempo : ℚ)
  | addFrameFailed (ret : Int)
  | getFrameFailed (ret : Int)
  | chainFailed (tempo : ℚ)
  | graphFailed (ret : Int)
  | sourceFailed (ret : Int)
  | sinkFailed (ret : Int)
  | configFailed (ret : Int)
  | directLinkFailed (ret : Int)
  | nodeFailed (i : Nat) (ret : Int)
  | linkFirstFailed (ret : Int)
  | linkMidFailed (i j : Nat) (ret : Int)
  | linkLastFailed (ret : Int)
deriving DecidableEq

/-- Results of the FFmpeg calls made during one graph build. -/
structure GraphEnv where
  /-- Call `avfilter_graph_alloc` returned a graph. -/
  graphAlloc : Bool
  /-- Call `av_bprint_finalize` in `createBufferSource` produced a string. -/
  sourceLayoutStr : Bool
  /-- Result of `avfilter_graph_create_filter` for `abuffer`. -/
  sourceCreate : Int
  /-- Result of `avfilter_graph_create_filter` for `abuffersink`. -/
  sinkCreate : Int
  /-- Call `av_bprint_finalize` in `createBufferSink` produced a string. -/
  sinkLayoutStr : Bool
  /-- The three `av_opt_set` results of `createBufferSink` or-ed together. -/
  sinkOptions : Int
  /-- Result of `avfilter_graph_create_filter` for the `atempo` node `i`. -/
  nodeCreate : Nat → Int
  /-- Result of `avfilter_link` from the source to the sink. -/
  linkDirect : Int
  /-- Result of `avfilter_link` from the source to the first node. -/
  linkFirst : Int
  /-- Result of `avfilter_link` from node `i - 1` to node `i`. -/
  linkMid : Nat → Int
  /-- Result of `avfilter_link` from the last node to the sink. -/
  linkLast : Int
  /-- Result of `avfilter_graph_config`. -/
  graphConfig : Int

/-- Data members of class `TempoFilter` that the control flow reads (`timebase_`,
`chlayout_` and `samplefmt_` are only passed on to FFmpeg). -/
structure TempoFilter where
  threads_ : Int
  samplerate_ : Int
  initialized_ : Bool
  currentTempo_ : ℚ
  lastError_ : LastError
  tempoNodes_ : List FilterNode
  strategyCache_ : Int → Option TempoStrategy
  filterGraph_ : Bool
  bufferSource_ : Bool
  bufferSink_ : Bool

/-- Result of `addFrame` or `getFrame`: the return code, the state, and whether the
call reached `av_buffersrc_add_frame` or `av_buffersink_get_frame`. -/
structure FrameResult where
  ret : Int
  filter : TempoFilter
  libraryCalled : Bool

namespace TempoFilter

/-- Constructor `TempoFilter::TempoFilter`. -/
def new : TempoFilter :=
  { threads_ := 1, samplerate_ := 48000, initialized_ := false, currentTempo_ := 1,
    lastError_ := .empty, tempoNodes_ := [], strategyCache_ := fun _ => none,
    filterGraph_ := false, bufferSource_ := false, bufferSink_ := false }

/-- Method `isValidTempo`. -/
def isValidTempo (tempo : ℚ) : Bool := decide (tempo ≥ MIN_TEMPO) && decide (tempo ≤ MAX_TEMPO)

/-- The `while` loop of `calculateTempoChain`, from the state `(chain, remaining)` at its
head to the chain at its exit.  The last branch is the source's fall-through when none
of the three tests holds (the loop would come round unchanged); the termination proof
shows that no number takes it. -/
def tempoChainLoop (chain : List ℚ) (remaining : ℚ) : List ℚ :=
  if _h : |remaining - 1| > 1 / 1000 ∧ chain.length < MAX_TEMPO_NODES then
    if _h1 : remaining ≥ ATEMPO_MIN ∧ remaining ≤ ATEMPO_MAX then chain ++ [remaining]
    else if _h2 : remaining > ATEMPO_MAX then
      tempoChainLoop (chain ++ [ATEMPO_MAX]) (remaining / ATEMPO_MAX)
    else if _h3 : remaining < ATEMPO_MIN then
      tempoChainLoop (chain ++ [ATEMPO_MIN]) (remaining / ATEMPO_MIN)
    else tempoChainLoop chain remaining
  else chain
termination_by MAX_TEMPO_NODES - chain.length
decreasing_by
  · simp only [List.length_append, List.length_singleton]
    omega
  · simp only [List.length_append, List.length_singleton]
    omega
  · exfalso
    exact _h1 ⟨not_lt.mp _h3, not_lt.mp _h2⟩

/-- Method `calculateTempoChain`. -/
def calculateTempoChain (targetTempo : ℚ) : List ℚ :=
  if |targetTempo - 1| < 1 / 1000 then [1]
  else tempoChainLoop [] targetTempo

/-- Method `findCachedStrategy`. -/
def findCachedStrategy (f : TempoFilter) (tempo : ℚ) : Option TempoStrategy :=
  f.strategyCache_ (castInt (tempo * 1000))

/-- Method `cacheStrategy`. -/
def cacheStrategy (f : TempoFilter) (tempo : ℚ) (chain : List ℚ) : TempoFilter :=
  { f with strategyCache_ :=
      Function.update f.strategyCache_ (castInt (tempo * 1000)) (some ⟨tempo, chain⟩) }

/-- Method `getTempoChain`. -/
def getTempoChain (f : TempoFilter) (tempo : ℚ) : List ℚ × TempoFilter :=
  match f.findCachedStrategy tempo with
  | some strategy => (strategy.chain, f)
  | none => (calculateTempoChain tempo, f.cacheStrategy tempo (calculateTempoChain tempo))

/-- Method `cleanup`. -/
def cleanup (f : TempoFilter) : TempoFilter :=
  { f with
    tempoNodes_ := [], strategyCache_ := fun _ => none, bufferSource_ := false,
    bufferSink_ := false, filterGraph_ := false, initialized_ := false, currentTempo_ := 1,
    lastError_ := .empty }

/-- Method `createFilterGraph`. -/
def createFilterGraph (f : TempoFilter) (env : GraphEnv) : Int × TempoFilter :=
  if env.graphAlloc = false then (AVERROR_ENOMEM, { f with filterGraph_ := false })
  else (0, { f with filterGraph_ := true })

/-- Method `createBufferSource`. -/
def createBufferSource (f : TempoFilter) (env : GraphEnv) : Int × TempoFilter :=
  if f.filterGraph_ = false then (AVERROR_EINVAL, f)
  else if env.sourceLayoutStr = false then (AVERROR_ENOMEM, f)
  else if env.sourceCreate < 0 then (env.sourceCreate, { f with bufferSource_ := false })
  else (0, { f with bufferSource_ := true })

/-- Method `createBufferSink`. -/
def createBufferSink (f : TempoFilter) (env : GraphEnv) : Int × TempoFilter :=
  if f.filterGraph_ = false then (AVERROR_EINVAL, f)
  else if env.sinkCreate < 0 then (env.sinkCreate, { f with bufferSink_ := false })
  else if env.sinkLayoutStr = false then (AVERROR_ENOMEM, { f with bufferSink_ := true })
  else if env.sinkOptions < 0 then (env.sinkOptions, { f with bufferSink_ := true })
  else (0, { f with bufferSink_ := true })

/-- The node-creating `for` loop of `createAndLinkTempoChain` from index `i` on, over the
chain elements not yet visited. -/
def createNodes (env : GraphEnv) (f : TempoFilter) : List ℚ → Nat → Int × TempoFilter
  | [], _ => (0, f)
  | tempo :: rest, i =>
    if env.nodeCreate i < 0 then
      (env.nodeCreate i, { f with lastError_ := .nodeFailed i (env.nodeCreate i) })
    else
      createNodes env { f with tempoNodes_ := f.tempoNodes_ ++ [⟨tempo, true⟩] } rest (i + 1)

/-- The middle `for` loop of `linkCompleteChain` over the indices still to link. -/
def linkMiddle (env : GraphEnv) (f : TempoFilter) : List Nat → Int × TempoFilter
  | [] => (0, f)
  | i :: rest =>
    if env.linkMid i < 0 then
      (env.linkMid i, { f with lastError_ := .linkMidFailed (i - 1) i (env.linkMid i) })
    else linkMiddle env f rest

/-- Method `linkCompleteChain`. -/
def linkCompleteChain (f : TempoFilter) (env : GraphEnv) : Int × TempoFilter :=
  if f.tempoNodes_.isEmpty = true then (AVERROR_EINVAL, f)
  else if env.linkFirst < 0 then
    (env.linkFirst, { f with lastError_ := .linkFirstFailed env.linkFirst })
  else
    let r := linkMiddle env f (List.range' 1 (f.tempoNodes_.length - 1))
    if r.1 < 0 then r
    else if env.linkLast < 0 then
      (env.linkLast, { r.2 with lastError_ := .linkLastFailed env.linkLast })
    else (0, r.2)

/-- Method `createAndLinkTempoChain`; the loop visits the indices below both
`chain.size()` and `MAX_TEMPO_NODES`. -/
def createAndLinkTempoChain (f : TempoFilter) (chain : List ℚ) (env : GraphEnv) :
    Int × TempoFilter :=
  if chain.length = 1 ∧ |chain.headD 0 - 1| < 1 / 1000 then
    if env.linkDirect < 0 then
      (env.linkDirect, { f with lastError_ := .directLinkFailed env.linkDirect })
    else (0, f)
  else
    let r := createNodes env { f with tempoNodes_ := [] } (chain.take MAX_TEMPO_NODES) 0
    if r.1 < 0 then r
    else r.2.linkCompleteChain env

/-- Method `buildCompleteFilterChain`. -/
def buildCompleteFilterChain (f : TempoFilter) (tempo : ℚ) (env : GraphEnv) :
    Int × TempoFilter :=
  let f0 := { f with
    tempoNodes_ := [], bufferSource_ := false, bufferSink_ := false, filterGraph_ := false }
  let c := f0.getTempoChain tempo
  if c.1.isEmpty = true then (AVERROR_EINVAL, { c.2 with lastError_ := .chainFailed tempo })
  else
    let g := c.2.createFilterGraph env
    if g.1 < 0 then (g.1, { g.2 with lastError_ := .graphFailed g.1 })
    else
      let s := g.2.createBufferSource env
      if s.1 < 0 then (s.1, ({ s.2 with lastError_ := .sourceFailed s.1 } : TempoFilter).cleanup)
      else
        let k := s.2.createBufferSink env
        if k.1 < 0 then (k.1, ({ k.2 with lastError_ := .sinkFailed k.1 } : TempoFilter).cleanup)
        else
          let l := k.2.createAndLinkTempoChain c.1 env
          if l.1 < 0 then (l.1, l.2.cleanup)
          else if env.graphConfig < 0 then
            (env.graphConfig,
              ({ l.2 with lastError_ := .configFailed env.graphConfig } : TempoFilter).cleanup)
          else (0, { l.2 with currentTempo_ := tempo, initialized_ := true })

/-- Method `initTempoFilter` (the time base, channel layout and sample format are not
modelled). -/
def initTempoFilter (f : TempoFilter) (samplerate threads : Int) (env : GraphEnv) :
    Int × TempoFilter :=
  let f1 := if f.initialized_ = true then f.cleanup else f
  let f2 := { f1 with threads_ := if threads < 0 then 1 else threads, samplerate_ := samplerate }
  let f3 := COMMON_TEMPOS.foldl
    (fun acc tempo => acc.cacheStrategy tempo (calculateTempoChain tempo)) f2
  f3.buildCompleteFilterChain 1 env

/-- Method `setTempo`. -/
def setTempo (f : TempoFilter) (tempo : ℚ) (env : GraphEnv) : Int × TempoFilter :=
  if f.initialized_ = false then (AVERROR_EINVAL, { f with lastError_ := .notInitialized })
  else if isValidTempo tempo = false then
    (AVERROR_EINVAL, { f with lastError_ := .invalidTempo tempo })
  else if |tempo - f.currentTempo_| < 1 / 1000 then (0, f)
  else f.buildCompleteFilterChain tempo env

/-- Method `addFrame`; `srcFrame` tells whether the frame pointer is non-null and
`libRet` is what `av_buffersrc_add_frame` returns if it is called. -/
def addFrame (f : TempoFilter) (srcFrame : Bool) (libRet : Int) : FrameResult :=
  if f.initialized_ = false ∨ srcFrame = false then ⟨AVERROR_EINVAL, f, false⟩
  else if libRet < 0 then ⟨libRet, { f with lastError_ := .addFrameFailed libRet }, true⟩
  else ⟨libRet, f, true⟩

/-- Method `getFrame`; `dstFrame` tells whether the frame pointer is non-null and
`libRet` is what `av_buffersink_get_frame` returns if it is called. -/
def getFrame (f : TempoFilter) (dstFrame : Bool) (libRet : Int) : FrameResult :=
  if f.initialized_ = false ∨ dstFrame = false then ⟨AVERROR_EINVAL, f, false⟩
  else if libRet < 0 ∧ libRet ≠ AVERROR_EAGAIN ∧ libRet ≠ AVERROR_EOF then
    ⟨libRet, { f with lastError_ := .getFrameFailed libRet }, true⟩
  else ⟨libRet, f, true⟩

/-- Method `isInitialized`. -/
def isInitialized (f : TempoFilter) : Bool := f.initialized_

/-- Method `getCurrentTempo`. -/
def getCurrentTempo (f : TempoFilter) : ℚ := f.currentTempo_

/-- An environment in which every FFmpeg call of a graph build succeeds. -/
def allSucceed : GraphEnv :=
  { graphAlloc := true, sourceLayoutStr := true, sourceCreate := 0, sinkCreate := 0,
    sinkLayoutStr := true, sinkOptions := 0, nodeCreate := fun _ => 0, linkDirect := 0,
    linkFirst := 0, linkMid := fun _ => 0, linkLast := 0, graphConfig := 0 }

/-- An environment in which only `avfilter_graph_alloc` fails. -/
def allocFails : GraphEnv := { allSucceed with graphAlloc := false }

/-- An environment in which only the creation of the `abuffer` source fails, with
code -22. -/
def sourceFails : GraphEnv := { allSucceed with sourceCreate := -22 }

/-- Every FFmpeg call of a graph build succeeds in the environment `env`. -/
def Succeeds (env : GraphEnv) : Prop :=
  env.graphAlloc = true ∧ env.sourceLayoutStr = true ∧ 0 ≤ env.sourceCreate ∧
    0 ≤ env.sinkCreate ∧ env.sinkLayoutStr = true ∧ 0 ≤ env.sinkOptions ∧
    (∀ i, 0 ≤ env.nodeCreate i) ∧ 0 ≤ env.linkDirect ∧ 0 ≤ env.linkFirst ∧
    (∀ i, 0 ≤ env.linkMid i) ∧ 0 ≤ env.linkLast ∧ 0 ≤ env.graphConfig

/-- The filter after a successful `initTempoFilter(48000, 1, ...)`. -/
def initialized : TempoFilter := (TempoFilter.new.initTempoFilter 48000 1 allSucceed).2

end TempoFilter

/-- The greedy decomposition in the words of the specification, with `n` chain slots
left: a remaining ratio inside `[ATEMPO_MIN, ATEMPO_MAX]` is emitted and ends the chain;
otherwise the nearest bound is emitted and the remaining ratio divided by it. -/
def greedyChain : Nat → ℚ → List ℚ
  | 0, _ => []
  | n + 1, remaining =>
    if ATEMPO_MIN ≤ remaining ∧ remaining ≤ ATEMPO_MAX then [remaining]
    else if remaining > ATEMPO_MAX then ATEMPO_MAX :: greedyChain n (remaining / ATEMPO_MAX)
    else ATEMPO_MIN :: greedyChain n (remaining / ATEMPO_MIN)

/-- The chain the specification describes for a target tempo: the greedy decomposition
with at most `MAX_TEMPO_NODES` elements. -/
def specTempoChain (target : ℚ) : List ℚ := greedyChain MAX_TEMPO_NODES target

/-! ### Sync engine: sequences of calls and the states used as examples -/

namespace AVSyncManager

/-- Relation `Later m k`: state `k` comes from `m` by calls of `pause`, `resume`,
`updateAudioClock`, `calculateVideoDelay` and `setSpeed` calls that do not change the
speed (the early return of `setSpeed`), with any arguments and clock readings; no
`reset` and no speed-changing `setSpeed` in between. -/
inductive Later (m : AVSyncManager) : AVSyncManager → Prop where
  | refl : Later m m
  | pause {k : AVSyncManager} : Later m k → Later m k.pause
  | resume {k : AVSyncManager} : Later m k → Later m k.resume
  | updateAudioClock {k : AVSyncManager} (pts duration now : ℚ) :
      Later m k → Later m (k.updateAudioClock pts duration now)
  | calculateVideoDelay {k : AVSyncManager} (pts duration now1 now2 : ℚ) :
      Later m k → Later m (k.calculateVideoDelay pts duration now1 now2).2
  | setSpeedSame {k : AVSyncManager} (speed : ℚ) :
      |k.speed_ - speed| < 1 / 1000 → Later m k → Later m (k.setSpeed speed)

/-- Calls `calculateVideoDelay` once per listed pts, each frame 33 ms long and both
clock readings of every call equal to `now`; returns the state after the last call. -/
def feedFrames (m : AVSyncManager) (now : ℚ) (ptss : List ℚ) : AVSyncManager :=
  ptss.foldl (fun acc pts => (acc.calculateVideoDelay pts (33 / 1000) now now).2) m

/-- Engine at speed 1 after one audio block (pts 10 s, 20 ms) reported at time 100. -/
def audioAtTen : AVSyncManager := AVSyncManager.new.updateAudioClock 10 (2 / 100) 100

/-- Engine `audioAtTen` after four video frames timed at time 100 whose offset is 1 s. -/
def fourBad : AVSyncManager := audioAtTen.feedFrames 100 [9, 9, 9, 9]

/-- Engine switched to speed 10000, given one audio block (pts 10 s, 20 ms) at time
100, then eight video frames at offset 0 and six at offset 1 s, all timed at time 100. -/
def sixBadAtHighSpeed : AVSyncManager :=
  ((AVSyncManager.new.setSpeed 10000).updateAudioClock 10 (2 / 100) 100).feedFrames 100
    [10, 10, 10, 10, 10, 10, 10, 10, 9, 9, 9, 9, 9, 9]

/-- Summary of the fields the choice of the sync path reads: `m` is not paused, its
audio clock is `A`, its speed `s`, its offset history `logs`, its consecutive-bad counter
`cnt`, its last-good offset `lg`, its force-system-mode flag `f` and the validity flag
of its video clock `vv`. -/
def Tracks (m : AVSyncManager) (A : Clock) (s : ℚ) (logs : List ℚ) (cnt : Int) (lg : ℚ)
    (f vv : Bool) : Prop :=
  m.paused_ = false ∧ m.audioClock_ = A ∧ m.speed_ = s ∧ m.syncLogs_ = logs ∧
    m.consecutiveBadDelays_ = cnt ∧ m.lastGoodOffset_ = lg ∧ m.forceSystemMode_ = f ∧
    m.videoClock_.isValid = vv

end AVSyncManager

/-- Variance of an offset history in the words of the specification: the mean of the
squared deviations from the mean. -/
def historyVariance (logs : List ℚ) : ℚ :=
  (logs.map (fun o => (o - logs.sum / logs.length) * (o - logs.sum / logs.length))).sum /
    logs.length

/-- Clock states that come from a `reset` by `update` calls with any arguments. -/
inductive Clock.Reachable : Clock → Prop where
  | reset (c : Clock) : Clock.Reachable c.reset
  | update {c : Clock} (newPts newDuration currentSystemTime currentSpeed : ℚ) :
      Clock.Reachable c →
        Clock.Reachable (c.update newPts newDuration currentSystemTime currentSpeed)

/-! ### Machine arithmetic: binary64, binary32 and 32-bit `int`

The definitions of the sync engine above compute with exact rationals and unbounded
integers; they serve the statements about which branch is taken and how the state
evolves.  The namespace `Machine` below embeds the same methods once more with the
arithmetic of the compiled program, for the statements about the numbers returned:

* every `double` (`float`) operation returns the binary64 (binary32) number nearest to
  the exact result, ties to even (`fl64`, `fl32`); a decimal literal is the nearest
  binary64 number; comparisons, negation, `std::fabs`, `std::max` and `std::round` are
  exact.  The exponent is not bounded: overflow to infinity and gradual underflow are
  outside the model.
* `static_cast<int>` of a `double` truncates toward zero; out of the range of `int` it
  returns `INT_MIN`, as the conversion instruction of x86-64 does (the C++ standard
  leaves that case undefined).
* `int` additions and negations wrap around modulo 2^32 (the C++ standard leaves signed
  overflow undefined). -/

/-- Nearest integer, a tie going to the even one. -/
def roundNearestEven (x : ℚ) : Int :=
  if x - ⌊x⌋ < 1 / 2 then ⌊x⌋
  else if x - ⌊x⌋ > 1 / 2 then ⌊x⌋ + 1
  else if ⌊x⌋ % 2 = 0 then ⌊x⌋ else ⌊x⌋ + 1

/-- Nearest number with `p` significant bits to a positive `x`: with `e` the exponent of
`x` (`2^e ≤ x < 2^(e+1)`), the nearest multiple of `2^(e - p + 1)`. -/
def roundPos (p : Nat) (x : ℚ) : ℚ :=
  (roundNearestEven (x / 2 ^ (Int.log 2 x - p + 1)) : ℚ) * 2 ^ (Int.log 2 x - p + 1)

/-- Nearest binary floating-point number with `p` significant bits. -/
def roundFloat (p : Nat) (x : ℚ) : ℚ :=
  if x = 0 then 0 else if x < 0 then -roundPos p (-x) else roundPos p x

/-- Rounding to binary64 (`double`). -/
def fl64 (x : ℚ) : ℚ := roundFloat 53 x

/-- Rounding to binary32 (`float`). -/
def fl32 (x : ℚ) : ℚ := roundFloat 24 x

/-- Constant `INT_MIN`. -/
def INT_MIN : Int := -2147483648
/-- Constant `INT_MAX`. -/
def INT_MAX : Int := 2147483647

/-- Conversion `static_cast<int>` of a `double` or `float`. -/
def toInt32 (x : ℚ) : Int :=
  if INT_MIN ≤ castInt x ∧ castInt x ≤ INT_MAX then castInt x else INT_MIN

/-- Result of an `int` addition or negation whose exact value is `x`. -/
def wrapInt32 (x : Int) : Int := (x + 2147483648) % 4294967296 - 2147483648

namespace Machine

/-- Constant `AV_SYNC_THRESHOLD_MIN`. -/
def AV_SYNC_THRESHOLD_MIN : ℚ := fl64 (8 / 1000)
/-- Constant `AV_SYNC_THRESHOLD_HALF`. -/
def AV_SYNC_THRESHOLD_HALF : ℚ := fl64 (25 / 1000)
/-- Constant `AV_SYNC_THRESHOLD_MAX`. -/
def AV_SYNC_THRESHOLD_MAX : ℚ := fl64 (8 / 100)
/-- Constant `AV_NOSYNC_THRESHOLD`. -/
def AV_NOSYNC_THRESHOLD : ℚ := fl64 5
/-- Constant `SYSTEM_DELAY_ESTIMATE`. -/
def SYSTEM_DELAY_ESTIMATE : ℚ := fl64 (2 / 1000)
/-- Constant `FINE_TUNE_RANGE`. -/
def FINE_TUNE_RANGE : ℚ := fl64 (5 / 1000)
/-- Constant `DELAY_REDUCTION_FACTOR`. -/
def DELAY_REDUCTION_FACTOR : ℚ := fl64 (6 / 10)
/-- Constant `DELAY_INCREASE_FACTOR`. -/
def DELAY_INCREASE_FACTOR : ℚ := fl64 (14 / 10)
/-- Constant `STABLE_VARIANCE_THRESHOLD`. -/
def STABLE_VARIANCE_THRESHOLD : ℚ := fl64 (2 / 10000)
/-- Constant `DEFAULT_FRAME_DURATION`, the quotient `1.0 / 30.0`. -/
def DEFAULT_FRAME_DURATION : ℚ := fl64 (1 / 30)
/-- Constant `FALLBACK_TO_SYSTEM_THRESHOLD`. -/
def FALLBACK_TO_SYSTEM_THRESHOLD : ℚ := fl64 (5 / 10)
/-- The literal `0.001` of the speed comparisons. -/
def SPEED_TOLERANCE : ℚ := fl64 (1 / 1000)

/-- Default member initialisers of `Clock`. -/
def clockInit : Clock :=
  { pts := 0, duration := 0, systemTime := 0, lastSystemTime := 0, presentationTime := 0,
    isValid := false, speed := 1, lastSpeed := 1, avgDuration := DEFAULT_FRAME_DURATION,
    updateCount := 0 }

/-- Method `Clock::update`. -/
def clockUpdate (c : Clock) (newPts newDuration currentSystemTime currentSpeed : ℚ) : Clock :=
  let speedChanged : Bool := decide (|fl64 (c.speed - currentSpeed)| > SPEED_TOLERANCE)
  let lastSystemTime := c.systemTime
  let presentationTime :=
    if c.isValid = true ∧ lastSystemTime > 0 ∧ speedChanged = false then newPts else newPts
  let avg : ℚ × Int :=
    if newDuration > 0 ∧ newDuration < 10 then
      if c.updateCount < 10 then
        (fl64 (fl64 (fl64 (c.avgDuration * c.updateCount) + newDuration) /
          ((c.updateCount + 1 : Int) : ℚ)), c.updateCount + 1)
      else
        (fl64 (fl64 (c.avgDuration * fl64 (95 / 100)) + fl64 (newDuration * fl64 (5 / 100))),
          c.updateCount)
    else (c.avgDuration, c.updateCount)
  { pts := newPts
    duration := newDuration
    systemTime := currentSystemTime
    lastSystemTime := lastSystemTime
    presentationTime := presentationTime
    isValid := decide (newPts ≠ AV_NOPTS_VALUE)
    speed := currentSpeed
    lastSpeed := c.speed
    avgDuration := avg.1
    updateCount := avg.2 }

/-- Method `Clock::getCurrentMediaTime`. -/
def clockGetCurrentMediaTime (c : Clock) (currentSystemTime : ℚ) : ℚ :=
  if c.isValid = false then 0
  else
    let elapsed := fl64 (currentSystemTime - c.systemTime)
    if |fl64 (c.speed - 1)| < SPEED_TOLERANCE then fl64 (c.pts + elapsed)
    else if |fl64 (c.speed - 2)| < SPEED_TOLERANCE then fl64 (c.pts + fl64 (elapsed * 2))
    else if |fl64 (c.speed - 1 / 2)| < SPEED_TOLERANCE then
      fl64 (c.pts + fl64 (elapsed * (1 / 2)))
    else if |fl64 (c.speed - 3 / 2)| < SPEED_TOLERANCE then
      fl64 (c.pts + fl64 (fl64 (elapsed * 3) / 2))
    else fl64 (c.pts + fl64 (elapsed * c.speed))

/-- Constructor `AVSyncManager::AVSyncManager`. -/
def new : AVSyncManager :=
  { videoClock_ := clockInit, audioClock_ := clockInit, paused_ := false, speed_ := 1,
    frameCount_ := 0, lastOffset_ := 0, syncLogs_ := [], consecutiveBadDelays_ := 0,
    lastGoodOffset_ := 0, forceSystemMode_ := false }

/-- Method `reset` (with `resetClocks`). -/
def reset (m : AVSyncManager) : AVSyncManager :=
  { m with
    audioClock_ := clockInit, videoClock_ := clockInit,
    frameCount_ := 0, lastOffset_ := 0, syncLogs_ := [], consecutiveBadDelays_ := 0,
    lastGoodOffset_ := 0, forceSystemMode_ := false }

/-- Method `setSpeed`. -/
def setSpeed (m : AVSyncManager) (speed : ℚ) : AVSyncManager :=
  if |fl64 (m.speed_ - speed)| < SPEED_TOLERANCE then m
  else
    let m1 := { m with speed_ := speed, forceSystemMode_ := false, consecutiveBadDelays_ := 0,
                       syncLogs_ := [] }
    if |fl64 (speed - stdRound speed)| > SPEED_TOLERANCE then { m1 with lastGoodOffset_ := 0 }
    else m1

/-- Method `updateAudioClock`; `now` is the reading of `getSystemClock()`. -/
def updateAudioClock (m : AVSyncManager) (pts duration now : ℚ) : AVSyncManager :=
  if AVSyncManager.isValidPts pts && AVSyncManager.isValidDuration duration then
    { m with audioClock_ := clockUpdate m.audioClock_ pts duration now m.speed_ }
  else m

/-- Method `getSpeedAdjustedSystemDelay`. -/
def getSpeedAdjustedSystemDelay (m : AVSyncManager) : ℚ :=
  if |fl64 (m.speed_ - 1)| < SPEED_TOLERANCE then SYSTEM_DELAY_ESTIMATE
  else if |fl64 (m.speed_ - 2)| < SPEED_TOLERANCE then fl64 (SYSTEM_DELAY_ESTIMATE * (1 / 2))
  else if |fl64 (m.speed_ - 1 / 2)| < SPEED_TOLERANCE then fl64 (SYSTEM_DELAY_ESTIMATE * 2)
  else if |fl64 (m.speed_ - 3 / 2)| < SPEED_TOLERANCE then
    fl64 (fl64 (SYSTEM_DELAY_ESTIMATE * 2) / 3)
  else fl64 (SYSTEM_DELAY_ESTIMATE / m.speed_)

/-- The value `calculateSystemBasedDelay`, `calculateBasicDelay` and
`calculateCorrectedDelay` start from, by the five-way branch on `speed_` each of them
begins with: the nominal delay `duration / speed`, with closed forms for the speeds 1,
2, 0.5 and 1.5. -/
def nominalDelay (m : AVSyncManager) (duration : ℚ) : ℚ :=
  if |fl64 (m.speed_ - 1)| < SPEED_TOLERANCE then duration
  else if |fl64 (m.speed_ - 2)| < SPEED_TOLERANCE then fl64 (duration * (1 / 2))
  else if |fl64 (m.speed_ - 1 / 2)| < SPEED_TOLERANCE then fl64 (duration * 2)
  else if |fl64 (m.speed_ - 3 / 2)| < SPEED_TOLERANCE then fl64 (fl64 (duration * 2) / 3)
  else fl64 (duration / m.speed_)

/-- Method `calculateSystemBasedDelay`. -/
def calculateSystemBasedDelay (m : AVSyncManager) (duration : ℚ) : Int :=
  let targetDelay : ℚ :=
    if |fl64 (m.speed_ - 1)| < SPEED_TOLERANCE then duration
    else if |fl64 (m.speed_ - 2)| < SPEED_TOLERANCE then fl64 (duration * (1 / 2))
    else if |fl64 (m.speed_ - 1 / 2)| < SPEED_TOLERANCE then fl64 (duration * 2)
    else if |fl64 (m.speed_ - 3 / 2)| < SPEED_TOLERANCE then fl64 (fl64 (duration * 2) / 3)
    else fl64 (duration / m.speed_)
  let targetDelay := fl64 (targetDelay - getSpeedAdjustedSystemDelay m)
  let targetDelay := max 0 targetDelay
  toInt32 (fl64 (targetDelay * 1000))

/-- Method `isSystemStable`. -/
def isSystemStable (m : AVSyncManager) : Bool :=
  if m.syncLogs_.length < MIN_STABLE_SAMPLES then false
  else
    let sum : ℚ := m.syncLogs_.foldl (fun sum offset => fl64 (sum + offset)) 0
    let mean : ℚ := fl64 (sum / m.syncLogs_.length)
    let variance : ℚ := m.syncLogs_.foldl
      (fun variance offset =>
        fl64 (variance + fl64 (fl64 (offset - mean) * fl64 (offset - mean)))) 0
    let variance := fl64 (variance / m.syncLogs_.length)
    let adjustedThreshold := fl64 (STABLE_VARIANCE_THRESHOLD * m.speed_)
    decide (variance < adjustedThreshold)

/-- Method `shouldUsePtsSync`. -/
def shouldUsePtsSync (m : AVSyncManager) : Bool :=
  if m.audioClock_.isValid = false ∨ m.videoClock_.isValid = false then false
  else if isSystemStable m = true ∧ |m.lastGoodOffset_| < AV_SYNC_THRESHOLD_MAX then true
  else if m.consecutiveBadDelays_ > 3 then false
  else true

/-- Method `calculateAVOffset`; `currentTime` is the reading of `getSystemClock()`. -/
def calculateAVOffset (m : AVSyncManager) (currentTime : ℚ) : ℚ :=
  if m.audioClock_.isValid = false ∨ m.videoClock_.isValid = false then 0
  else
    let audioCurrentTime := clockGetCurrentMediaTime m.audioClock_ currentTime
    let videoCurrentTime := clockGetCurrentMediaTime m.videoClock_ currentTime
    fl64 (audioCurrentTime - videoCurrentTime)

/-- Method `calculateBasicDelay`. -/
def calculateBasicDelay (m : AVSyncManager) (duration : ℚ) : Int :=
  let actualDuration : ℚ :=
    if |fl64 (m.speed_ - 1)| < SPEED_TOLERANCE then duration
    else if |fl64 (m.speed_ - 2)| < SPEED_TOLERANCE then fl64 (duration * (1 / 2))
    else if |fl64 (m.speed_ - 1 / 2)| < SPEED_TOLERANCE then fl64 (duration * 2)
    else if |fl64 (m.speed_ - 3 / 2)| < SPEED_TOLERANCE then fl64 (fl64 (duration * 2) / 3)
    else fl64 (duration / m.speed_)
  let baseDelay := fl64 (actualDuration - getSpeedAdjustedSystemDelay m)
  toInt32 (fl64 (max 0 baseDelay * 1000))

/-- Method `calculateCorrectedDelay`. -/
def calculateCorrectedDelay (m : AVSyncManager) (offset duration : ℚ) : Int :=
  let adjustedDelay : ℚ :=
    if |fl64 (m.speed_ - 1)| < SPEED_TOLERANCE then duration
    else if |fl64 (m.speed_ - 2)| < SPEED_TOLERANCE then fl64 (duration * (1 / 2))
    else if |fl64 (m.speed_ - 1 / 2)| < SPEED_TOLERANCE then fl64 (duration * 2)
    else if |fl64 (m.speed_ - 3 / 2)| < SPEED_TOLERANCE then fl64 (fl64 (duration * 2) / 3)
    else fl64 (duration / m.speed_)
  let adjustedDelay :=
    if offset > 0 then fl64 (adjustedDelay * DELAY_REDUCTION_FACTOR)
    else fl64 (adjustedDelay * DELAY_INCREASE_FACTOR)
  let adjustedDelay := fl64 (adjustedDelay - getSpeedAdjustedSystemDelay m)
  toInt32 (fl64 (max 0 adjustedDelay * 1000))

/-- Method `applyFineTune`. -/
def applyFineTune (m : AVSyncManager) (baseDelay : Int) (offset : ℚ) : Int :=
  if |offset| < FINE_TUNE_RANGE then baseDelay
  else if isSystemStable m = false then baseDelay
  else
    let absOffset := |offset|
    let adjustment : Int :=
      if absOffset < AV_SYNC_THRESHOLD_HALF then
        let adjustmentFactor := fl64 (150 / m.speed_)
        let adjustment : Int :=
          if offset > 0 then wrapInt32 (-toInt32 (fl64 (offset * adjustmentFactor)))
          else toInt32 (fl64 (-offset * adjustmentFactor))
        let maxAdjustment := toInt32 (fl64 (10 / m.speed_))
        qBound (wrapInt32 (-maxAdjustment)) adjustment maxAdjustment
      else 0
    wrapInt32 (baseDelay + adjustment)

/-- Method `sanitizeDelay`. -/
def sanitizeDelay (m : AVSyncManager) (delay : Int) (duration : ℚ) : Int :=
  let maxDelay := toInt32 (fl64 (fl64 (duration / m.speed_) * 2000))
  let minDelay : Int := 0
  qBound minDelay delay (min maxDelay MAX_REASONABLE_DELAY_MS)

/-- Lines 75 to 114 of `calculateVideoDelay`, for the state `m` after the video clock
update: the delay before fine-tuning and the state with the history and the counters
updated; `now2` is the reading of `getSystemClock()` inside `calculateAVOffset`. -/
def syncDelay (m : AVSyncManager) (effectiveDuration now2 : ℚ) : Int × AVSyncManager :=
  if m.audioClock_.isValid = false ∨ m.forceSystemMode_ = true ∨
      shouldUsePtsSync m = false then
    (calculateSystemBasedDelay m effectiveDuration, m)
  else
    let offset := calculateAVOffset m now2
    let absOffset := |offset|
    let m2 := m.logSyncOffset offset
    if absOffset > FALLBACK_TO_SYSTEM_THRESHOLD then
      let delay := calculateSystemBasedDelay m2 effectiveDuration
      let m3 := { m2 with consecutiveBadDelays_ := wrapInt32 (m2.consecutiveBadDelays_ + 1) }
      let m4 := if m3.consecutiveBadDelays_ > 5 then { m3 with forceSystemMode_ := true } else m3
      (delay, m4)
    else
      let m3 := { m2 with consecutiveBadDelays_ := 0, lastGoodOffset_ := offset }
      let delay : Int :=
        if absOffset < AV_SYNC_THRESHOLD_MIN then calculateBasicDelay m3 effectiveDuration
        else if absOffset < AV_SYNC_THRESHOLD_HALF then
          toInt32 (fl64 ((calculateBasicDelay m3 effectiveDuration : ℚ) * fl64 (7 / 10)))
        else if absOffset < AV_SYNC_THRESHOLD_MAX then
          calculateCorrectedDelay m3 offset effectiveDuration
        else if absOffset > AV_NOSYNC_THRESHOLD then
          calculateBasicDelay m3 effectiveDuration
        else calculateCorrectedDelay m3 offset effectiveDuration
      (delay, m3)

/-- Lines 66 to 69 of `calculateVideoDelay`: the duration the call works with. -/
def effectiveDurationOf (m : AVSyncManager) (duration : ℚ) : ℚ :=
  if AVSyncManager.isValidDuration duration = false then m.videoClock_.avgDuration
  else duration

/-- Lines 71 to 73 of `calculateVideoDelay`: the state after the video clock update;
`now1` is the reading of `getSystemClock()`. -/
def afterVideoUpdate (m : AVSyncManager) (pts duration now1 : ℚ) : AVSyncManager :=
  if AVSyncManager.isValidPts pts = true then
    { m with videoClock_ :=
        clockUpdate m.videoClock_ pts (effectiveDurationOf m duration) now1 m.speed_ }
  else m

/-- Method `calculateVideoDelay`: returns the delay in milliseconds and the state
after the call. -/
def calculateVideoDelay (m : AVSyncManager) (pts duration now1 now2 : ℚ) :
    Int × AVSyncManager :=
  if m.paused_ = true then (0, m)
  else
    let effectiveDuration := effectiveDurationOf m duration
    let m1 := afterVideoUpdate m pts duration now1
    let r := syncDelay m1 effectiveDuration now2
    let m5 := r.2
    let delay :=
      if m5.forceSystemMode_ = false ∧ m5.audioClock_.isValid = true then
        applyFineTune m5 r.1 m5.lastGoodOffset_
      else r.1
    let delay := sanitizeDelay m5 delay effectiveDuration
    (delay, { m5 with frameCount_ := wrapInt32 (m5.frameCount_ + 1) })

/-- States the engine can be in: the constructed one and whatever the public methods
make of it, for any arguments and any clock readings. -/
inductive Reachable : AVSyncManager → Prop where
  | new : Reachable Machine.new
  | reset {m : AVSyncManager} : Reachable m → Reachable (Machine.reset m)
  | pause {m : AVSyncManager} : Reachable m → Reachable m.pause
  | resume {m : AVSyncManager} : Reachable m → Reachable m.resume
  | setSpeed {m : AVSyncManager} (speed : ℚ) :
      Reachable m → Reachable (Machine.setSpeed m speed)
  | updateAudioClock {m : AVSyncManager} (pts duration now : ℚ) :
      Reachable m → Reachable (Machine.updateAudioClock m pts duration now)
  | calculateVideoDelay {m : AVSyncManager} (pts duration now1 now2 : ℚ) :
      Reachable m → Reachable (Machine.calculateVideoDelay m pts duration now1 now2).2

/-- Engine after one audio block (pts 10 s, 20 ms) reported at time 100 and the video
clock stamped at time 100 with pts 9.99 s for a frame of 92 ms: the state in which the
delay of that frame is chosen. -/
def bandTwoState : AVSyncManager :=
  afterVideoUpdate (Machine.updateAudioClock Machine.new 10 (fl64 (2 / 100)) 100)
    (fl64 (999 / 100)) (fl64 (92 / 1000)) 100

/-- Engine at speed 1 whose offset history holds eight offsets 0. -/
def stableZeros : AVSyncManager :=
  { Machine.new with syncLogs_ := [0, 0, 0, 0, 0, 0, 0, 0] }

end Machine

/-! ### `MediaBuffer.h` -/

/-- Constant `MAX_VIDEO_PACKETS`. -/
def MAX_VIDEO_PACKETS : Nat := 30
/-- Constant `MIN_VIDEO_PACKETS`. -/
def MIN_VIDEO_PACKETS : Nat := 15
/-- Constant `MAX_AUDIO_PACKETS`. -/
def MAX_AUDIO_PACKETS : Nat := 80
/-- Constant `MIN_AUDIO_PACKETS`. -/
def MIN_AUDIO_PACKETS : Nat := 40
/-- Constant `MAX_VIDEO_FRAMES`. -/
def MAX_VIDEO_FRAMES : Nat := 15
/-- Constant `MIN_VIDEO_FRAMES`. -/
def MIN_VIDEO_FRAMES : Nat := 6
/-- Constant `MAX_AUDIO_FRAMES`. -/
def MAX_AUDIO_FRAMES : Nat := 16
/-- Constant `MIN_AUDIO_FRAMES`. -/
def MIN_AUDIO_FRAMES : Nat := 8

/-- Data members of class `MediaBuffer`; `P` stands for `AVPacket` and `F` for
`AVFrame`. -/
structure MediaBuffer (P F : Type) where
  vPkts_ : queue.Queue P
  aPkts_ : queue.Queue P
  vFrms_ : queue.Queue F
  aFrms_ : queue.Queue F

/-- Constructor `MediaBuffer::MediaBuffer`: every member is built by
`Queue(size_t minSize, size_t maxSize)` from the two constants of the member
initialiser, in the order the initialiser writes them. -/
def MediaBuffer.new {P F : Type} : MediaBuffer P F :=
  { vPkts_ := queue.Queue.new MAX_VIDEO_PACKETS MIN_VIDEO_PACKETS
    aPkts_ := queue.Queue.new MAX_AUDIO_PACKETS MIN_AUDIO_PACKETS
    vFrms_ := queue.Queue.new MAX_VIDEO_FRAMES MIN_VIDEO_FRAMES
    aFrms_ := queue.Queue.new MAX_AUDIO_FRAMES MIN_AUDIO_FRAMES }

/-! ### `AudioPlayThread.cpp`: volume -/

/-- Constant `INT16_MIN`. -/
def INT16_MIN : Int := -32768
/-- Constant `INT16_MAX`. -/
def INT16_MAX : Int := 32767

/-- Conversion of a 32-bit integer to `int16_t`: reduction modulo 2^16 into the signed
range. -/
def toInt16 (x : Int) : Int := (x + 32768) % 65536 - 32768

namespace AudioPlayThread

/-- Method `setVolume`: the factor it stores in the `float` member `volume_`, the
binary32 quotient `volume / 100.0f` of the clamped argument. -/
def setVolume (volume : Int) : ℚ := fl32 (((qBound 0 volume 100 : Int) : ℚ) / 100)

/-- Method `processVolume` on a buffer that holds the 16-bit samples `samples`, for the
stored factor `volume_`; returns the samples the buffer holds afterwards.  The blocks of
256 samples of the source only group the same per-sample assignment; the product
`samples[j] * vol` is a binary32 product. -/
def processVolume (volume_ : ℚ) (samples : List Int) : List Int :=
  if volume_ < fl32 (1 / 1000) then samples.map (fun _ => 0)
  else if |fl32 (volume_ - 1)| < fl32 (1 / 1000) then samples
  else
    samples.map (fun (s : Int) =>
      let temp : Int := toInt32 (fl32 ((s : ℚ) * volume_))
      let temp := min (max temp INT16_MIN) INT16_MAX
      toInt16 temp)

end AudioPlayThread

/-- Output sample for the clamped volume `v` (0 to 100) and the input sample `s`: 0 for
`v = 0`, `s` for `v = 100`, otherwise the binary32 product of `s` and the binary32
factor `v / 100`, truncated toward zero. -/
def scaledSample (v s : Int) : Int :=
  if v = 0 then 0 else if v = 100 then s else castInt (fl32 ((s : ℚ) * fl32 ((v : ℚ) / 100)))

/-! ### `DemuxThread.cpp` and `VideoPlayThread.cpp`: `init`, `start`, `setSpeed`

A thread object carries, next to its data members, the flag `threadActive`: the thread
of the `QThread` base object executes `run()`.  `QThread::start()` starts that thread
when it is not active and does nothing when it is. -/

/-- Answers of `MediaContext` and of `av_packet_alloc` to one `DemuxThread::init`. -/
structure DemuxEnv where
  formatContext : Option Nat
  live : Bool
  hasVideo : Bool
  videoStreamIndex : Int
  hasAudio : Bool
  audioStreamIndex : Int
  packetAlloc : Option Nat
deriving DecidableEq

/-- Data members of class `DemuxThread` (`src/VideoPlayer/VideoPlayer`); pointers are
handles, `buffer_` says whether the shared pointer is non-null. -/
structure DemuxThread where
  buffer_ : Bool
  fmtCtx_ : Option Nat
  pkt_ : Option Nat
  vSIdx_ : Int
  aSIdx_ : Int
  seekPos_ : Int
  seeking_ : Bool
  eof_ : Bool
  isLive_ : Bool
  running_ : Bool
  threadActive : Bool
deriving DecidableEq

namespace DemuxThread

/-- Constructor `DemuxThread::DemuxThread`. -/
def new (buffer : Bool) : DemuxThread :=
  { buffer_ := buffer, fmtCtx_ := none, pkt_ := none, vSIdx_ := -1, aSIdx_ := -1,
    seekPos_ := 0, seeking_ := false, eof_ := false, isLive_ := false, running_ := false,
    threadActive := false }

/-- Method `cleanup`. -/
def cleanup (t : DemuxThread) : DemuxThread :=
  { t with pkt_ := none, fmtCtx_ := none, vSIdx_ := -1, aSIdx_ := -1 }

/-- Method `init`; returns its result and the state it leaves. -/
def init (t : DemuxThread) (env : DemuxEnv) : Bool × DemuxThread :=
  let t1 := { t with running_ := false, eof_ := false, seeking_ := false }
  let t2 := t1.cleanup
  if t2.buffer_ = false then (false, t2)
  else
    let t3 := { t2 with fmtCtx_ := env.formatContext }
    if t3.fmtCtx_ = none then (false, t3)
    else
      let t4 := { t3 with isLive_ := env.live }
      let t5 := if env.hasVideo = true then { t4 with vSIdx_ := env.videoStreamIndex } else t4
      let t6 := if env.hasAudio = true then { t5 with aSIdx_ := env.audioStreamIndex } else t5
      if t6.vSIdx_ < 0 ∧ t6.aSIdx_ < 0 then (false, t6)
      else
        let t7 := { t6 with pkt_ := env.packetAlloc }
        if t7.pkt_ = none then (false, t7) else (true, t7)

/-- Method `start`. -/
def start (t : DemuxThread) (env : DemuxEnv) : DemuxThread :=
  let r := t.init env
  if r.1 = false then r.2 else { r.2 with threadActive := true }

/-- First statement of `run()`, executed by the started thread. -/
def runEntry (t : DemuxThread) : DemuxThread := { t with running_ := true }

/-- Method `seek`. -/
def seek (t : DemuxThread) (seconds : Int) : DemuxThread :=
  if t.running_ = false ∨ t.isLive_ = true then t
  else { t with seekPos_ := seconds, seeking_ := true, eof_ := false }

/-- A file with one video stream (index 0) and one audio stream (index 1); the format
context is handle 7 and `av_packet_alloc` returns handle `pkt`. -/
def fileEnv (pkt : Nat) : DemuxEnv :=
  { formatContext := some 7, live := false, hasVideo := true, videoStreamIndex := 0,
    hasAudio := true, audioStreamIndex := 1, packetAlloc := some pkt }

/-- A demux thread started on `fileEnv 1`, running, with a seek to second 30 pending. -/
def runningWithSeek : DemuxThread :=
  (((DemuxThread.new true).start (fileEnv 1)).runEntry).seek 30

end DemuxThread

namespace legacy

/-- Data members of class `DemuxThread` of `src/src/DemuxThread.cpp` that `start()`,
`seek()` and the head of `run()` read or write. -/
structure DemuxThread where
  pkt_ : Option Nat
  seekSeconds_ : Int
  inited_ : Bool
  eof_ : Bool
  seeking_ : Bool
  running_ : Bool
  started_ : Bool
  threadActive : Bool
deriving DecidableEq

/-- Method `DemuxThread::start` of `src/src/DemuxThread.cpp`. -/
def DemuxThread.start (t : DemuxThread) : DemuxThread :=
  if t.started_ = true then t
  else
    let t1 := { t with started_ := true }
    if t1.inited_ = false then t1 else { t1 with threadActive := true }

end legacy

/-- Data members of class `VideoPlayThread`; `buffer_` and `yuvRenderer_` say whether
the pointer is non-null, `syncManager_` is `none` for the null pointer. -/
structure VideoPlayThread where
  buffer_ : Bool
  syncManager_ : Option AVSyncManager
  yuvRenderer_ : Bool
  curTime_ : ℚ
  speed_ : ℚ
  paused_ : Bool
  running_ : Bool
  threadActive : Bool
deriving DecidableEq

namespace VideoPlayThread

/-- Constructor `VideoPlayThread::VideoPlayThread`. -/
def new (buffer yuvRenderer : Bool) : VideoPlayThread :=
  { buffer_ := buffer, syncManager_ := none, yuvRenderer_ := yuvRenderer, curTime_ := 0,
    speed_ := 1, paused_ := false, running_ := false, threadActive := false }

/-- Method `init`; returns its result and the state it leaves (`std::make_shared`
returns an object). -/
def init (t : VideoPlayThread) : Bool × VideoPlayThread :=
  let t1 := { t with running_ := false, paused_ := false, curTime_ := 0 }
  if t1.buffer_ = false then (false, t1)
  else if t1.yuvRenderer_ = false then (false, t1)
  else
    match t1.syncManager_ with
    | none => (true, { t1 with syncManager_ := some AVSyncManager.new })
    | some _ => (true, t1)

/-- Method `start`. -/
def start (t : VideoPlayThread) : VideoPlayThread :=
  let r := t.init
  if r.1 = false then r.2 else { r.2 with threadActive := true }

/-- First statement of `run()`, executed by the started thread. -/
def runEntry (t : VideoPlayThread) : VideoPlayThread := { t with running_ := true }

/-- Method `pause`. -/
def pause (t : VideoPlayThread) : VideoPlayThread :=
  if t.paused_ = false then
    { t with syncManager_ := t.syncManager_.map AVSyncManager.pause, paused_ := true }
  else t

/-- Method `setSpeed`. -/
def setSpeed (t : VideoPlayThread) (speed : ℚ) : VideoPlayThread :=
  if |t.speed_ - speed| < 1 / 100 then t
  else
    { t with
      speed_ := speed
      syncManager_ := t.syncManager_.map (fun s => s.setSpeed speed) }

/-- Speed of the sync engine, when the engine exists. -/
def syncSpeed (t : VideoPlayThread) : Option ℚ := t.syncManager_.map AVSyncManager.speed_

end VideoPlayThread

/-! ## Part 2. Theorems -/

namespace queue

/-- One call keeps the capacity and keeps the size within it. -/
theorem step_size_le {α : Type} (q : Queue α) (op : Op α)
    (h : q.queue_.length ≤ q.maxSize_) :
    (q.step op).1.queue_.length ≤ (q.step op).1.maxSize_ ∧
      (q.step op).1.maxSize_ = q.maxSize_ := by
  cases op with
  | enqueue item =>
    cases item with
    | none => simp [Queue.step, Queue.enqueue, h]
    | some x =>
      by_cases ha : q.abort_ = true
      · simp [Queue.step, Queue.enqueue, ha, h]
      · by_cases hl : q.queue_.length < q.maxSize_
        · simp [Queue.step, Queue.enqueue, Queue.enqueueStep, ha, hl]
          omega
        · simp [Queue.step, Queue.enqueue, Queue.enqueueStep, ha, hl, h]
  | dequeue =>
    by_cases ha : q.abort_ = true
    · simp [Queue.step, Queue.dequeue, ha, h]
    · cases hq : q.queue_ with
      | nil => simp [Queue.step, Queue.dequeue, ha, hq]
      | cons y ys =>
        rw [hq] at h
        simp only [List.length_cons] at h
        simp [Queue.step, Queue.dequeue, ha, hq]
        omega
  | clear => simp [Queue.step, Queue.clear]
  | abort => simp [Queue.step, Queue.abort, h]
  | resume => simp [Queue.step, Queue.resume, h]

/-- A run of calls keeps the capacity and keeps the size within it. -/
theorem run_size_le {α : Type} (ops : List (Op α)) (q : Queue α)
    (h : q.queue_.length ≤ q.maxSize_) :
    (q.run ops).1.queue_.length ≤ (q.run ops).1.maxSize_ ∧
      (q.run ops).1.maxSize_ = q.maxSize_ := by
  induction ops generalizing q with
  | nil => simp [Queue.run, h]
  | cons op ops ih =>
    have h1 := step_size_le q op h
    have h2 := ih (q.step op).1 h1.1
    simp only [Queue.run]
    exact ⟨h2.1, h2.2.trans h1.2⟩

/-- C1: for a queue built by the constructor with any limits and any finite sequence
of enqueue, dequeue and clear calls (abort and resume are allowed as well, each call
one atomic step), after every step, that is after every initial segment of the
sequence, `0 ≤ size() ≤ maxSize` holds, where `maxSize` is the capacity stored by the
constructor. -/
theorem size_within_capacity {α : Type} (minSize maxSize : Nat) (ops : List (Op α))
    (n : Nat) :
    0 ≤ ((Queue.new minSize maxSize : Queue α).run (ops.take n)).1.size ∧
      ((Queue.new minSize maxSize : Queue α).run (ops.take n)).1.size ≤
        ((Queue.new minSize maxSize : Queue α).run (ops.take n)).1.maxSize_ ∧
      ((Queue.new minSize maxSize : Queue α).run (ops.take n)).1.maxSize_ =
        (if maxSize < minSize then minSize else maxSize) := by
  have h := run_size_le (ops.take n) (Queue.new minSize maxSize : Queue α)
    (by simp [Queue.new])
  exact ⟨Nat.zero_le _, h.1, h.2⟩

/-- Effect of `enqueue(nullptr)` as a step. -/
theorem step_enqueue_none {α : Type} (q : Queue α) :
    q.step (.enqueue none) = (q, .silent) := by
  simp [Queue.step, Queue.enqueue]

/-- Effect of `enqueue` on an aborted queue. -/
theorem step_enqueue_aborted {α : Type} (q : Queue α) (x : α) (ha : q.abort_ = true) :
    q.step (.enqueue (some x)) = (q, .silent) := by
  simp [Queue.step, Queue.enqueue, ha]

/-- Effect of `enqueue` when there is room. -/
theorem step_enqueue_room {α : Type} (q : Queue α) (x : α) (ha : q.abort_ = false)
    (hl : q.queue_.length < q.maxSize_) :
    q.step (.enqueue (some x)) = ({ q with queue_ := q.queue_ ++ [x] }, .enqueued x) := by
  simp [Queue.step, Queue.enqueue, Queue.enqueueStep, ha, hl]

/-- Effect of `enqueue` on a full queue. -/
theorem step_enqueue_full {α : Type} (q : Queue α) (x : α) (ha : q.abort_ = false)
    (hl : ¬ q.queue_.length < q.maxSize_) :
    q.step (.enqueue (some x)) = (q, .silent) := by
  simp [Queue.step, Queue.enqueue, Queue.enqueueStep, ha, hl]

/-- Effect of `dequeue` on an aborted queue. -/
theorem step_dequeue_aborted {α : Type} (q : Queue α) (ha : q.abort_ = true) :
    q.step .dequeue = (q, .silent) := by
  simp [Queue.step, Queue.dequeue, ha]

/-- Effect of `dequeue` on an empty queue. -/
theorem step_dequeue_nil {α : Type} (q : Queue α) (ha : q.abort_ = false)
    (hq : q.queue_ = []) :
    q.step .dequeue = (q, .silent) := by
  simp [Queue.step, Queue.dequeue, ha, hq]

/-- Effect of `dequeue` on a non-empty queue. -/
theorem step_dequeue_cons {α : Type} (q : Queue α) (y : α) (ys : List α)
    (ha : q.abort_ = false) (hq : q.queue_ = y :: ys) :
    q.step .dequeue = ({ q with queue_ := ys }, .dequeued y) := by
  simp [Queue.step, Queue.dequeue, ha, hq]

/-- Without `clear`, what was stored plus what went in is what came out plus what is
stored, in order. -/
theorem run_fifo {α : Type} (ops : List (Op α)) (q : Queue α)
    (h : ∀ op ∈ ops, op ≠ Op.clear) :
    q.queue_ ++ enqueuedItems (q.run ops).2 =
      dequeuedItems (q.run ops).2 ++ (q.run ops).1.queue_ := by
  induction ops generalizing q with
  | nil => simp [Queue.run, enqueuedItems, dequeuedItems]
  | cons op ops ih =>
    have ih2 := ih (q.step op).1 (fun o ho => h o (List.mem_cons_of_mem _ ho))
    have hop := h op (List.mem_cons_self _ _)
    simp only [Queue.run]
    cases op with
    | enqueue item =>
      cases item with
      | none =>
        rw [step_enqueue_none] at ih2 ⊢
        simpa [enqueuedItems, dequeuedItems] using ih2
      | some x =>
        cases ha : q.abort_ with
        | true =>
          rw [step_enqueue_aborted q x ha] at ih2 ⊢
          simpa [enqueuedItems, dequeuedItems] using ih2
        | false =>
          by_cases hl : q.queue_.length < q.maxSize_
          · rw [step_enqueue_room q x ha hl] at ih2 ⊢
            simpa [enqueuedItems, dequeuedItems] using ih2
          · rw [step_enqueue_full q x ha hl] at ih2 ⊢
            simpa [enqueuedItems, dequeuedItems] using ih2
    | dequeue =>
      cases ha : q.abort_ with
      | true =>
        rw [step_dequeue_aborted q ha] at ih2 ⊢
        simpa [enqueuedItems, dequeuedItems] using ih2
      | false =>
        cases hq : q.queue_ with
        | nil =>
          rw [step_dequeue_nil q ha hq] at ih2 ⊢
          rw [hq] at ih2
          simpa [enqueuedItems, dequeuedItems] using ih2
        | cons y ys =>
          rw [step_dequeue_cons q y ys ha hq] at ih2 ⊢
          simpa [enqueuedItems, dequeuedItems] using ih2
    | clear => exact absurd rfl hop
    | abort => simpa [Queue.step, Queue.abort, enqueuedItems, dequeuedItems] using ih2
    | resume => simpa [Queue.step, Queue.resume, enqueuedItems, dequeuedItems] using ih2

/-- A run of `enqueue` and `dequeue` calls leaves the abort flag as it was. -/
theorem run_abort_unchanged {α : Type} (ops : List (Op α)) (q : Queue α)
    (h : ∀ op ∈ ops, op = Op.dequeue ∨ ∃ item, op = Op.enqueue item) :
    (q.run ops).1.abort_ = q.abort_ := by
  induction ops generalizing q with
  | nil => simp [Queue.run]
  | cons op ops ih =>
    have ih2 := ih (q.step op).1 (fun o ho => h o (List.mem_cons_of_mem _ ho))
    have hop := h op (List.mem_cons_self _ _)
    simp only [Queue.run]
    rw [ih2]
    cases op with
    | enqueue item =>
      cases item with
      | none => rw [step_enqueue_none]
      | some x =>
        cases ha : q.abort_ with
        | true => rw [step_enqueue_aborted q x ha]; exact ha
        | false =>
          by_cases hl : q.queue_.length < q.maxSize_
          · rw [step_enqueue_room q x ha hl]; exact ha
          · rw [step_enqueue_full q x ha hl]; exact ha
    | dequeue =>
      cases ha : q.abort_ with
      | true => rw [step_dequeue_aborted q ha]; exact ha
      | false =>
        cases hq : q.queue_ with
        | nil => rw [step_dequeue_nil q ha hq]; exact ha
        | cons y ys => rw [step_dequeue_cons q y ys ha hq]; exact ha
    | clear => simp at hop
    | abort => simp at hop
    | resume => simp at hop

/-- C5: on a queue fresh from the constructor, for every sequence of enqueue and
dequeue calls (no `clear`; the queue is never aborted), the items of the successful
enqueues `x1..xn` are exactly the items returned by the successful dequeues followed by
the items still stored, so the k-th successful dequeue returns `xk`. -/
theorem dequeue_order_is_enqueue_order {α : Type} (minSize maxSize : Nat)
    (ops : List (Op α))
    (h : ∀ op ∈ ops, op = Op.dequeue ∨ ∃ item, op = Op.enqueue item) :
    enqueuedItems ((Queue.new minSize maxSize : Queue α).run ops).2 =
        dequeuedItems ((Queue.new minSize maxSize : Queue α).run ops).2 ++
          ((Queue.new minSize maxSize : Queue α).run ops).1.queue_ ∧
      ((Queue.new minSize maxSize : Queue α).run ops).1.abort_ = false ∧
      ∀ (k : Nat) (y : α),
        (dequeuedItems ((Queue.new minSize maxSize : Queue α).run ops).2)[k]? = some y →
        (enqueuedItems ((Queue.new minSize maxSize : Queue α).run ops).2)[k]? = some y := by
  have hc : ∀ op ∈ ops, op ≠ Op.clear := by
    intro op ho hcl
    rcases h op ho with h1 | ⟨item, h1⟩ <;> rw [h1] at hcl <;> cases hcl
  have hf := run_fifo ops (Queue.new minSize maxSize : Queue α) hc
  have hf2 : enqueuedItems ((Queue.new minSize maxSize : Queue α).run ops).2 =
      dequeuedItems ((Queue.new minSize maxSize : Queue α).run ops).2 ++
        ((Queue.new minSize maxSize : Queue α).run ops).1.queue_ := by
    simpa [Queue.new] using hf
  refine ⟨hf2, ?_, ?_⟩
  · rw [run_abort_unchanged ops _ h]
    rfl
  · intro k y hk
    rw [hf2]
    have hlt : k < (dequeuedItems ((Queue.new minSize maxSize : Queue α).run ops).2).length := by
      by_contra hge
      rw [List.getElem?_eq_none (Nat.le_of_not_lt hge)] at hk
      cases hk
    rw [List.getElem?_append_left hlt]
    exact hk

/-- Witness for C5: three enqueues interleaved with two dequeues on a 1/2 queue. -/
theorem dequeue_order_is_enqueue_order_witness :
    dequeuedItems ((Queue.new 1 2 : Queue Nat).run
        [.enqueue (some 7), .enqueue (some 8), .dequeue, .enqueue (some 9), .dequeue]).2 =
      [7, 8] ∧
    enqueuedItems ((Queue.new 1 2 : Queue Nat).run
        [.enqueue (some 7), .enqueue (some 8), .dequeue, .enqueue (some 9), .dequeue]).2 =
      dequeuedItems ((Queue.new 1 2 : Queue Nat).run
        [.enqueue (some 7), .enqueue (some 8), .dequeue, .enqueue (some 9), .dequeue]).2 ++
      ((Queue.new 1 2 : Queue Nat).run
        [.enqueue (some 7), .enqueue (some 8), .dequeue, .enqueue (some 9), .dequeue]).1.queue_ :=
  ⟨by decide,
    (dequeue_order_is_enqueue_order 1 2
      [.enqueue (some 7), .enqueue (some 8), .dequeue, .enqueue (some 9), .dequeue]
      (by simp)).1⟩

/-- On a queue that is not aborted, `n` dequeues drop the first `n` stored items and
touch nothing else. -/
theorem dequeueN_eq_drop {α : Type} (n : Nat) (q : Queue α) (ha : q.abort_ = false) :
    q.dequeueN n = { q with queue_ := q.queue_.drop n } := by
  induction n generalizing q with
  | zero => simp [Queue.dequeueN]
  | succ n ih =>
    cases hq : q.queue_ with
    | nil =>
      have h1 : q.dequeue.q = q := by simp [Queue.dequeue, ha, hq]
      rw [Queue.dequeueN, h1, ih q ha, hq]
      simp
    | cons y ys =>
      have h1 : q.dequeue.q = { q with queue_ := ys } := by simp [Queue.dequeue, ha, hq]
      rw [Queue.dequeueN, h1, ih { q with queue_ := ys } ha]
      simp

/-- C2, as stated, fails: on the queue with limits 6 and 15 filled to 15 items an
enqueue finds the queue full and waits, and after one single dequeue (fewer than
15 - 6 = 9, size 14 still above minSize) the next pass of its loop stores the item and
returns true. -/
theorem enqueue_completes_after_one_dequeue :
    filled15.minSize_ = 6 ∧ filled15.maxSize_ = 15 ∧ filled15.size = 15 ∧
      filled15.abort_ = false ∧
      (filled15.enqueue (some 16)).outcome = .waiting ∧
      (filled15.dequeueN 1).size = 14 ∧ ¬ (filled15.dequeueN 1).size ≤ filled15.minSize_ ∧
      ((filled15.dequeueN 1).enqueueStep 16).outcome = .returned true := by
  decide

/-- C2, amended: with minSize = 6 and maxSize = 15 and the queue filled to 15 items, an
enqueue that finds the queue full waits without changing the queue; the pass of its
loop after its timed wait completes (returns true) as soon as at least one dequeue has
happened, for every number k of dequeues from 1 to 15; what needs 15 - 6 = 9 dequeues
is the notFull wake-up: the dequeue number k + 1 issues it exactly when 9 ≤ k + 1,
that is when it leaves size ≤ minSize. -/
theorem full_enqueue_waits_for_one_dequeue {α : Type} (q : Queue α) (x : α)
    (hmin : q.minSize_ = 6) (hmax : q.maxSize_ = 15) (hlen : q.queue_.length = 15)
    (ha : q.abort_ = false) :
    q.enqueue (some x) = ⟨q, .waiting, .none⟩ ∧
      (∀ k, 1 ≤ k → k ≤ 15 →
        ((q.dequeueN k).enqueueStep x).outcome = .returned true ∧
          (q.dequeueN k).size = 15 - k) ∧
      (∀ k, k < 15 →
        ((q.dequeueN k).dequeue.wake = .notFullAll ↔ 9 ≤ k + 1) ∧
          ((q.dequeueN k).dequeue.wake = .notFullAll ↔
            (q.dequeueN (k + 1)).size ≤ q.minSize_)) := by
  refine ⟨?_, ?_, ?_⟩
  · simp [Queue.enqueue, Queue.enqueueStep, ha, hlen, hmax]
  · intro k h1 h15
    rw [dequeueN_eq_drop k q ha]
    have hlt : 15 - k < 15 := by omega
    simp [Queue.enqueueStep, Queue.size, ha, hlen, hmax, hlt]
  · intro k hk
    have hd : (q.queue_.drop k).length = 15 - k := by simp [hlen]
    have hs : (q.dequeueN (k + 1)).size = 14 - k := by
      rw [dequeueN_eq_drop (k + 1) q ha]
      simp [Queue.size, hlen]
    rw [hs, dequeueN_eq_drop k q ha]
    cases hq : q.queue_.drop k with
    | nil => rw [hq] at hd; simp at hd; omega
    | cons y ys =>
      rw [hq] at hd
      simp only [List.length_cons] at hd
      have hys : ys.length = 14 - k := by omega
      by_cases h9 : 9 ≤ k + 1
      · have h6 : 14 - k ≤ 6 := by omega
        simp [Queue.dequeue, ha, hq, hmin, hys, h6, h9]
      · have h6 : ¬ 14 - k ≤ 6 := by omega
        simp [Queue.dequeue, ha, hq, hmin, hys, h6, h9]

/-- Witness for C2 (amended) on the queue holding the items 1 to 15. -/
theorem full_enqueue_waits_for_one_dequeue_witness :
    filled15.enqueue (some 16) = ⟨filled15, .waiting, .none⟩ ∧
      ((filled15.dequeueN 1).enqueueStep 16).outcome = .returned true ∧
      ¬ (filled15.dequeueN 7).dequeue.wake = .notFullAll ∧
      (filled15.dequeueN 8).dequeue.wake = .notFullAll :=
  have h := full_enqueue_waits_for_one_dequeue filled15 16 (by decide) (by decide)
    (by decide) (by decide)
  ⟨h.1, (h.2.1 1 (by decide) (by decide)).1,
    fun hw => absurd (((h.2.2 7 (by decide)).1).mp hw) (by decide),
    ((h.2.2 8 (by decide)).1).mpr (by decide)⟩

/-- C3: when the aborted flag is set, `enqueue(item)` returns false and `dequeue()`
returns null whatever the queue holds (also a non-empty queue for dequeue and a non-full
one for enqueue), the same holds for a pass of the enqueue loop of a call already in
flight, the stored items and limits are unchanged and no signal is issued;
`enqueue(nullptr)` returns false whether or not the queue is aborted. -/
theorem aborted_calls_fail {α : Type} (q : Queue α) (item : Option α) (x : α) :
    (q.abort_ = true →
      q.enqueue item = ⟨q, .returned false, .none⟩ ∧
        q.enqueueStep x = ⟨q, .returned false, .none⟩ ∧
        q.dequeue = ⟨q, .returned none, .none⟩) ∧
      q.enqueue none = ⟨q, .returned false, .none⟩ := by
  refine ⟨?_, rfl⟩
  intro ha
  refine ⟨?_, ?_, ?_⟩
  · cases item with
    | none => rfl
    | some y => simp [Queue.enqueue, ha]
  · simp [Queue.enqueueStep, ha]
  · simp [Queue.dequeue, ha]

/-- Witness for C3: an aborted queue holding the single item 4 with room for more. -/
theorem aborted_calls_fail_witness :
    (Queue.mk [4] true 1 3).enqueue (some 5) = ⟨Queue.mk [4] true 1 3, .returned false, .none⟩ ∧
      (Queue.mk [4] true 1 3).dequeue = ⟨Queue.mk [4] true 1 3, .returned none, .none⟩ :=
  have h := (aborted_calls_fail (Queue.mk [4] true 1 3) (some 5) 5).1 rfl
  ⟨h.1, h.2.2⟩

/-- An accepted or rejected `setLimit` keeps ordered watermarks ordered. -/
theorem setLimit_keeps_order {α : Type} (q : Queue α) (a b : Nat)
    (h : q.minSize_ ≤ q.maxSize_) :
    (q.setLimit a b).minSize_ ≤ (q.setLimit a b).maxSize_ := by
  unfold Queue.setLimit
  split
  · exact h
  · rename_i hn
    simp only [not_or, not_le, not_lt] at hn
    simp only
    omega

/-- With a positive `minSize` the constructor and every later sequence of `setLimit`
calls store ordered watermarks. -/
theorem watermarks_ordered_of_pos {α : Type} (minSize maxSize : Nat)
    (limits : List (Nat × Nat)) (hpos : 0 < minSize) :
    ((Queue.new minSize maxSize : Queue α).setLimits limits).minSize_ ≤
      ((Queue.new minSize maxSize : Queue α).setLimits limits).maxSize_ := by
  have h0 : (Queue.new minSize maxSize : Queue α).minSize_ ≤
      (Queue.new minSize maxSize : Queue α).maxSize_ := by
    simp only [Queue.new]
    rw [if_neg (by omega)]
    split <;> omega
  generalize (Queue.new minSize maxSize : Queue α) = q at h0
  induction limits generalizing q with
  | nil => exact h0
  | cons p rest ih =>
    cases p with
    | mk a b => exact ih _ (setLimit_keeps_order q a b h0)

/-- C4: the code breaks the claim at `Queue(0, 3)`: the constructor stores
minSize = 5 (the default) and maxSize = 3, so minSize ≤ maxSize fails, and the
rejected calls `setLimit(4, 2)` and `setLimit(0, 7)` leave the watermarks that way. -/
theorem constructor_default_min_above_max :
    (Queue.new 0 3 : Queue Nat).minSize_ = 5 ∧ (Queue.new 0 3 : Queue Nat).maxSize_ = 3 ∧
      ¬ (Queue.new 0 3 : Queue Nat).minSize_ ≤ (Queue.new 0 3 : Queue Nat).maxSize_ ∧
      ¬ ((Queue.new 0 3 : Queue Nat).setLimits [(4, 2), (0, 7)]).minSize_ ≤
        ((Queue.new 0 3 : Queue Nat).setLimits [(4, 2), (0, 7)]).maxSize_ := by
  decide

end queue

/-! ### Sync engine -/

/-- On non-negative values the `int` conversion is the floor. -/
theorem castInt_of_nonneg {x : ℚ} (h : 0 ≤ x) : castInt x = ⌊x⌋ := by
  simp [castInt, h]

/-- The `int` conversion of a non-negative value is non-negative. -/
theorem castInt_nonneg {x : ℚ} (h : 0 ≤ x) : 0 ≤ castInt x := by
  rw [castInt_of_nonneg h]
  exact Int.floor_nonneg.mpr h

/-- The `int` conversion of a non-negative value does not exceed it. -/
theorem castInt_le_self {x : ℚ} (h : 0 ≤ x) : ((castInt x : Int) : ℚ) ≤ x := by
  rw [castInt_of_nonneg h]
  exact Int.floor_le x

/-- The `int` conversion is monotone on non-negative values. -/
theorem castInt_mono {x y : ℚ} (hx : 0 ≤ x) (hxy : x ≤ y) : castInt x ≤ castInt y := by
  rw [castInt_of_nonneg hx, castInt_of_nonneg (le_trans hx hxy)]
  exact Int.floor_mono hxy

/-- A bound with ordered limits lies between them. -/
theorem qBound_mem {lo val hi : Int} (h : lo ≤ hi) :
    lo ≤ qBound lo val hi ∧ qBound lo val hi ≤ hi := by
  unfold qBound
  constructor
  · exact le_max_left _ _
  · exact max_le h (min_le_left _ _)

/-- A value already between the limits is returned unchanged. -/
theorem qBound_eq_self {lo val hi : Int} (h1 : lo ≤ val) (h2 : val ≤ hi) :
    qBound lo val hi = val := by
  unfold qBound
  rw [min_eq_right h2, max_eq_right h1]

namespace AVSyncManager

/-- C7: while the engine is paused, `calculateVideoDelay(pts, duration)` returns 0 for
every pts, duration, clock reading and engine state, and the state after the call is
the state before it: neither clock, nor the offset history, nor any counter changes. -/
theorem paused_delay_is_zero (m : AVSyncManager) (pts duration now1 now2 : ℚ)
    (hp : m.paused_ = true) :
    m.calculateVideoDelay pts duration now1 now2 = (0, m) := by
  simp [calculateVideoDelay, hp]

/-- Witness for C7: the paused fresh engine, asked for a 33 ms frame. -/
theorem paused_delay_is_zero_witness :
    AVSyncManager.new.pause.paused_ = true ∧
      AVSyncManager.new.pause.calculateVideoDelay 1 (33 / 1000) 5 5 =
        (0, AVSyncManager.new.pause) :=
  ⟨rfl, paused_delay_is_zero AVSyncManager.new.pause 1 (33 / 1000) 5 5 rfl⟩

/-- The state `syncedOnce` is reachable. -/
theorem syncedOnce_reachable : Reachable syncedOnce :=
  Reachable.calculateVideoDelay 0 (33 / 1000) 100 100
    (Reachable.updateAudioClock 0 (2 / 100) 100 Reachable.new)

/-- The state `syncedOnce` runs at speed 1, holds one offset sample and is not paused. -/
theorem syncedOnce_fields :
    syncedOnce.speed_ = 1 ∧ syncedOnce.syncLogs_ = [0] ∧ syncedOnce.paused_ = false := by
  refine ⟨?_, ?_, ?_⟩ <;>
  · simp [syncedOnce, calculateVideoDelay, syncDelay, updateAudioClock, AVSyncManager.new,
      isValidPts, isValidDuration, Clock.update, Clock.init, AV_NOPTS_VALUE, shouldUsePtsSync,
      isSystemStable, logSyncOffset, calculateAVOffset, Clock.getCurrentMediaTime,
      MIN_STABLE_SAMPLES, AV_SYNC_HISTORY_SIZE, FALLBACK_TO_SYSTEM_THRESHOLD]
    norm_num

/-- C10, as stated, fails: in the reachable state `syncedOnce` (speed 1, one offset
sample) the call `setSpeed(1.0)` returns at its first test and the offset history
still holds the sample. -/
theorem setSpeed_same_speed_keeps_history :
    Reachable syncedOnce ∧ (syncedOnce.setSpeed 1).syncLogs_ = [0] ∧
      (syncedOnce.setSpeed 1).syncLogs_ ≠ [] := by
  have h : (syncedOnce.setSpeed 1).syncLogs_ = [0] := by
    rw [setSpeed, if_pos (by rw [syncedOnce_fields.1]; norm_num)]
    exact syncedOnce_fields.2.1
  refine ⟨syncedOnce_reachable, h, ?_⟩
  rw [h]
  simp

/-- C10, amended: for every engine state and every newSpeed that differs from the
current speed by at least 0.001, after `setSpeed(newSpeed)` the offset history is
empty, the force-system-mode flag is false, the consecutive-bad counter is 0 and the
speed is newSpeed; when the difference is below 0.001 the call changes nothing. -/
theorem setSpeed_changed_clears_sync_state (m : AVSyncManager) (speed : ℚ) :
    (¬ |m.speed_ - speed| < 1 / 1000 →
      (m.setSpeed speed).syncLogs_ = [] ∧ (m.setSpeed speed).forceSystemMode_ = false ∧
        (m.setSpeed speed).consecutiveBadDelays_ = 0 ∧ (m.setSpeed speed).speed_ = speed) ∧
      (|m.speed_ - speed| < 1 / 1000 → m.setSpeed speed = m) := by
  constructor
  · intro h
    unfold setSpeed
    rw [if_neg h]
    split <;> simp
  · intro h
    unfold setSpeed
    rw [if_pos h]

/-- Witness for C10 (amended): the state `syncedOnce` switched to speed 2. -/
theorem setSpeed_changed_clears_sync_state_witness :
    ¬ |syncedOnce.speed_ - 2| < 1 / 1000 ∧ (syncedOnce.setSpeed 2).syncLogs_ = [] ∧
      (syncedOnce.setSpeed 2).forceSystemMode_ = false ∧
      (syncedOnce.setSpeed 2).consecutiveBadDelays_ = 0 :=
  have hne : ¬ |syncedOnce.speed_ - 2| < 1 / 1000 := by
    rw [syncedOnce_fields.1]; norm_num
  have h := (setSpeed_changed_clears_sync_state syncedOnce 2).1 hne
  ⟨hne, h.1, h.2.1, h.2.2.1⟩

/-- The choice of the delay leaves the speed, the pause flag and both clocks alone. -/
theorem syncDelay_unchanged_fields (m : AVSyncManager) (e now2 : ℚ) :
    (m.syncDelay e now2).2.speed_ = m.speed_ ∧
      (m.syncDelay e now2).2.videoClock_ = m.videoClock_ ∧
      (m.syncDelay e now2).2.audioClock_ = m.audioClock_ ∧
      (m.syncDelay e now2).2.paused_ = m.paused_ := by
  unfold syncDelay
  simp only [logSyncOffset]
  split_ifs <;> exact ⟨rfl, rfl, rfl, rfl⟩

/-- The clamp of `sanitizeDelay` reads nothing of the engine but its speed. -/
theorem sanitizeDelay_congr (m m1 : AVSyncManager) (delay : Int) (e : ℚ)
    (h : m1.speed_ = m.speed_) : m1.sanitizeDelay delay e = m.sanitizeDelay delay e := by
  simp only [sanitizeDelay, h]

/-- The state `syncedWithOffset` is reachable. -/
theorem syncedWithOffset_reachable : Reachable syncedWithOffset :=
  Reachable.calculateVideoDelay (1 / 100) (33 / 1000) 100 100
    (Reachable.updateAudioClock 0 (2 / 100) 100 Reachable.new)

/-- The state `syncedWithOffset` runs at speed 1 with last-good offset -10 ms. -/
theorem syncedWithOffset_fields :
    syncedWithOffset.speed_ = 1 ∧ syncedWithOffset.lastGoodOffset_ = -(1 / 100) := by
  have habs : |(1 / 100 : ℚ)| = 1 / 100 := abs_of_pos (by norm_num)
  have hlt : ¬ (1 / 2 : ℚ) < 1 / 100 := by norm_num
  refine ⟨?_, ?_⟩ <;>
  · simp [syncedWithOffset, calculateVideoDelay, syncDelay, updateAudioClock,
      AVSyncManager.new, isValidPts, isValidDuration, Clock.update, Clock.init, AV_NOPTS_VALUE,
      shouldUsePtsSync, isSystemStable, logSyncOffset, calculateAVOffset,
      Clock.getCurrentMediaTime, MIN_STABLE_SAMPLES, AV_SYNC_HISTORY_SIZE,
      FALLBACK_TO_SYSTEM_THRESHOLD, habs, hlt]
    norm_num [habs]

/-- C13: `reset()` clears both clocks and all sync state: afterwards both clocks are
the default clock (invalid, average duration `DEFAULT_FRAME_DURATION` = 1/30 s, no
samples), the offset history is empty, the consecutive-bad counter, the last offset
and the last-good offset are 0 and force-system-mode is false, while the paused flag
and the playback speed are unchanged. -/
theorem reset_clears_clocks_and_sync_state (m : AVSyncManager) :
    m.reset.videoClock_ = Clock.init ∧ m.reset.audioClock_ = Clock.init ∧
      m.reset.videoClock_.isValid = false ∧ m.reset.audioClock_.isValid = false ∧
      m.reset.videoClock_.avgDuration = DEFAULT_FRAME_DURATION ∧
      m.reset.audioClock_.avgDuration = DEFAULT_FRAME_DURATION ∧
      m.reset.syncLogs_ = [] ∧ m.reset.consecutiveBadDelays_ = 0 ∧
      m.reset.lastGoodOffset_ = 0 ∧ m.reset.lastOffset_ = 0 ∧
      m.reset.forceSystemMode_ = false ∧ m.reset.frameCount_ = 0 ∧
      m.reset.paused_ = m.paused_ ∧ m.reset.speed_ = m.speed_ := by
  simp [AVSyncManager.reset, resetClocks, Clock.reset, Clock.init]

/-- C12, as stated, fails: in the reachable state `syncedWithOffset` (speed 1,
last-good offset -10 ms) the speed-changing call `setSpeed(0.5)`, a quarter-step
value, resets the last-good offset to 0. -/
theorem setSpeed_half_resets_last_good_offset :
    Reachable syncedWithOffset ∧ ¬ |syncedWithOffset.speed_ - 1 / 2| < 1 / 1000 ∧
      (1 / 2 : ℚ) = 2 * (1 / 4) ∧
      syncedWithOffset.lastGoodOffset_ = -(1 / 100) ∧
      (syncedWithOffset.setSpeed (1 / 2)).lastGoodOffset_ = 0 ∧
      (syncedWithOffset.setSpeed (1 / 2)).lastGoodOffset_ ≠
        syncedWithOffset.lastGoodOffset_ := by
  have hs : ¬ |syncedWithOffset.speed_ - 1 / 2| < 1 / 1000 := by
    rw [syncedWithOffset_fields.1]; norm_num [abs_lt, lt_abs, le_abs, abs_le]
  have hr : stdRound (1 / 2) = 1 := by
    simp only [stdRound]
    norm_num
  have h0 : (syncedWithOffset.setSpeed (1 / 2)).lastGoodOffset_ = 0 := by
    unfold setSpeed
    rw [if_neg hs]
    simp only
    rw [if_pos (by rw [hr]; norm_num [abs_lt, lt_abs, le_abs, abs_le])]
  refine ⟨syncedWithOffset_reachable, hs, by norm_num, syncedWithOffset_fields.2, h0, ?_⟩
  rw [h0, syncedWithOffset_fields.2]
  norm_num

/-- C12, amended: after a `setSpeed(s)` call that changes the speed, the last-good
offset is reset to 0 when s is more than 0.001 away from the nearest integer
(`std::round(s)`), as for 0.5, 0.75 and 1.5, and is left unchanged when s is within
0.001 of an integer, as for 2.0. -/
theorem setSpeed_resets_last_good_offset_off_integers (m : AVSyncManager) (s : ℚ)
    (h : ¬ |m.speed_ - s| < 1 / 1000) :
    (|s - stdRound s| > 1 / 1000 → (m.setSpeed s).lastGoodOffset_ = 0) ∧
      (¬ |s - stdRound s| > 1 / 1000 → (m.setSpeed s).lastGoodOffset_ = m.lastGoodOffset_) ∧
      |(1 / 2 : ℚ) - stdRound (1 / 2)| > 1 / 1000 ∧
      |(3 / 4 : ℚ) - stdRound (3 / 4)| > 1 / 1000 ∧
      |(3 / 2 : ℚ) - stdRound (3 / 2)| > 1 / 1000 ∧
      ¬ |(2 : ℚ) - stdRound 2| > 1 / 1000 := by
  refine ⟨?_, ?_, ?_, ?_, ?_, ?_⟩
  · intro hr
    unfold setSpeed
    rw [if_neg h]
    simp only
    rw [if_pos hr]
  · intro hr
    unfold setSpeed
    rw [if_neg h]
    simp only
    rw [if_neg hr]
  · have : stdRound (1 / 2) = 1 := by simp only [stdRound]; norm_num
    rw [this]; norm_num [abs_lt, lt_abs, le_abs, abs_le]
  · have : stdRound (3 / 4) = 1 := by simp only [stdRound]; norm_num
    rw [this]; norm_num [abs_lt, lt_abs, le_abs, abs_le]
  · have : stdRound (3 / 2) = 2 := by simp only [stdRound]; norm_num
    rw [this]; norm_num [abs_lt, lt_abs, le_abs, abs_le]
  · have : stdRound 2 = 2 := by simp only [stdRound]; norm_num
    rw [this]; norm_num [abs_lt, lt_abs, le_abs, abs_le]

/-- Witness for C12 (amended): `syncedWithOffset` switched to speed 2 keeps its
last-good offset. -/
theorem setSpeed_resets_last_good_offset_off_integers_witness :
    ¬ |syncedWithOffset.speed_ - 2| < 1 / 1000 ∧
      (syncedWithOffset.setSpeed 2).lastGoodOffset_ = syncedWithOffset.lastGoodOffset_ :=
  have hs : ¬ |syncedWithOffset.speed_ - 2| < 1 / 1000 := by
    rw [syncedWithOffset_fields.1]; norm_num [abs_lt, lt_abs, le_abs, abs_le]
  have h := setSpeed_resets_last_good_offset_off_integers syncedWithOffset 2 hs
  ⟨hs, h.2.1 h.2.2.2.2.2⟩

/-- A valid clock read `D` seconds later has advanced by `D` times its rate. -/
theorem Clock_mediaTime_shift (c : Clock) (t D : ℚ) (hv : c.isValid = true) :
    c.getCurrentMediaTime (t + D) = c.getCurrentMediaTime t + D * c.rate := by
  simp only [Clock.getCurrentMediaTime, Clock.rate, hv, Bool.true_eq_false, if_false]
  split_ifs <;> ring

/-- A clock stamped at `now1` and read at `now2` shows the same media time as one
stamped and read `D` seconds later. -/
theorem Clock_update_mediaTime_shift (c : Clock) (pts e now1 now2 speed D : ℚ) :
    (c.update pts e (now1 + D) speed).getCurrentMediaTime (now2 + D) =
      (c.update pts e now1 speed).getCurrentMediaTime now2 := by
  simp only [Clock.getCurrentMediaTime, Clock.update]
  have h : now2 + D - (now1 + D) = now2 - now1 := by ring
  rw [h]

/-- The calls `pause()` and `resume()` only set and clear the paused flag. -/
theorem pause_resume_eq (m : AVSyncManager) : m.pause.resume = { m with paused_ := false } := rfl

/-- On the PTS-sync path the offset stored by `syncDelay` is the measured one. -/
theorem syncDelay_lastOffset (m : AVSyncManager) (e now2 : ℚ)
    (ha : m.audioClock_.isValid = true) (hf : m.forceSystemMode_ = false)
    (hu : m.shouldUsePtsSync = true) :
    (m.syncDelay e now2).2.lastOffset_ = m.calculateAVOffset now2 := by
  unfold syncDelay
  rw [if_neg (by simp [ha, hf, hu])]
  simp only [logSyncOffset]
  split_ifs <;> rfl

/-- Offset stored by an unpaused `calculateVideoDelay` for a valid pts when the audio
clock is valid, force-system-mode is off and at most 3 bad delays were counted: the
audio media time minus the media time of the freshly stamped video clock. -/
theorem calculateVideoDelay_lastOffset (m : AVSyncManager) (pts d now1 now2 : ℚ)
    (hp : m.paused_ = false) (ha : m.audioClock_.isValid = true)
    (hf : m.forceSystemMode_ = false) (hc : m.consecutiveBadDelays_ ≤ 3)
    (hv : isValidPts pts = true) :
    (m.calculateVideoDelay pts d now1 now2).2.lastOffset_ =
      m.audioClock_.getCurrentMediaTime now2 -
        (m.videoClock_.update pts
          (if isValidDuration d = false then m.videoClock_.avgDuration else d)
          now1 m.speed_).getCurrentMediaTime now2 := by
  unfold calculateVideoDelay
  rw [if_neg (by simp [hp])]
  lift_lets
  intro eff m1 r m5 delay delay2
  show m5.lastOffset_ = _
  have hm1 : m1 = { m with videoClock_ := m.videoClock_.update pts eff now1 m.speed_ } := by
    simp only [m1, if_pos hv]
  have hvalid : (m.videoClock_.update pts eff now1 m.speed_).isValid = true := by
    simp only [isValidPts, Bool.and_eq_true, decide_eq_true_eq] at hv
    simp only [Clock.update, decide_eq_true_eq]
    exact hv.1
  have hu : m1.shouldUsePtsSync = true := by
    rw [hm1]
    simp only [shouldUsePtsSync, ha, hvalid]
    rw [if_neg (by simp)]
    split
    · rfl
    · rw [if_neg (by simp only [gt_iff_lt, not_lt]; exact hc)]
  have hoff : m1.calculateAVOffset now2 =
      m.audioClock_.getCurrentMediaTime now2 -
        (m.videoClock_.update pts eff now1 m.speed_).getCurrentMediaTime now2 := by
    rw [hm1]
    simp only [calculateAVOffset, ha, hvalid]
    rw [if_neg (by simp)]
  simp only [m5, r]
  rw [syncDelay_lastOffset m1 eff now2 (by rw [hm1]; exact ha) (by rw [hm1]; exact hf) hu, hoff]

/-- The audio clock of `syncedOnce` and the flags that select PTS sync. -/
theorem syncedOnce_audio :
    syncedOnce.audioClock_.isValid = true ∧ syncedOnce.audioClock_.pts = 0 ∧
      syncedOnce.audioClock_.systemTime = 100 ∧ syncedOnce.audioClock_.speed = 1 ∧
      syncedOnce.forceSystemMode_ = false ∧ syncedOnce.consecutiveBadDelays_ = 0 := by
  refine ⟨?_, ?_, ?_, ?_, ?_, ?_⟩ <;>
  · simp [syncedOnce, calculateVideoDelay, syncDelay, updateAudioClock, AVSyncManager.new,
      isValidPts, isValidDuration, Clock.update, Clock.init, AV_NOPTS_VALUE, shouldUsePtsSync,
      isSystemStable, logSyncOffset, calculateAVOffset, Clock.getCurrentMediaTime,
      MIN_STABLE_SAMPLES, AV_SYNC_HISTORY_SIZE, FALLBACK_TO_SYSTEM_THRESHOLD]
    norm_num

/-- A clock read at the instant it was stamped with a real pts shows that pts. -/
theorem Clock_update_mediaTime_now (c : Clock) (pts e t speed : ℚ)
    (h : pts ≠ AV_NOPTS_VALUE) : (c.update pts e t speed).getCurrentMediaTime t = pts := by
  have hd : decide (pts ≠ AV_NOPTS_VALUE) = true := by simp [h]
  simp only [Clock.getCurrentMediaTime, Clock.update, hd, Bool.true_eq_false, if_false,
    sub_self]
  split_ifs <;> ring

/-- The video clock of `syncedOnce` is valid. -/
theorem syncedOnce_video_valid : syncedOnce.videoClock_.isValid = true := by
  simp [syncedOnce, calculateVideoDelay, syncDelay, updateAudioClock, AVSyncManager.new,
    isValidPts, isValidDuration, Clock.update, Clock.init, AV_NOPTS_VALUE, shouldUsePtsSync,
    isSystemStable, logSyncOffset, calculateAVOffset, Clock.getCurrentMediaTime,
    MIN_STABLE_SAMPLES, AV_SYNC_HISTORY_SIZE, FALLBACK_TO_SYSTEM_THRESHOLD]
  norm_num

/-- Offset stored by the first `calculateVideoDelay` (frame pts 33 ms) after
`syncedOnce` was paused at time 100 and resumed, when the call reads the time `t`. -/
theorem syncedOnce_resumed_offset (t : ℚ) :
    (syncedOnce.pause.resume.calculateVideoDelay (33 / 1000) (33 / 1000) t t).2.lastOffset_ =
      t - 100 - 33 / 1000 := by
  have hv : isValidPts (33 / 1000) = true := by
    simp [isValidPts, AV_NOPTS_VALUE]
    norm_num
  have hne : (33 / 1000 : ℚ) ≠ AV_NOPTS_VALUE := by
    unfold AV_NOPTS_VALUE; norm_num
  have hc : syncedOnce.pause.resume.consecutiveBadDelays_ ≤ 3 := by
    show syncedOnce.consecutiveBadDelays_ ≤ 3
    rw [syncedOnce_audio.2.2.2.2.2]
    decide
  rw [calculateVideoDelay_lastOffset syncedOnce.pause.resume (33 / 1000) (33 / 1000) t t rfl
    syncedOnce_audio.1 syncedOnce_audio.2.2.2.2.1 hc hv]
  rw [Clock_update_mediaTime_now _ _ _ _ _ hne]
  show syncedOnce.audioClock_.getCurrentMediaTime t - 33 / 1000 = _
  simp only [Clock.getCurrentMediaTime, syncedOnce_audio.1, syncedOnce_audio.2.1,
    syncedOnce_audio.2.2.1, syncedOnce_audio.2.2.2.1, Bool.true_eq_false, if_false]
  rw [if_pos (by norm_num)]
  ring

/-- C14, as stated, fails: `syncedOnce` (both clocks valid, speed 1, reachable) is
paused at time 100 with no later clock update; resumed after D = 0.1 s the first
`calculateVideoDelay` computes the offset 67 ms, resumed after D = 0.2 s it computes
167 ms for the same frame. -/
theorem resume_offset_depends_on_pause_length :
    Reachable syncedOnce.pause.resume ∧
      syncedOnce.pause.resume.audioClock_.isValid = true ∧
      syncedOnce.pause.resume.videoClock_.isValid = true ∧
      (syncedOnce.pause.resume.calculateVideoDelay (33 / 1000) (33 / 1000)
        (100 + 1 / 10) (100 + 1 / 10)).2.lastOffset_ = 67 / 1000 ∧
      (syncedOnce.pause.resume.calculateVideoDelay (33 / 1000) (33 / 1000)
        (100 + 2 / 10) (100 + 2 / 10)).2.lastOffset_ = 167 / 1000 ∧
      (syncedOnce.pause.resume.calculateVideoDelay (33 / 1000) (33 / 1000)
        (100 + 1 / 10) (100 + 1 / 10)).2.lastOffset_ ≠
      (syncedOnce.pause.resume.calculateVideoDelay (33 / 1000) (33 / 1000)
        (100 + 2 / 10) (100 + 2 / 10)).2.lastOffset_ := by
  refine ⟨Reachable.resume (Reachable.pause syncedOnce_reachable), syncedOnce_audio.1,
    syncedOnce_video_valid, ?_, ?_, ?_⟩
  · rw [syncedOnce_resumed_offset]; norm_num
  · rw [syncedOnce_resumed_offset]; norm_num
  · rw [syncedOnce_resumed_offset, syncedOnce_resumed_offset]; norm_num

/-- C14, amended: `pause()` and `resume()` only set and clear the paused flag and
adjust no clock, so the pause is charged to the offset.  With the audio clock valid,
force-system-mode off, at most 3 consecutive bad delays and a valid frame pts, the
offset computed by the first `calculateVideoDelay` after resume grows with the pause
length: taking both clock readings D seconds later adds D times the rate of the audio
clock (1, 2, 0.5, 1.5 at those speeds, otherwise the speed), which is exactly D at
speed 1. -/
theorem resume_offset_grows_with_pause (m : AVSyncManager) (pts d now1 now2 D : ℚ)
    (ha : m.audioClock_.isValid = true) (hf : m.forceSystemMode_ = false)
    (hc : m.consecutiveBadDelays_ ≤ 3) (hv : isValidPts pts = true) :
    m.pause.resume = { m with paused_ := false } ∧
      (m.pause.resume.calculateVideoDelay pts d (now1 + D) (now2 + D)).2.lastOffset_ =
        (m.pause.resume.calculateVideoDelay pts d now1 now2).2.lastOffset_ +
          D * m.audioClock_.rate ∧
      (|m.audioClock_.speed - 1| < 1 / 1000 →
        (m.pause.resume.calculateVideoDelay pts d (now1 + D) (now2 + D)).2.lastOffset_ =
          (m.pause.resume.calculateVideoDelay pts d now1 now2).2.lastOffset_ + D) := by
  have key : (m.pause.resume.calculateVideoDelay pts d (now1 + D) (now2 + D)).2.lastOffset_ =
      (m.pause.resume.calculateVideoDelay pts d now1 now2).2.lastOffset_ +
        D * m.audioClock_.rate := by
    rw [calculateVideoDelay_lastOffset m.pause.resume pts d (now1 + D) (now2 + D) rfl ha hf hc hv,
      calculateVideoDelay_lastOffset m.pause.resume pts d now1 now2 rfl ha hf hc hv]
    rw [Clock_update_mediaTime_shift]
    show m.audioClock_.getCurrentMediaTime (now2 + D) - _ =
      m.audioClock_.getCurrentMediaTime now2 - _ + _
    rw [Clock_mediaTime_shift _ _ _ ha]
    ring
  refine ⟨rfl, key, ?_⟩
  intro hs
  rw [key]
  simp only [Clock.rate, hs, if_true, mul_one]

/-- Witness for C14 (amended): `syncedOnce` resumed 0.1 s later. -/
theorem resume_offset_grows_with_pause_witness :
    (syncedOnce.pause.resume.calculateVideoDelay (33 / 1000) (33 / 1000)
        (100 + 1 / 10) (100 + 1 / 10)).2.lastOffset_ =
      (syncedOnce.pause.resume.calculateVideoDelay (33 / 1000) (33 / 1000)
        100 100).2.lastOffset_ + 1 / 10 :=
  (resume_offset_grows_with_pause syncedOnce (33 / 1000) (33 / 1000) 100 100 (1 / 10)
    syncedOnce_audio.1 syncedOnce_audio.2.2.2.2.1
    (by rw [syncedOnce_audio.2.2.2.2.2]; decide)
    (by simp [isValidPts, AV_NOPTS_VALUE]; norm_num)).2.2
    (by rw [syncedOnce_audio.2.2.2.1]; norm_num)

/-- A history of fewer than 8 samples is not stable. -/
theorem isSystemStable_of_short (m : AVSyncManager) (h : m.syncLogs_.length < 8) :
    m.isSystemStable = false := by
  simp [isSystemStable, MIN_STABLE_SAMPLES, h]

/-- Without a stable history fine-tuning returns the base delay. -/
theorem applyFineTune_of_unstable (m : AVSyncManager) (base : Int) (offset : ℚ)
    (h : m.isSystemStable = false) : m.applyFineTune base offset = base := by
  unfold applyFineTune
  split <;> rfl

/-- The delay of an unpaused `calculateVideoDelay`, written with the stages
`effectiveDurationOf`, `afterVideoUpdate` and `syncDelay`. -/
theorem calculateVideoDelay_fst (m : AVSyncManager) (pts d now1 now2 : ℚ)
    (hp : m.paused_ = false) :
    (m.calculateVideoDelay pts d now1 now2).1 =
      ((m.afterVideoUpdate pts d now1).syncDelay (m.effectiveDurationOf d) now2).2.sanitizeDelay
        (if ((m.afterVideoUpdate pts d now1).syncDelay
              (m.effectiveDurationOf d) now2).2.forceSystemMode_ = false ∧
            ((m.afterVideoUpdate pts d now1).syncDelay
              (m.effectiveDurationOf d) now2).2.audioClock_.isValid = true then
          ((m.afterVideoUpdate pts d now1).syncDelay
              (m.effectiveDurationOf d) now2).2.applyFineTune
            ((m.afterVideoUpdate pts d now1).syncDelay (m.effectiveDurationOf d) now2).1
            ((m.afterVideoUpdate pts d now1).syncDelay
              (m.effectiveDurationOf d) now2).2.lastGoodOffset_
        else ((m.afterVideoUpdate pts d now1).syncDelay (m.effectiveDurationOf d) now2).1)
        (m.effectiveDurationOf d) := by
  unfold calculateVideoDelay
  rw [if_neg (by simp [hp])]
  rfl

/-- Result of `syncDelay` when the system-based delay is chosen at the first test. -/
theorem syncDelay_system (m : AVSyncManager) (e n : ℚ)
    (hc : m.audioClock_.isValid = false ∨ m.forceSystemMode_ = true ∨
      m.shouldUsePtsSync = false) :
    m.syncDelay e n = (m.calculateSystemBasedDelay e, m) := by
  unfold syncDelay
  rw [if_pos hc]

/-- Result of `syncDelay` when the measured offset exceeds the fallback threshold. -/
theorem syncDelay_fallback (m : AVSyncManager) (e n : ℚ)
    (hc : ¬ (m.audioClock_.isValid = false ∨ m.forceSystemMode_ = true ∨
      m.shouldUsePtsSync = false))
    (hb : |m.calculateAVOffset n| > FALLBACK_TO_SYSTEM_THRESHOLD) :
    m.syncDelay e n =
      ((m.logSyncOffset (m.calculateAVOffset n)).calculateSystemBasedDelay e,
        if (m.logSyncOffset (m.calculateAVOffset n)).consecutiveBadDelays_ + 1 > 5 then
          { m.logSyncOffset (m.calculateAVOffset n) with
            consecutiveBadDelays_ :=
              (m.logSyncOffset (m.calculateAVOffset n)).consecutiveBadDelays_ + 1,
            forceSystemMode_ := true }
        else
          { m.logSyncOffset (m.calculateAVOffset n) with
            consecutiveBadDelays_ :=
              (m.logSyncOffset (m.calculateAVOffset n)).consecutiveBadDelays_ + 1 }) := by
  unfold syncDelay
  rw [if_neg hc]
  simp only
  rw [if_pos hb]

/-- Result of `syncDelay` when the measured offset is within the fallback threshold. -/
theorem syncDelay_good (m : AVSyncManager) (e n : ℚ)
    (hc : ¬ (m.audioClock_.isValid = false ∨ m.forceSystemMode_ = true ∨
      m.shouldUsePtsSync = false))
    (hb : ¬ |m.calculateAVOffset n| > FALLBACK_TO_SYSTEM_THRESHOLD) :
    m.syncDelay e n =
      ((if |m.calculateAVOffset n| < AV_SYNC_THRESHOLD_MIN then
          ({ m.logSyncOffset (m.calculateAVOffset n) with
            consecutiveBadDelays_ := 0,
            lastGoodOffset_ := m.calculateAVOffset n } : AVSyncManager).calculateBasicDelay e
        else if |m.calculateAVOffset n| < AV_SYNC_THRESHOLD_HALF then
          castInt ((({ m.logSyncOffset (m.calculateAVOffset n) with
            consecutiveBadDelays_ := 0,
            lastGoodOffset_ := m.calculateAVOffset n } : AVSyncManager).calculateBasicDelay e : ℚ)
              * (7 / 10))
        else if |m.calculateAVOffset n| < AV_SYNC_THRESHOLD_MAX then
          ({ m.logSyncOffset (m.calculateAVOffset n) with
            consecutiveBadDelays_ := 0,
            lastGoodOffset_ := m.calculateAVOffset n } : AVSyncManager).calculateCorrectedDelay
              (m.calculateAVOffset n) e
        else if |m.calculateAVOffset n| > AV_NOSYNC_THRESHOLD then
          ({ m.logSyncOffset (m.calculateAVOffset n) with
            consecutiveBadDelays_ := 0,
            lastGoodOffset_ := m.calculateAVOffset n } : AVSyncManager).calculateBasicDelay e
        else
          ({ m.logSyncOffset (m.calculateAVOffset n) with
            consecutiveBadDelays_ := 0,
            lastGoodOffset_ := m.calculateAVOffset n } : AVSyncManager).calculateCorrectedDelay
              (m.calculateAVOffset n) e),
        { m.logSyncOffset (m.calculateAVOffset n) with
          consecutiveBadDelays_ := 0, lastGoodOffset_ := m.calculateAVOffset n }) := by
  unfold syncDelay
  rw [if_neg hc]
  simp only
  rw [if_neg hb]

/-- Logging one sample into an empty history leaves a history of one sample. -/
theorem logSyncOffset_of_empty (m : AVSyncManager) (o : ℚ) (h : m.syncLogs_ = []) :
    (m.logSyncOffset o).syncLogs_ = [o] := by
  simp [logSyncOffset, h, AV_SYNC_HISTORY_SIZE]

/-- With an empty history the choice of the delay does not read the last-good offset:
the delay and the force flag come out the same, and the history ends with at most one
sample. -/
theorem syncDelay_ignores_lastGood (m : AVSyncManager) (g e n : ℚ) (h : m.syncLogs_ = []) :
    ({ m with lastGoodOffset_ := g }.syncDelay e n).1 = (m.syncDelay e n).1 ∧
      ({ m with lastGoodOffset_ := g }.syncDelay e n).2.forceSystemMode_ =
        (m.syncDelay e n).2.forceSystemMode_ ∧
      (m.syncDelay e n).2.syncLogs_.length ≤ 1 ∧
      ({ m with lastGoodOffset_ := g }.syncDelay e n).2.syncLogs_.length ≤ 1 := by
  have hst : m.isSystemStable = false := isSystemStable_of_short m (by simp [h])
  have hst2 : ({ m with lastGoodOffset_ := g } : AVSyncManager).isSystemStable = false :=
    isSystemStable_of_short _ (by simp [h])
  have hu : ({ m with lastGoodOffset_ := g } : AVSyncManager).shouldUsePtsSync =
      m.shouldUsePtsSync := by
    simp only [shouldUsePtsSync, hst, hst2]
    simp
  have h2 : ({ m with lastGoodOffset_ := g } : AVSyncManager).syncLogs_ = [] := h
  by_cases hc : m.audioClock_.isValid = false ∨ m.forceSystemMode_ = true ∨
      m.shouldUsePtsSync = false
  · have hc2 : ({ m with lastGoodOffset_ := g } : AVSyncManager).audioClock_.isValid = false ∨
        ({ m with lastGoodOffset_ := g } : AVSyncManager).forceSystemMode_ = true ∨
        ({ m with lastGoodOffset_ := g } : AVSyncManager).shouldUsePtsSync = false := by
      rw [hu]; exact hc
    rw [syncDelay_system m e n hc, syncDelay_system _ e n hc2]
    refine ⟨rfl, rfl, ?_, ?_⟩
    · simp [h]
    · simp [h]
  · have hc2 : ¬ (({ m with lastGoodOffset_ := g } : AVSyncManager).audioClock_.isValid = false ∨
        ({ m with lastGoodOffset_ := g } : AVSyncManager).forceSystemMode_ = true ∨
        ({ m with lastGoodOffset_ := g } : AVSyncManager).shouldUsePtsSync = false) := by
      rw [hu]; exact hc
    by_cases hb : |m.calculateAVOffset n| > FALLBACK_TO_SYSTEM_THRESHOLD
    · rw [syncDelay_fallback m e n hc hb, syncDelay_fallback _ e n hc2 hb]
      refine ⟨rfl, ?_, ?_, ?_⟩
      · simp only [logSyncOffset]
        split_ifs <;> rfl
      · show (if _ then _ else _ : AVSyncManager).syncLogs_.length ≤ 1
        split_ifs <;> simp [logSyncOffset_of_empty m _ h]
      · show (if _ then _ else _ : AVSyncManager).syncLogs_.length ≤ 1
        split_ifs <;> simp [logSyncOffset_of_empty _ _ h2]
    · rw [syncDelay_good m e n hc hb, syncDelay_good _ e n hc2 hb]
      refine ⟨rfl, rfl, ?_, ?_⟩
      · simp [logSyncOffset_of_empty m _ h]
      · simp [logSyncOffset_of_empty _ _ h2]

/-- With an empty history the delay returned by `calculateVideoDelay` does not depend
on the last-good offset. -/
theorem calculateVideoDelay_ignores_lastGood (m : AVSyncManager) (g pts d now1 now2 : ℚ)
    (h : m.syncLogs_ = []) :
    ({ m with lastGoodOffset_ := g }.calculateVideoDelay pts d now1 now2).1 =
      (m.calculateVideoDelay pts d now1 now2).1 := by
  by_cases hpt : m.paused_ = true
  · simp [calculateVideoDelay, hpt]
  · have hp : m.paused_ = false := by simpa using hpt
    have hp2 : ({ m with lastGoodOffset_ := g } : AVSyncManager).paused_ = false := hp
    rw [calculateVideoDelay_fst m pts d now1 now2 hp, calculateVideoDelay_fst _ pts d now1 now2 hp2]
    have hA : ({ m with lastGoodOffset_ := g } : AVSyncManager).afterVideoUpdate pts d now1 =
        { m.afterVideoUpdate pts d now1 with lastGoodOffset_ := g } := by
      unfold afterVideoUpdate effectiveDurationOf
      split <;> rfl
    have hE : ({ m with lastGoodOffset_ := g } : AVSyncManager).effectiveDurationOf d =
        m.effectiveDurationOf d := rfl
    have h1 : (m.afterVideoUpdate pts d now1).syncLogs_ = [] := by
      unfold afterVideoUpdate
      split <;> exact h
    rw [hA, hE]
    obtain ⟨hd, _, hl, hl2⟩ :=
      syncDelay_ignores_lastGood (m.afterVideoUpdate pts d now1) g (m.effectiveDurationOf d) now2 h1
    have hst := isSystemStable_of_short _ (lt_of_le_of_lt hl (by decide))
    have hst2 := isSystemStable_of_short _ (lt_of_le_of_lt hl2 (by decide))
    rw [applyFineTune_of_unstable _ _ _ hst, applyFineTune_of_unstable _ _ _ hst2, ite_self,
      ite_self, hd]
    apply sanitizeDelay_congr
    rw [(syncDelay_unchanged_fields _ _ _).1, (syncDelay_unchanged_fields _ _ _).1]

/-- C11: after a `setSpeed` call that changes the speed, the next `calculateVideoDelay`
does not use stale offset data: for any two engine states that differ only in the
offset history and the last-good offset recorded before the `setSpeed`, the next
`calculateVideoDelay` with the same pts, duration and clock readings returns the same
delay in both. -/
theorem stale_offsets_not_used_after_setSpeed (m : AVSyncManager) (logs : List ℚ)
    (good speed pts d now1 now2 : ℚ) (h : ¬ |m.speed_ - speed| < 1 / 1000) :
    (({ m with syncLogs_ := logs, lastGoodOffset_ := good }.setSpeed speed).calculateVideoDelay
        pts d now1 now2).1 =
      ((m.setSpeed speed).calculateVideoDelay pts d now1 now2).1 := by
  have hB : ({ m with syncLogs_ := logs, lastGoodOffset_ := good } : AVSyncManager).setSpeed speed =
      { m.setSpeed speed with
        lastGoodOffset_ :=
          (({ m with syncLogs_ := logs, lastGoodOffset_ := good } : AVSyncManager).setSpeed
            speed).lastGoodOffset_ } := by
    unfold setSpeed
    rw [if_neg h, if_neg h]
    simp only
    split <;> rfl
  have hlogs : (m.setSpeed speed).syncLogs_ = [] := by
    unfold setSpeed
    rw [if_neg h]
    simp only
    split <;> rfl
  rw [hB]
  exact calculateVideoDelay_ignores_lastGood (m.setSpeed speed) _ pts d now1 now2 hlogs

/-- Witness for C11: `syncedWithOffset` and a copy with another history and last-good
offset, both switched to speed 2 (which keeps the last-good offset) and then asked for
the delay of the same frame. -/
theorem stale_offsets_not_used_after_setSpeed_witness :
    ((({ syncedWithOffset with syncLogs_ := [1 / 2], lastGoodOffset_ := 3 / 100 } :
          AVSyncManager).setSpeed 2).calculateVideoDelay (2 / 100) (33 / 1000) 101 101).1 =
      ((syncedWithOffset.setSpeed 2).calculateVideoDelay (2 / 100) (33 / 1000) 101 101).1 :=
  stale_offsets_not_used_after_setSpeed syncedWithOffset [1 / 2] (3 / 100) 2
    (2 / 100) (33 / 1000) 101 101
    (by rw [syncedWithOffset_fields.1]; norm_num [abs_lt, lt_abs, le_abs, abs_le])

end AVSyncManager

/-! ### Tempo chains -/

namespace TempoFilter

/-- The loop stops with the chain it has when its guard fails. -/
theorem tempoChainLoop_exit (chain : List ℚ) (r : ℚ)
    (h : ¬ (|r - 1| > 1 / 1000 ∧ chain.length < MAX_TEMPO_NODES)) :
    tempoChainLoop chain r = chain := by
  rw [tempoChainLoop, dif_neg h]

/-- A remaining ratio inside the accepted interval is emitted and ends the loop. -/
theorem tempoChainLoop_emit (chain : List ℚ) (r : ℚ)
    (h : |r - 1| > 1 / 1000 ∧ chain.length < MAX_TEMPO_NODES)
    (h1 : r ≥ ATEMPO_MIN ∧ r ≤ ATEMPO_MAX) :
    tempoChainLoop chain r = chain ++ [r] := by
  rw [tempoChainLoop, dif_pos h, dif_pos h1]

/-- A remaining ratio above the interval emits the upper bound and is divided by it. -/
theorem tempoChainLoop_high (chain : List ℚ) (r : ℚ)
    (h : |r - 1| > 1 / 1000 ∧ chain.length < MAX_TEMPO_NODES) (h2 : r > ATEMPO_MAX) :
    tempoChainLoop chain r = tempoChainLoop (chain ++ [ATEMPO_MAX]) (r / ATEMPO_MAX) := by
  rw [tempoChainLoop, dif_pos h, dif_neg (fun h1 => absurd h1.2 (not_le.mpr h2)), dif_pos h2]

/-- A remaining ratio below the interval emits the lower bound and is divided by it. -/
theorem tempoChainLoop_low (chain : List ℚ) (r : ℚ)
    (h : |r - 1| > 1 / 1000 ∧ chain.length < MAX_TEMPO_NODES) (h3 : r < ATEMPO_MIN) :
    tempoChainLoop chain r = tempoChainLoop (chain ++ [ATEMPO_MIN]) (r / ATEMPO_MIN) := by
  have hmm : ATEMPO_MIN < ATEMPO_MAX := by unfold ATEMPO_MIN ATEMPO_MAX; norm_num
  rw [tempoChainLoop, dif_pos h, dif_neg (fun h1 => absurd h1.1 (not_le.mpr h3)),
    dif_neg (not_lt.mpr (le_of_lt (lt_trans h3 hmm))), dif_pos h3]

/-- The loop never makes the chain longer than `MAX_TEMPO_NODES` and only adds elements
of the accepted interval. -/
theorem tempoChainLoop_spec (n : Nat) (chain : List ℚ) (r : ℚ)
    (hn : MAX_TEMPO_NODES - chain.length ≤ n) (hlen : chain.length ≤ MAX_TEMPO_NODES) :
    (tempoChainLoop chain r).length ≤ MAX_TEMPO_NODES ∧
      ∀ x ∈ tempoChainLoop chain r, x ∈ chain ∨ (ATEMPO_MIN ≤ x ∧ x ≤ ATEMPO_MAX) := by
  induction n generalizing chain r with
  | zero =>
    have hfull : ¬ chain.length < MAX_TEMPO_NODES := by omega
    rw [tempoChainLoop_exit chain r (fun h => hfull h.2)]
    exact ⟨hlen, fun x hx => Or.inl hx⟩
  | succ n ih =>
    by_cases h : |r - 1| > 1 / 1000 ∧ chain.length < MAX_TEMPO_NODES
    · have hstep : ∀ b : ℚ, MAX_TEMPO_NODES - (chain ++ [b]).length ≤ n ∧
          (chain ++ [b]).length ≤ MAX_TEMPO_NODES := by
        intro b
        simp only [List.length_append, List.length_singleton]
        omega
      by_cases h1 : r ≥ ATEMPO_MIN ∧ r ≤ ATEMPO_MAX
      · rw [tempoChainLoop_emit chain r h h1]
        refine ⟨(hstep r).2, ?_⟩
        intro x hx
        rcases List.mem_append.mp hx with hx | hx
        · exact Or.inl hx
        · rw [List.mem_singleton.mp hx]
          exact Or.inr h1
      · by_cases h2 : r > ATEMPO_MAX
        · rw [tempoChainLoop_high chain r h h2]
          obtain ⟨hl, hm⟩ := ih (chain ++ [ATEMPO_MAX]) (r / ATEMPO_MAX)
            (hstep ATEMPO_MAX).1 (hstep ATEMPO_MAX).2
          refine ⟨hl, ?_⟩
          intro x hx
          rcases hm x hx with hx | hx
          · rcases List.mem_append.mp hx with hx | hx
            · exact Or.inl hx
            · rw [List.mem_singleton.mp hx]
              right
              unfold ATEMPO_MIN ATEMPO_MAX
              norm_num
          · exact Or.inr hx
        · have h3 : r < ATEMPO_MIN := by
            by_contra hc
            exact h1 ⟨not_lt.mp hc, not_lt.mp h2⟩
          rw [tempoChainLoop_low chain r h h3]
          obtain ⟨hl, hm⟩ := ih (chain ++ [ATEMPO_MIN]) (r / ATEMPO_MIN)
            (hstep ATEMPO_MIN).1 (hstep ATEMPO_MIN).2
          refine ⟨hl, ?_⟩
          intro x hx
          rcases hm x hx with hx | hx
          · rcases List.mem_append.mp hx with hx | hx
            · exact Or.inl hx
            · rw [List.mem_singleton.mp hx]
              right
              unfold ATEMPO_MIN ATEMPO_MAX
              norm_num
          · exact Or.inr hx
    · rw [tempoChainLoop_exit chain r h]
      exact ⟨hlen, fun x hx => Or.inl hx⟩

/-- C17: for every input tempo (inside or outside [0.25, 4.0], zero and negative values
included) `calculateTempoChain` returns a chain of length at most
`MAX_TEMPO_NODES` = 4.  It terminates on every input: it is defined as a total function
whose loop `tempoChainLoop` decreases `MAX_TEMPO_NODES - chain.length` at every turn. -/
theorem chain_length_le_max (tempo : ℚ) :
    (calculateTempoChain tempo).length ≤ MAX_TEMPO_NODES ∧ MAX_TEMPO_NODES = 4 := by
  refine ⟨?_, rfl⟩
  unfold calculateTempoChain
  split
  · simp [MAX_TEMPO_NODES]
  · exact (tempoChainLoop_spec MAX_TEMPO_NODES [] tempo (by simp) (by simp)).1

/-- C18: every element of every chain returned by `calculateTempoChain` lies inside the
interval the stretch primitive accepts, [ATEMPO_MIN, ATEMPO_MAX] = [0.5, 2.0], for every
input tempo. -/
theorem chain_elements_in_atempo_range (tempo x : ℚ) (hx : x ∈ calculateTempoChain tempo) :
    ATEMPO_MIN ≤ x ∧ x ≤ ATEMPO_MAX ∧ ATEMPO_MIN = 1 / 2 ∧ ATEMPO_MAX = 2 := by
  refine ⟨?_, ?_, rfl, rfl⟩
  all_goals
    unfold calculateTempoChain at hx
    split at hx
    · rw [List.mem_singleton.mp hx]
      norm_num [ATEMPO_MIN, ATEMPO_MAX]
    · rcases (tempoChainLoop_spec MAX_TEMPO_NODES [] tempo (by simp) (by simp)).2 x hx with h | h
      · simp at h
      · first
        | exact h.1
        | exact h.2

/-- A target within 0.001 of 1.0 gives the identity chain. -/
theorem calculateTempoChain_near_one (t : ℚ) (h : |t - 1| < 1 / 1000) :
    calculateTempoChain t = [1] := by
  unfold calculateTempoChain
  rw [if_pos h]

/-- A target exactly 0.001 away from 1.0 passes neither test and gives no chain. -/
theorem calculateTempoChain_boundary (t : ℚ) (h1 : ¬ |t - 1| < 1 / 1000)
    (h2 : ¬ |t - 1| > 1 / 1000) : calculateTempoChain t = [] := by
  unfold calculateTempoChain
  rw [if_neg h1, tempoChainLoop_exit [] t (fun h => h2 h.1)]

/-- A target inside the accepted interval and away from 1.0 is its own chain. -/
theorem calculateTempoChain_inside (t : ℚ) (h : |t - 1| > 1 / 1000)
    (h1 : ATEMPO_MIN ≤ t ∧ t ≤ ATEMPO_MAX) : calculateTempoChain t = [t] := by
  unfold calculateTempoChain
  rw [if_neg (not_lt.mpr (le_of_lt h)),
    tempoChainLoop_emit [] t ⟨h, by simp [MAX_TEMPO_NODES]⟩ h1]
  rfl

/-- A target above the accepted interval: the first pass of the loop. -/
theorem calculateTempoChain_high (t : ℚ) (h : t > ATEMPO_MAX) :
    calculateTempoChain t = tempoChainLoop [ATEMPO_MAX] (t / ATEMPO_MAX) := by
  have ht : |t - 1| > 1 / 1000 := by
    unfold ATEMPO_MAX at h
    rw [gt_iff_lt, lt_abs]
    left
    linarith
  unfold calculateTempoChain
  rw [if_neg (not_lt.mpr (le_of_lt ht)),
    tempoChainLoop_high [] t ⟨ht, by simp [MAX_TEMPO_NODES]⟩ h]
  rfl

/-- A target below the accepted interval: the first pass of the loop. -/
theorem calculateTempoChain_low (t : ℚ) (h : t < ATEMPO_MIN) :
    calculateTempoChain t = tempoChainLoop [ATEMPO_MIN] (t / ATEMPO_MIN) := by
  have ht : |t - 1| > 1 / 1000 := by
    unfold ATEMPO_MIN at h
    rw [gt_iff_lt, lt_abs]
    right
    linarith
  unfold calculateTempoChain
  rw [if_neg (not_lt.mpr (le_of_lt ht)),
    tempoChainLoop_low [] t ⟨ht, by simp [MAX_TEMPO_NODES]⟩ h]
  rfl

/-- Chain of a target in (2, 4] whose half is away from 1.0. -/
theorem calculateTempoChain_high_two (t : ℚ) (h : t > ATEMPO_MAX) (h4 : t ≤ MAX_TEMPO)
    (hr : |t / ATEMPO_MAX - 1| > 1 / 1000) :
    calculateTempoChain t = [ATEMPO_MAX, t / ATEMPO_MAX] := by
  rw [calculateTempoChain_high t h,
    tempoChainLoop_emit _ _ ⟨hr, by simp [MAX_TEMPO_NODES]⟩
      (by
        unfold ATEMPO_MAX at h ⊢
        unfold MAX_TEMPO at h4
        unfold ATEMPO_MIN
        constructor <;> linarith)]
  rfl

/-- Chain of a target above 2 whose half is within 0.001 of 1.0: the rest is dropped. -/
theorem calculateTempoChain_high_one (t : ℚ) (h : t > ATEMPO_MAX)
    (hr : ¬ |t / ATEMPO_MAX - 1| > 1 / 1000) : calculateTempoChain t = [ATEMPO_MAX] := by
  rw [calculateTempoChain_high t h, tempoChainLoop_exit _ _ (fun hh => hr hh.1)]

/-- Chain of a target in [0.25, 0.5) whose double is away from 1.0. -/
theorem calculateTempoChain_low_two (t : ℚ) (h : t < ATEMPO_MIN) (h4 : MIN_TEMPO ≤ t)
    (hr : |t / ATEMPO_MIN - 1| > 1 / 1000) :
    calculateTempoChain t = [ATEMPO_MIN, t / ATEMPO_MIN] := by
  rw [calculateTempoChain_low t h,
    tempoChainLoop_emit _ _ ⟨hr, by simp [MAX_TEMPO_NODES]⟩
      (by
        unfold ATEMPO_MIN at h ⊢
        unfold MIN_TEMPO at h4
        unfold ATEMPO_MAX
        constructor <;> linarith)]
  rfl

/-- Chain of a target below 0.5 whose double is within 0.001 of 1.0: the rest is
dropped. -/
theorem calculateTempoChain_low_one (t : ℚ) (h : t < ATEMPO_MIN)
    (hr : ¬ |t / ATEMPO_MIN - 1| > 1 / 1000) : calculateTempoChain t = [ATEMPO_MIN] := by
  rw [calculateTempoChain_low t h, tempoChainLoop_exit _ _ (fun hh => hr hh.1)]

/-- C16: for every target tempo T in the supported interval [0.25, 4.0], the product of
the elements of `calculateTempoChain(T)` equals T within the 0.001 relative tolerance:
|product - T| ≤ 0.001 × product. -/
theorem chain_product_within_tolerance (t : ℚ) (h1 : MIN_TEMPO ≤ t) (h2 : t ≤ MAX_TEMPO) :
    |(calculateTempoChain t).prod - t| ≤ 1 / 1000 * (calculateTempoChain t).prod := by
  by_cases ha : |t - 1| < 1 / 1000
  · rw [calculateTempoChain_near_one t ha]
    simp only [List.prod_cons, List.prod_nil, mul_one]
    rw [abs_sub_comm]
    exact le_of_lt ha
  · by_cases hb : |t - 1| > 1 / 1000
    · by_cases hin : ATEMPO_MIN ≤ t ∧ t ≤ ATEMPO_MAX
      · rw [calculateTempoChain_inside t hb hin]
        simp only [List.prod_cons, List.prod_nil, mul_one, sub_self, abs_zero]
        have := hin.1
        unfold ATEMPO_MIN at this
        linarith
      · by_cases hhi : t > ATEMPO_MAX
        · by_cases hr : |t / ATEMPO_MAX - 1| > 1 / 1000
          · rw [calculateTempoChain_high_two t hhi h2 hr]
            simp only [List.prod_cons, List.prod_nil, mul_one]
            unfold ATEMPO_MAX at hhi ⊢
            rw [mul_div_cancel₀ t (by norm_num : (2 : ℚ) ≠ 0), sub_self, abs_zero]
            linarith
          · rw [calculateTempoChain_high_one t hhi hr]
            simp only [List.prod_cons, List.prod_nil, mul_one]
            have hle := abs_le.mp (not_lt.mp hr)
            unfold ATEMPO_MAX at hle ⊢
            rw [abs_le]
            constructor <;> linarith [hle.1, hle.2]
        · have hlo : t < ATEMPO_MIN := by
            by_contra hc
            exact hin ⟨not_lt.mp hc, not_lt.mp hhi⟩
          by_cases hr : |t / ATEMPO_MIN - 1| > 1 / 1000
          · rw [calculateTempoChain_low_two t hlo h1 hr]
            simp only [List.prod_cons, List.prod_nil, mul_one]
            unfold MIN_TEMPO at h1
            unfold ATEMPO_MIN
            rw [mul_div_cancel₀ t (by norm_num : (1 / 2 : ℚ) ≠ 0), sub_self, abs_zero]
            linarith
          · rw [calculateTempoChain_low_one t hlo hr]
            simp only [List.prod_cons, List.prod_nil, mul_one]
            have hle := abs_le.mp (not_lt.mp hr)
            unfold ATEMPO_MIN at hle ⊢
            rw [abs_le]
            constructor <;> linarith [hle.1, hle.2]
    · rw [calculateTempoChain_boundary t ha hb]
      simp only [List.prod_nil, mul_one]
      rw [abs_sub_comm]
      exact not_lt.mp hb

/-- Witness for C16: the chain of tempo 2.5. -/
theorem chain_product_within_tolerance_witness :
    |(calculateTempoChain (5 / 2)).prod - 5 / 2| ≤
      1 / 1000 * (calculateTempoChain (5 / 2)).prod :=
  chain_product_within_tolerance (5 / 2) (by norm_num [MIN_TEMPO]) (by norm_num [MAX_TEMPO])

/-- The chain computed for tempo 2.5. -/
theorem calculateTempoChain_five_halves : calculateTempoChain (5 / 2) = [2, 5 / 4] := by
  rw [calculateTempoChain_high_two (5 / 2) (by norm_num [ATEMPO_MAX]) (by norm_num [MAX_TEMPO])
    (by norm_num [ATEMPO_MAX, abs_lt, lt_abs, le_abs, abs_le])]
  norm_num [ATEMPO_MAX]

/-- Witness for C18: the element 5/4 of the chain for tempo 2.5. -/
theorem chain_elements_in_atempo_range_witness :
    (5 / 4 : ℚ) ∈ calculateTempoChain (5 / 2) ∧ ATEMPO_MIN ≤ (5 / 4 : ℚ) ∧
      (5 / 4 : ℚ) ≤ ATEMPO_MAX :=
  have hm : (5 / 4 : ℚ) ∈ calculateTempoChain (5 / 2) := by
    rw [calculateTempoChain_five_halves]
    simp
  have h := chain_elements_in_atempo_range (5 / 2) (5 / 4) hm
  ⟨hm, h.1, h.2.1⟩

/-- The greedy chain of the specification for a target in [0.25, 4.0]. -/
theorem specTempoChain_cases (t : ℚ) (h1 : MIN_TEMPO ≤ t) (h2 : t ≤ MAX_TEMPO) :
    (ATEMPO_MIN ≤ t ∧ t ≤ ATEMPO_MAX → specTempoChain t = [t]) ∧
      (t > ATEMPO_MAX → specTempoChain t = [ATEMPO_MAX, t / ATEMPO_MAX]) ∧
      (t < ATEMPO_MIN → specTempoChain t = [ATEMPO_MIN, t / ATEMPO_MIN]) := by
  unfold MIN_TEMPO at h1
  unfold MAX_TEMPO at h2
  refine ⟨?_, ?_, ?_⟩
  · intro h
    show greedyChain (3 + 1) t = _
    rw [greedyChain, if_pos h]
  · intro h
    have hn : ¬ (ATEMPO_MIN ≤ t ∧ t ≤ ATEMPO_MAX) := fun hh => absurd hh.2 (not_le.mpr h)
    show greedyChain (3 + 1) t = _
    rw [greedyChain, if_neg hn, if_pos h]
    show ATEMPO_MAX :: greedyChain (2 + 1) (t / ATEMPO_MAX) = _
    rw [greedyChain, if_pos (by
      unfold ATEMPO_MAX at h ⊢
      unfold ATEMPO_MIN
      constructor <;> linarith)]
  · intro h
    have hn : ¬ (ATEMPO_MIN ≤ t ∧ t ≤ ATEMPO_MAX) := fun hh => absurd hh.1 (not_le.mpr h)
    have hn2 : ¬ t > ATEMPO_MAX := by
      unfold ATEMPO_MIN at h
      unfold ATEMPO_MAX
      intro hh
      linarith
    show greedyChain (3 + 1) t = _
    rw [greedyChain, if_neg hn, if_neg hn2]
    show ATEMPO_MIN :: greedyChain (2 + 1) (t / ATEMPO_MIN) = _
    rw [greedyChain, if_pos (by
      unfold ATEMPO_MIN at h ⊢
      unfold ATEMPO_MAX
      constructor <;> linarith)]

/-- C15, as stated, fails: the target 1.0005 lies in [0.25, 4.0] and inside
[0.5, 2.0], so the greedy decomposition emits it and stops, giving [1.0005];
`calculateTempoChain(1.0005)` returns [1.0]. -/
theorem chain_near_one_differs_from_greedy :
    MIN_TEMPO ≤ (2001 / 2000 : ℚ) ∧ (2001 / 2000 : ℚ) ≤ MAX_TEMPO ∧
      calculateTempoChain (2001 / 2000) = [1] ∧
      specTempoChain (2001 / 2000) = [2001 / 2000] ∧
      calculateTempoChain (2001 / 2000) ≠ specTempoChain (2001 / 2000) := by
  have hmin : MIN_TEMPO ≤ (2001 / 2000 : ℚ) := by norm_num [MIN_TEMPO]
  have hmax : (2001 / 2000 : ℚ) ≤ MAX_TEMPO := by norm_num [MAX_TEMPO]
  have hc : calculateTempoChain (2001 / 2000) = [1] :=
    calculateTempoChain_near_one _ (by norm_num [abs_lt])
  have hs : specTempoChain (2001 / 2000) = [2001 / 2000] :=
    (specTempoChain_cases _ hmin hmax).1 (by norm_num [ATEMPO_MIN, ATEMPO_MAX])
  refine ⟨hmin, hmax, hc, hs, ?_⟩
  rw [hc, hs]
  norm_num

/-- C15, amended: for every target T in [0.25, 4.0] `calculateTempoChain` follows the
greedy decomposition of the specification as long as every remaining ratio it meets (T
itself, and T / 2.0 or T / 0.5 after a bound was emitted) is more than 0.001 away from
1.0.  A remaining ratio within 0.001 of 1.0 is taken for the identity: a target that
close to 1.0 gives [1.0], and after an emitted bound the rest is dropped, giving [2.0]
or [0.5].  In particular `calculateTempoChain(1.0)` = [1.0] and
`calculateTempoChain(2.5)` = [2.0, 1.25]. -/
theorem chain_is_greedy_away_from_one (t : ℚ) (h1 : MIN_TEMPO ≤ t) (h2 : t ≤ MAX_TEMPO) :
    (|t - 1| > 1 / 1000 → (t > ATEMPO_MAX → |t / ATEMPO_MAX - 1| > 1 / 1000) →
        (t < ATEMPO_MIN → |t / ATEMPO_MIN - 1| > 1 / 1000) →
        calculateTempoChain t = specTempoChain t) ∧
      (|t - 1| < 1 / 1000 → calculateTempoChain t = [1]) ∧
      (t > ATEMPO_MAX → ¬ |t / ATEMPO_MAX - 1| > 1 / 1000 →
        calculateTempoChain t = [ATEMPO_MAX]) ∧
      (t < ATEMPO_MIN → ¬ |t / ATEMPO_MIN - 1| > 1 / 1000 →
        calculateTempoChain t = [ATEMPO_MIN]) ∧
      calculateTempoChain 1 = [1] ∧ calculateTempoChain (5 / 2) = [2, 5 / 4] := by
  obtain ⟨sin, shi, slo⟩ := specTempoChain_cases t h1 h2
  refine ⟨?_, calculateTempoChain_near_one t, calculateTempoChain_high_one t,
    calculateTempoChain_low_one t, calculateTempoChain_near_one 1 (by norm_num),
    calculateTempoChain_five_halves⟩
  intro hne hhi hlo
  by_cases hin : ATEMPO_MIN ≤ t ∧ t ≤ ATEMPO_MAX
  · rw [calculateTempoChain_inside t hne hin, sin hin]
  · by_cases hgt : t > ATEMPO_MAX
    · rw [calculateTempoChain_high_two t hgt h2 (hhi hgt), shi hgt]
    · have hlt : t < ATEMPO_MIN := by
        by_contra hc
        exact hin ⟨not_lt.mp hc, not_lt.mp hgt⟩
      rw [calculateTempoChain_low_two t hlt h1 (hlo hlt), slo hlt]

/-- Witness for C15 (amended): tempo 2.5 is decomposed greedily. -/
theorem chain_is_greedy_away_from_one_witness :
    calculateTempoChain (5 / 2) = specTempoChain (5 / 2) :=
  (chain_is_greedy_away_from_one (5 / 2) (by norm_num [MIN_TEMPO])
    (by norm_num [MAX_TEMPO])).1
    (by norm_num [abs_lt, lt_abs, le_abs, abs_le])
    (fun _ => by norm_num [ATEMPO_MAX, abs_lt, lt_abs, le_abs, abs_le])
    (fun h => by norm_num [ATEMPO_MIN] at h)

/-- The `int` conversion of a natural number is that number. -/
theorem castInt_natCast (n : ℕ) : castInt (n : ℚ) = n := by
  rw [castInt_of_nonneg (Nat.cast_nonneg n)]
  exact Int.floor_natCast n

/-- Cache keys of the tempos 1.0 and above among `COMMON_TEMPOS`. -/
theorem commonTempoKeys :
    castInt ((1 : ℚ) * 1000) = 1000 ∧ castInt ((5 / 4 : ℚ) * 1000) = 1250 ∧
      castInt ((3 / 2 : ℚ) * 1000) = 1500 ∧ castInt ((7 / 4 : ℚ) * 1000) = 1750 ∧
      castInt ((2 : ℚ) * 1000) = 2000 ∧ castInt ((5 / 2 : ℚ) * 1000) = 2500 ∧
      castInt ((3 : ℚ) * 1000) = 3000 ∧ castInt ((4 : ℚ) * 1000) = 4000 := by
  refine ⟨?_, ?_, ?_, ?_, ?_, ?_, ?_, ?_⟩
  · rw [show (1 : ℚ) * 1000 = ((1000 : ℕ) : ℚ) by norm_num]; exact castInt_natCast 1000
  · rw [show (5 / 4 : ℚ) * 1000 = ((1250 : ℕ) : ℚ) by norm_num]; exact castInt_natCast 1250
  · rw [show (3 / 2 : ℚ) * 1000 = ((1500 : ℕ) : ℚ) by norm_num]; exact castInt_natCast 1500
  · rw [show (7 / 4 : ℚ) * 1000 = ((1750 : ℕ) : ℚ) by norm_num]; exact castInt_natCast 1750
  · rw [show (2 : ℚ) * 1000 = ((2000 : ℕ) : ℚ) by norm_num]; exact castInt_natCast 2000
  · rw [show (5 / 2 : ℚ) * 1000 = ((2500 : ℕ) : ℚ) by norm_num]; exact castInt_natCast 2500
  · rw [show (3 : ℚ) * 1000 = ((3000 : ℕ) : ℚ) by norm_num]; exact castInt_natCast 3000
  · rw [show (4 : ℚ) * 1000 = ((4000 : ℕ) : ℚ) by norm_num]; exact castInt_natCast 4000

/-- After the caching loop of `initTempoFilter` the keys 1000 and 2000 hold the chains
computed for the tempos 1.0 and 2.0, and nothing but the cache has changed. -/
theorem cache_after_common_tempos (f : TempoFilter) :
    (COMMON_TEMPOS.foldl
        (fun acc tempo => acc.cacheStrategy tempo (calculateTempoChain tempo)) f).strategyCache_
          1000 = some ⟨1, calculateTempoChain 1⟩ ∧
      (COMMON_TEMPOS.foldl
        (fun acc tempo => acc.cacheStrategy tempo (calculateTempoChain tempo)) f).strategyCache_
          2000 = some ⟨2, calculateTempoChain 2⟩ ∧
      (COMMON_TEMPOS.foldl
        (fun acc tempo => acc.cacheStrategy tempo (calculateTempoChain tempo)) f).initialized_ =
          f.initialized_ := by
  obtain ⟨k1, k2, k3, k4, k5, k6, k7, k8⟩ := commonTempoKeys
  simp only [COMMON_TEMPOS, List.foldl, cacheStrategy, k1, k2, k3, k4, k5, k6, k7, k8]
  refine ⟨?_, ?_, trivial⟩
  · simp [Function.update_apply]
  · simp [Function.update_apply]

/-- A cached strategy is returned as it is and the filter is not changed. -/
theorem getTempoChain_hit (f : TempoFilter) (tempo : ℚ) (s : TempoStrategy)
    (h : f.strategyCache_ (castInt (tempo * 1000)) = some s) :
    f.getTempoChain tempo = (s.chain, f) := by
  simp [getTempoChain, findCachedStrategy, h]

/-- A build whose chain comes from the cache and whose graph allocation fails returns
`AVERROR(ENOMEM)` and leaves `initialized_` as it was, with the graph, the source and
the sink gone. -/
theorem build_alloc_fails (f : TempoFilter) (tempo : ℚ) (env : GraphEnv) (s : TempoStrategy)
    (hcache : f.strategyCache_ (castInt (tempo * 1000)) = some s) (hne : s.chain ≠ [])
    (halloc : env.graphAlloc = false) :
    (f.buildCompleteFilterChain tempo env).1 = AVERROR_ENOMEM ∧
      (f.buildCompleteFilterChain tempo env).2.initialized_ = f.initialized_ ∧
      (f.buildCompleteFilterChain tempo env).2.filterGraph_ = false ∧
      (f.buildCompleteFilterChain tempo env).2.bufferSource_ = false ∧
      (f.buildCompleteFilterChain tempo env).2.bufferSink_ = false := by
  have hc := getTempoChain_hit
    { f with tempoNodes_ := [], bufferSource_ := false, bufferSink_ := false,
             filterGraph_ := false } tempo s hcache
  simp [buildCompleteFilterChain, hc, createFilterGraph, halloc, hne, AVERROR_ENOMEM]

/-- A build whose chain comes from the cache and whose source creation fails returns
that failure and ends in `cleanup`: the filter is uninitialized. -/
theorem build_source_fails (f : TempoFilter) (tempo : ℚ) (env : GraphEnv) (s : TempoStrategy)
    (hcache : f.strategyCache_ (castInt (tempo * 1000)) = some s) (hne : s.chain ≠ [])
    (halloc : env.graphAlloc = true) (hstr : env.sourceLayoutStr = true)
    (hsrc : env.sourceCreate < 0) :
    (f.buildCompleteFilterChain tempo env).1 = env.sourceCreate ∧
      (f.buildCompleteFilterChain tempo env).2.initialized_ = false := by
  have hc := getTempoChain_hit
    { f with tempoNodes_ := [], bufferSource_ := false, bufferSink_ := false,
             filterGraph_ := false } tempo s hcache
  simp [buildCompleteFilterChain, hc, createFilterGraph, createBufferSource, halloc, hstr,
    hsrc, hne, cleanup]

/-- A build of the identity chain [1.0] taken from the cache, when every FFmpeg call
succeeds, returns 0 and leaves the filter initialized at the requested tempo, with the
cache as it was. -/
theorem build_identity_succeeds (f : TempoFilter) (tempo : ℚ) (env : GraphEnv)
    (s : TempoStrategy)
    (hcache : f.strategyCache_ (castInt (tempo * 1000)) = some s) (hs : s.chain = [1])
    (henv : Succeeds env) :
    (f.buildCompleteFilterChain tempo env).1 = 0 ∧
      (f.buildCompleteFilterChain tempo env).2.initialized_ = true ∧
      (f.buildCompleteFilterChain tempo env).2.currentTempo_ = tempo ∧
      (f.buildCompleteFilterChain tempo env).2.strategyCache_ = f.strategyCache_ := by
  have hc := getTempoChain_hit
    { f with tempoNodes_ := [], bufferSource_ := false, bufferSink_ := false,
             filterGraph_ := false } tempo s hcache
  obtain ⟨e1, e2, e3, e4, e5, e6, _, e8, _, _, _, e12⟩ := henv
  simp [buildCompleteFilterChain, hc, hs, createFilterGraph, createBufferSource,
    createBufferSink, createAndLinkTempoChain, e1, e2, e5, not_lt.mpr e3, not_lt.mpr e4,
    not_lt.mpr e6, not_lt.mpr e8, not_lt.mpr e12]

/-- In the environment `allSucceed` every FFmpeg call succeeds. -/
theorem allSucceed_succeeds : Succeeds allSucceed := by
  simp [Succeeds, allSucceed]

/-- When every FFmpeg call succeeds `initTempoFilter` returns 0 and leaves the filter
initialized at tempo 1.0, with the chain of tempo 2.0 cached under the key 2000. -/
theorem initTempoFilter_succeeds (f : TempoFilter) (samplerate threads : Int) (env : GraphEnv)
    (henv : Succeeds env) :
    (f.initTempoFilter samplerate threads env).1 = 0 ∧
      (f.initTempoFilter samplerate threads env).2.initialized_ = true ∧
      (f.initTempoFilter samplerate threads env).2.currentTempo_ = 1 ∧
      (f.initTempoFilter samplerate threads env).2.strategyCache_ 2000 =
        some ⟨2, calculateTempoChain 2⟩ := by
  unfold initTempoFilter
  lift_lets
  intro f1 f2 f3
  have hcache := cache_after_common_tempos f2
  have hb := build_identity_succeeds f3 1 env ⟨1, calculateTempoChain 1⟩
    (by rw [commonTempoKeys.1]; exact hcache.1)
    (calculateTempoChain_near_one 1 (by norm_num)) henv
  refine ⟨hb.1, hb.2.1, hb.2.2.1, ?_⟩
  rw [hb.2.2.2]
  exact hcache.2.1

/-- The filter `initialized` is initialized at tempo 1.0 and has the chain [2.0] cached
for tempo 2.0. -/
theorem initialized_fields :
    initialized.initialized_ = true ∧ initialized.currentTempo_ = 1 ∧
      initialized.strategyCache_ (castInt ((2 : ℚ) * 1000)) = some ⟨2, [2]⟩ := by
  have h := initTempoFilter_succeeds TempoFilter.new 48000 1 allSucceed allSucceed_succeeds
  refine ⟨h.2.1, h.2.2.1, ?_⟩
  rw [commonTempoKeys.2.2.2.2.1]
  have hc : calculateTempoChain 2 = [2] :=
    calculateTempoChain_inside 2 (by norm_num [abs_lt, lt_abs, le_abs, abs_le])
      (by norm_num [ATEMPO_MIN, ATEMPO_MAX])
  rw [← hc]
  exact h.2.2.2

/-- On the filter `initialized` a `setTempo(2.0)` goes on to build the chain. -/
theorem initialized_setTempo_two (env : GraphEnv) :
    initialized.setTempo 2 env = initialized.buildCompleteFilterChain 2 env := by
  unfold setTempo
  rw [if_neg (by rw [initialized_fields.1]; simp),
    if_neg (by simp [isValidTempo, MIN_TEMPO, MAX_TEMPO]; norm_num),
    if_neg (by rw [initialized_fields.2.1]; norm_num [abs_lt, lt_abs, le_abs, abs_le])]

/-- C19, the code at a failing input: on the filter initialized by `initTempoFilter`,
`setTempo(2.0)` during which `avfilter_graph_alloc` fails returns the negative code
`AVERROR(ENOMEM)` and yet leaves `initialized_` true, with the graph, the source and the
sink null; the next `addFrame` and `getFrame` pass the `initialized_` test and call
into FFmpeg. -/
theorem setTempo_alloc_failure_stays_initialized :
    initialized.initialized_ = true ∧
      (initialized.setTempo 2 allocFails).1 = AVERROR_ENOMEM ∧
      (initialized.setTempo 2 allocFails).1 < 0 ∧
      (initialized.setTempo 2 allocFails).2.initialized_ = true ∧
      (initialized.setTempo 2 allocFails).2.filterGraph_ = false ∧
      (initialized.setTempo 2 allocFails).2.bufferSource_ = false ∧
      (initialized.setTempo 2 allocFails).2.bufferSink_ = false ∧
      ((initialized.setTempo 2 allocFails).2.addFrame true 0).libraryCalled = true ∧
      ((initialized.setTempo 2 allocFails).2.getFrame true 0).libraryCalled = true := by
  have hb := build_alloc_fails initialized 2 allocFails ⟨2, [2]⟩ initialized_fields.2.2
    (by simp) rfl
  rw [initialized_setTempo_two]
  have hi : (initialized.buildCompleteFilterChain 2 allocFails).2.initialized_ = true := by
    rw [hb.2.1]; exact initialized_fields.1
  refine ⟨initialized_fields.1, hb.1, ?_, hi, hb.2.2.1, hb.2.2.2.1, hb.2.2.2.2, ?_, ?_⟩
  · rw [hb.1]; decide
  · simp [addFrame, hi]
  · simp [getFrame, hi, AVERROR_EAGAIN, AVERROR_EOF]

/-- On an uninitialized filter `addFrame` and `getFrame` return `AVERROR(EINVAL)` at
once, without calling into FFmpeg and without changing the filter. -/
theorem uninitialized_frames_fail_fast (f : TempoFilter) (frame : Bool) (libRet : Int)
    (h : f.initialized_ = false) :
    f.addFrame frame libRet = ⟨AVERROR_EINVAL, f, false⟩ ∧
      f.getFrame frame libRet = ⟨AVERROR_EINVAL, f, false⟩ := by
  simp [addFrame, getFrame, h]

/-- C20, as stated, fails: `setTempo(2.0)` on the initialized filter fails at the source
creation and leaves the filter uninitialized; the next call `setTempo(1.5)`, a valid
tempo with every FFmpeg call succeeding, returns `AVERROR(EINVAL)` and the filter is
still uninitialized. -/
theorem setTempo_cannot_reinitialize :
    (initialized.setTempo 2 sourceFails).1 < 0 ∧
      (initialized.setTempo 2 sourceFails).2.initialized_ = false ∧
      isValidTempo (3 / 2) = true ∧ Succeeds allSucceed ∧
      ((initialized.setTempo 2 sourceFails).2.setTempo (3 / 2) allSucceed).1 = AVERROR_EINVAL ∧
      ((initialized.setTempo 2 sourceFails).2.setTempo (3 / 2) allSucceed).1 < 0 ∧
      ((initialized.setTempo 2 sourceFails).2.setTempo (3 / 2) allSucceed).2.initialized_ =
        false := by
  have hb := build_source_fails initialized 2 sourceFails ⟨2, [2]⟩ initialized_fields.2.2
    (by simp) rfl rfl (by decide)
  rw [initialized_setTempo_two]
  have hu := hb.2
  refine ⟨?_, hu, ?_, allSucceed_succeeds, ?_, ?_, ?_⟩
  · rw [hb.1]; decide
  · simp [isValidTempo, MIN_TEMPO, MAX_TEMPO]; norm_num
  · simp [setTempo, hu]
  · simp [setTempo, hu, AVERROR_EINVAL]
  · simp [setTempo, hu]

/-- C20, amended: after a failed tempo change has left the filter uninitialized, every
`setTempo` call, whatever the tempo and even if every graph operation would succeed,
returns `AVERROR(EINVAL)` with the error "Filter not initialized" and leaves the filter
uninitialized; it is `initTempoFilter` that, when every graph operation succeeds,
returns success and makes the filter initialized again (at tempo 1.0). -/
theorem uninitialized_filter_needs_init (f : TempoFilter) (tempo : ℚ) (env : GraphEnv)
    (samplerate threads : Int) (h : f.initialized_ = false) :
    f.setTempo tempo env = (AVERROR_EINVAL, { f with lastError_ := .notInitialized }) ∧
      (f.setTempo tempo env).2.initialized_ = false ∧
      (Succeeds env →
        (f.initTempoFilter samplerate threads env).1 = 0 ∧
          (f.initTempoFilter samplerate threads env).2.initialized_ = true ∧
          (f.initTempoFilter samplerate threads env).2.currentTempo_ = 1) := by
  refine ⟨?_, ?_, ?_⟩
  · simp [setTempo, h]
  · simp [setTempo, h]
  · intro henv
    have hi := initTempoFilter_succeeds f samplerate threads env henv
    exact ⟨hi.1, hi.2.1, hi.2.2.1⟩

/-- Witness for C20 (amended): the filter left uninitialized by the failed
`setTempo(2.0)`. -/
theorem uninitialized_filter_needs_init_witness :
    ((initialized.buildCompleteFilterChain 2 sourceFails).2.setTempo (3 / 2) allSucceed).1 =
        AVERROR_EINVAL ∧
      ((initialized.buildCompleteFilterChain 2 sourceFails).2.initTempoFilter
        48000 1 allSucceed).2.initialized_ = true :=
  have hu : (initialized.buildCompleteFilterChain 2 sourceFails).2.initialized_ = false :=
    (build_source_fails initialized 2 sourceFails ⟨2, [2]⟩ initialized_fields.2.2
      (by simp) rfl rfl (by decide)).2
  have h := uninitialized_filter_needs_init
    (initialized.buildCompleteFilterChain 2 sourceFails).2 (3 / 2) allSucceed 48000 1 hu
  ⟨by rw [h.1], (h.2.2 allSucceed_succeeds).2.1⟩

/-- Looking a chain up, or computing and caching it, leaves `initialized_` and the
source handle alone. -/
theorem getTempoChain_fields (f : TempoFilter) (tempo : ℚ) :
    (f.getTempoChain tempo).2.initialized_ = f.initialized_ ∧
      (f.getTempoChain tempo).2.bufferSource_ = f.bufferSource_ := by
  unfold getTempoChain
  split <;> exact ⟨rfl, rfl⟩

/-- Allocating the graph leaves `initialized_` and the source handle alone. -/
theorem createFilterGraph_fields (f : TempoFilter) (env : GraphEnv) :
    (f.createFilterGraph env).2.initialized_ = f.initialized_ ∧
      (f.createFilterGraph env).2.bufferSource_ = f.bufferSource_ := by
  unfold createFilterGraph
  split <;> exact ⟨rfl, rfl⟩

/-- Every failing build either ends with the filter uninitialized or failed before the
source was created (empty chain or graph allocation), in which case `initialized_` is
what it was before the build and the source is null. -/
theorem build_failure_state (f : TempoFilter) (tempo : ℚ) (env : GraphEnv)
    (h : (f.buildCompleteFilterChain tempo env).1 < 0) :
    (f.buildCompleteFilterChain tempo env).2.initialized_ = false ∨
      ((f.buildCompleteFilterChain tempo env).2.initialized_ = f.initialized_ ∧
        (f.buildCompleteFilterChain tempo env).2.bufferSource_ = false) := by
  unfold buildCompleteFilterChain at h ⊢
  dsimp only at h ⊢
  split_ifs at h ⊢
  · exact Or.inr ⟨(getTempoChain_fields _ tempo).1, (getTempoChain_fields _ tempo).2⟩
  · right
    constructor
    · show ((_ : TempoFilter).createFilterGraph env).2.initialized_ = _
      rw [(createFilterGraph_fields _ env).1]
      exact (getTempoChain_fields _ tempo).1
    · show ((_ : TempoFilter).createFilterGraph env).2.bufferSource_ = _
      rw [(createFilterGraph_fields _ env).2]
      exact (getTempoChain_fields _ tempo).2
  · exact Or.inl rfl
  · exact Or.inl rfl
  · exact Or.inl rfl
  · exact Or.inl rfl
  · exact absurd h (lt_irrefl (0 : Int))

/-- A failing `initTempoFilter` always leaves the filter uninitialized. -/
theorem initTempoFilter_failure_uninitialized (f : TempoFilter) (samplerate threads : Int)
    (env : GraphEnv) (h : (f.initTempoFilter samplerate threads env).1 < 0) :
    (f.initTempoFilter samplerate threads env).2.initialized_ = false := by
  unfold initTempoFilter at h ⊢
  dsimp only at h ⊢
  rcases build_failure_state _ 1 env h with hb | hb
  · exact hb
  · rw [hb.1, (cache_after_common_tempos _).2.2]
    show (if f.initialized_ = true then f.cleanup else f).initialized_ = false
    split
    · rfl
    · rename_i hn
      simpa using hn

end TempoFilter

/-! ### Media buffer, volume, thread start -/

/-- C23 (code at the failing input): a freshly constructed `MediaBuffer` passes
`(MAX_*, MIN_*)` to `Queue(minSize, maxSize)`, so every queue stores its `MAX_*`
constant both as low watermark and as capacity (30/30, 80/80, 15/15, 16/16) and the
gap is 0; the same constructor called with `(MIN_*, MAX_*)` stores 15/30, 40/80, 6/15
and 8/16. -/
theorem fresh_buffer_watermark_equals_capacity :
    ((MediaBuffer.new : MediaBuffer Nat Nat).vPkts_.minSize_ = 30 ∧
      (MediaBuffer.new : MediaBuffer Nat Nat).vPkts_.maxSize_ = 30) ∧
    ((MediaBuffer.new : MediaBuffer Nat Nat).aPkts_.minSize_ = 80 ∧
      (MediaBuffer.new : MediaBuffer Nat Nat).aPkts_.maxSize_ = 80) ∧
    ((MediaBuffer.new : MediaBuffer Nat Nat).vFrms_.minSize_ = 15 ∧
      (MediaBuffer.new : MediaBuffer Nat Nat).vFrms_.maxSize_ = 15) ∧
    ((MediaBuffer.new : MediaBuffer Nat Nat).aFrms_.minSize_ = 16 ∧
      (MediaBuffer.new : MediaBuffer Nat Nat).aFrms_.maxSize_ = 16) ∧
    ((queue.Queue.new MIN_VIDEO_PACKETS MAX_VIDEO_PACKETS : queue.Queue Nat).minSize_ = 15 ∧
      (queue.Queue.new MIN_VIDEO_PACKETS MAX_VIDEO_PACKETS : queue.Queue Nat).maxSize_ = 30) ∧
    ((queue.Queue.new MIN_AUDIO_PACKETS MAX_AUDIO_PACKETS : queue.Queue Nat).minSize_ = 40 ∧
      (queue.Queue.new MIN_AUDIO_PACKETS MAX_AUDIO_PACKETS : queue.Queue Nat).maxSize_ = 80) ∧
    ((queue.Queue.new MIN_VIDEO_FRAMES MAX_VIDEO_FRAMES : queue.Queue Nat).minSize_ = 6 ∧
      (queue.Queue.new MIN_VIDEO_FRAMES MAX_VIDEO_FRAMES : queue.Queue Nat).maxSize_ = 15) ∧
    ((queue.Queue.new MIN_AUDIO_FRAMES MAX_AUDIO_FRAMES : queue.Queue Nat).minSize_ = 8 ∧
      (queue.Queue.new MIN_AUDIO_FRAMES MAX_AUDIO_FRAMES : queue.Queue Nat).maxSize_ = 16) := by
  decide

/-- A value inside the 16-bit range is unchanged by the conversion to `int16_t`. -/
theorem toInt16_of_range (x : Int) (h1 : -32768 ≤ x) (h2 : x ≤ 32767) : toInt16 x = x := by
  unfold toInt16
  rw [Int.emod_eq_of_lt (by omega) (by omega)]
  omega

namespace AudioPlayThread

end AudioPlayThread

namespace legacy

/-- The `start()` of `src/src/DemuxThread.cpp` is idempotent: its `started_` guard makes
a second call return the state unchanged. -/
theorem DemuxThread_start_idempotent (t : DemuxThread) : t.start.start = t.start := by
  unfold DemuxThread.start
  by_cases h : t.started_ = true
  · simp [h]
  · by_cases hi : t.inited_ = false <;> simp [h, hi]

end legacy

/-- C21 (code at the failing input): `start()` of `src/VideoPlayer/VideoPlayer` runs
`init()` before `QThread::start()` with no guard.  A demux thread that is running with a
seek pending and packet handle 1 has, after a second `start()`, `running_ = false`,
`seeking_ = false` and another packet handle; a video player thread that is running and
paused has afterwards `running_ = false` and `paused_ = false`.  In both the thread stays
active and no second one is started. -/
theorem second_start_resets_running_thread :
    (DemuxThread.runningWithSeek.running_ = true ∧
      DemuxThread.runningWithSeek.seeking_ = true ∧
      DemuxThread.runningWithSeek.pkt_ = some 1 ∧
      DemuxThread.runningWithSeek.threadActive = true) ∧
    ((DemuxThread.runningWithSeek.start (DemuxThread.fileEnv 2)).running_ = false ∧
      (DemuxThread.runningWithSeek.start (DemuxThread.fileEnv 2)).seeking_ = false ∧
      (DemuxThread.runningWithSeek.start (DemuxThread.fileEnv 2)).pkt_ = some 2 ∧
      (DemuxThread.runningWithSeek.start (DemuxThread.fileEnv 2)).threadActive = true) ∧
    (((VideoPlayThread.new true true).start.runEntry.pause).running_ = true ∧
      ((VideoPlayThread.new true true).start.runEntry.pause).paused_ = true ∧
      ((VideoPlayThread.new true true).start.runEntry.pause).threadActive = true) ∧
    (((VideoPlayThread.new true true).start.runEntry.pause).start.running_ = false ∧
      ((VideoPlayThread.new true true).start.runEntry.pause).start.paused_ = false ∧
      ((VideoPlayThread.new true true).start.runEntry.pause).start.threadActive = true) := by
  refine ⟨by decide, by decide, ?_, ?_⟩ <;>
  simp [VideoPlayThread.new, VideoPlayThread.start, VideoPlayThread.init,
    VideoPlayThread.runEntry, VideoPlayThread.pause]

namespace VideoPlayThread

/-- While the sync engine exists and runs at the speed stored in the thread, `setSpeed`
keeps the two speeds equal. -/
theorem setSpeed_keeps_engine_speed (t : VideoPlayThread) (speed : ℚ)
    (h : t.syncSpeed = some t.speed_) :
    (t.setSpeed speed).syncSpeed = some (t.setSpeed speed).speed_ := by
  unfold setSpeed
  by_cases hs : |t.speed_ - speed| < 1 / 100
  · rw [if_pos hs]
    exact h
  · rw [if_neg hs]
    unfold syncSpeed at h ⊢
    cases hm : t.syncManager_ with
    | none => rw [hm] at h; simp at h
    | some s =>
      rw [hm] at h
      simp only [Option.map_some', Option.some.injEq] at h
      simp only [Option.map_some', Option.some.injEq]
      have hne : ¬ |s.speed_ - speed| < 1 / 1000 := by
        rw [h]
        intro hlt
        exact hs (lt_trans hlt (by norm_num))
      unfold AVSyncManager.setSpeed
      rw [if_neg hne]
      simp only
      split <;> rfl

/-- C29 (code at the failing input): a speed passed to `VideoPlayThread::setSpeed`
before `start()` is stored in the thread only; `init()` then creates the sync engine
with its default speed 1, and passing the same speed again returns early.  After
`setSpeed(2)`, `start()`, `setSpeed(2)` the thread speed is 2 and the engine speed 1. -/
theorem speed_set_before_start_not_forwarded :
    (((VideoPlayThread.new true true).setSpeed 2).start).speed_ = 2 ∧
      (((VideoPlayThread.new true true).setSpeed 2).start).syncSpeed = some 1 ∧
      ((((VideoPlayThread.new true true).setSpeed 2).start).setSpeed 2).speed_ = 2 ∧
      ((((VideoPlayThread.new true true).setSpeed 2).start).setSpeed 2).syncSpeed = some 1 := by
  have h1 : ¬ |(1 : ℚ) - 2| < 1 / 100 := by norm_num [abs_lt]
  have h2 : |(2 : ℚ) - 2| < 1 / 100 := by norm_num
  have e1 : (VideoPlayThread.new true true).setSpeed 2 =
      { VideoPlayThread.new true true with speed_ := 2 } := by
    unfold VideoPlayThread.setSpeed
    rw [if_neg (show ¬ |(VideoPlayThread.new true true).speed_ - 2| < 1 / 100 from h1)]
    rfl
  have e2 : ({ VideoPlayThread.new true true with speed_ := 2 } : VideoPlayThread).start =
      { VideoPlayThread.new true true with
        speed_ := 2, syncManager_ := some AVSyncManager.new, threadActive := true } := rfl
  have e3 : ({ VideoPlayThread.new true true with
        speed_ := 2, syncManager_ := some AVSyncManager.new, threadActive := true } :
        VideoPlayThread).setSpeed 2 =
      { VideoPlayThread.new true true with
        speed_ := 2, syncManager_ := some AVSyncManager.new, threadActive := true } := by
    unfold VideoPlayThread.setSpeed
    exact if_pos h2
  rw [e1, e2, e3]
  exact ⟨rfl, rfl, rfl, rfl⟩

end VideoPlayThread

/-! ### Sync engine: fine-tuning, clock average, delay bands -/

namespace AVSyncManager

end AVSyncManager

/-- An `update` keeps the average duration inside (0, 10) and the sample count
non-negative. -/
theorem Clock_update_keeps_avg_range (c : Clock) (newPts newDuration now speed : ℚ)
    (h : (0 < c.avgDuration ∧ c.avgDuration < 10) ∧ 0 ≤ c.updateCount) :
    (0 < (c.update newPts newDuration now speed).avgDuration ∧
        (c.update newPts newDuration now speed).avgDuration < 10) ∧
      0 ≤ (c.update newPts newDuration now speed).updateCount := by
  obtain ⟨⟨ha, hb⟩, hc⟩ := h
  have hcq : (0 : ℚ) ≤ (c.updateCount : ℚ) := by exact_mod_cast hc
  simp only [Clock.update]
  split
  · rename_i hd
    split
    · have hden : (0 : ℚ) < (c.updateCount : ℚ) + 1 := by linarith
      refine ⟨⟨div_pos ?_ hden, ?_⟩, by omega⟩
      · have := mul_nonneg ha.le hcq
        linarith [hd.1]
      · rw [div_lt_iff₀ hden]
        have := mul_le_mul_of_nonneg_right hb.le hcq
        linarith [hd.2]
    · refine ⟨⟨?_, ?_⟩, hc⟩
      · have : 0 < c.avgDuration * (95 / 100) := mul_pos ha (by norm_num)
        have : 0 < newDuration * (5 / 100) := mul_pos hd.1 (by norm_num)
        linarith
      · linarith [hd.2]
  · exact ⟨⟨ha, hb⟩, hc⟩

/-- Every clock state that comes from a `reset` by `update` calls has an average
duration inside (0, 10) and a non-negative sample count. -/
theorem Clock_reachable_avg_range (c : Clock) (h : Clock.Reachable c) :
    (0 < c.avgDuration ∧ c.avgDuration < 10) ∧ 0 ≤ c.updateCount := by
  induction h with
  | reset c =>
    simp only [Clock.reset, Clock.init, DEFAULT_FRAME_DURATION]
    norm_num
  | update newPts newDuration now speed _ ih =>
    exact Clock_update_keeps_avg_range _ newPts newDuration now speed ih

/-- C28: `Clock::update` with a duration sample outside (0, 10 s) leaves the average
duration and its sample count unchanged, whatever the clock state `c0`; and in every
clock state `c` that comes from a `reset` by any sequence of `update` calls, and after
one more `update`, the average duration is above 0 and below 10 s. -/
theorem clock_average_duration_stays_in_range (c0 c : Clock)
    (newPts newDuration now speed : ℚ) (hr : Clock.Reachable c) :
    (¬ (0 < newDuration ∧ newDuration < 10) →
        (c0.update newPts newDuration now speed).avgDuration = c0.avgDuration ∧
          (c0.update newPts newDuration now speed).updateCount = c0.updateCount) ∧
      (0 < c.avgDuration ∧ c.avgDuration < 10) ∧
      (0 < (c.update newPts newDuration now speed).avgDuration ∧
        (c.update newPts newDuration now speed).avgDuration < 10) := by
  refine ⟨?_, (Clock_reachable_avg_range c hr).1,
    (Clock_reachable_avg_range _ (Clock.Reachable.update newPts newDuration now speed hr)).1⟩
  intro hd
  simp only [Clock.update]
  rw [if_neg (by simpa using hd)]
  exact ⟨rfl, rfl⟩

/-- Witness for C28: a clock reset and updated once with a 40 ms sample, then updated
with a 12 s sample; the arbitrary clock is the default one. -/
theorem clock_average_duration_stays_in_range_witness :
    (¬ (0 < (12 : ℚ) ∧ (12 : ℚ) < 10) →
        (Clock.init.update 1 12 101 1).avgDuration = Clock.init.avgDuration ∧
          (Clock.init.update 1 12 101 1).updateCount = Clock.init.updateCount) ∧
      (0 < ((Clock.init.reset).update 0 (1 / 25) 100 1).avgDuration ∧
        ((Clock.init.reset).update 0 (1 / 25) 100 1).avgDuration < 10) ∧
      (0 < (((Clock.init.reset).update 0 (1 / 25) 100 1).update 1 12 101 1).avgDuration ∧
        (((Clock.init.reset).update 0 (1 / 25) 100 1).update 1 12 101 1).avgDuration < 10) :=
  clock_average_duration_stays_in_range Clock.init
    ((Clock.init.reset).update 0 (1 / 25) 100 1) 1 12 101 1
    (Clock.Reachable.update 0 (1 / 25) 100 1 (Clock.Reachable.reset Clock.init))

namespace AVSyncManager

end AVSyncManager

/-! ### Sync engine: the state after one frame and after a run of frames -/

namespace AVSyncManager

/-- State after an unpaused `calculateVideoDelay`: the state `syncDelay` leaves, with
the frame counter advanced. -/
theorem calculateVideoDelay_snd (m : AVSyncManager) (pts d now1 now2 : ℚ)
    (hp : m.paused_ = false) :
    (m.calculateVideoDelay pts d now1 now2).2 =
      { ((m.afterVideoUpdate pts d now1).syncDelay (m.effectiveDurationOf d) now2).2 with
        frameCount_ :=
          ((m.afterVideoUpdate pts d now1).syncDelay
            (m.effectiveDurationOf d) now2).2.frameCount_ + 1 } := by
  unfold calculateVideoDelay
  rw [if_neg (by simp [hp])]
  rfl

/-- The video clock update leaves every other field as it was. -/
theorem afterVideoUpdate_fields (m : AVSyncManager) (pts d now1 : ℚ) :
    (m.afterVideoUpdate pts d now1).paused_ = m.paused_ ∧
      (m.afterVideoUpdate pts d now1).audioClock_ = m.audioClock_ ∧
      (m.afterVideoUpdate pts d now1).speed_ = m.speed_ ∧
      (m.afterVideoUpdate pts d now1).syncLogs_ = m.syncLogs_ ∧
      (m.afterVideoUpdate pts d now1).consecutiveBadDelays_ = m.consecutiveBadDelays_ ∧
      (m.afterVideoUpdate pts d now1).lastGoodOffset_ = m.lastGoodOffset_ ∧
      (m.afterVideoUpdate pts d now1).forceSystemMode_ = m.forceSystemMode_ := by
  unfold afterVideoUpdate
  split <;> exact ⟨rfl, rfl, rfl, rfl, rfl, rfl, rfl⟩

/-- Stability is a function of the offset history and the speed. -/
theorem isSystemStable_congr (m k : AVSyncManager) (hl : k.syncLogs_ = m.syncLogs_)
    (hs : k.speed_ = m.speed_) : k.isSystemStable = m.isSystemStable := by
  unfold isSystemStable
  rw [hl, hs]

/-- With both clocks valid the gate `shouldUsePtsSync` is open exactly when the history
is stable with a last-good offset below 0.08 s, or at most 3 bad delays were counted. -/
theorem shouldUsePtsSync_iff (m : AVSyncManager) (ha : m.audioClock_.isValid = true)
    (hv : m.videoClock_.isValid = true) :
    m.shouldUsePtsSync = true ↔
      (m.isSystemStable = true ∧ |m.lastGoodOffset_| < 8 / 100) ∨
        m.consecutiveBadDelays_ ≤ 3 := by
  unfold shouldUsePtsSync AV_SYNC_THRESHOLD_MAX
  rw [if_neg (by simp [ha, hv])]
  by_cases h1 : m.isSystemStable = true ∧ |m.lastGoodOffset_| < 8 / 100
  · rw [if_pos h1]
    exact ⟨fun _ => Or.inl h1, fun _ => rfl⟩
  · rw [if_neg h1]
    by_cases h2 : m.consecutiveBadDelays_ > 3
    · rw [if_pos h2]
      constructor
      · intro h
        exact absurd h (by simp)
      · rintro (h | h)
        · exact absurd h h1
        · omega
    · rw [if_neg h2]
      exact ⟨fun _ => Or.inr (by omega), fun _ => rfl⟩

/-- Logging into a history of fewer than 30 samples appends the sample. -/
theorem logSyncOffset_logs (m : AVSyncManager) (o : ℚ) (h : m.syncLogs_.length < 30) :
    (m.logSyncOffset o).syncLogs_ = m.syncLogs_ ++ [o] := by
  unfold logSyncOffset AV_SYNC_HISTORY_SIZE
  simp only
  rw [if_neg (by simp; omega)]

/-- Fields of the state `syncDelay` leaves on the PTS-sync path. -/
theorem syncDelay_pts_fields (m : AVSyncManager) (e n : ℚ)
    (hc : ¬ (m.audioClock_.isValid = false ∨ m.forceSystemMode_ = true ∨
      m.shouldUsePtsSync = false)) :
    (m.syncDelay e n).2.syncLogs_ = (m.logSyncOffset (m.calculateAVOffset n)).syncLogs_ ∧
      (|m.calculateAVOffset n| > 1 / 2 →
        (m.syncDelay e n).2.consecutiveBadDelays_ = m.consecutiveBadDelays_ + 1 ∧
          (m.syncDelay e n).2.lastGoodOffset_ = m.lastGoodOffset_ ∧
          (m.syncDelay e n).2.forceSystemMode_ = decide (m.consecutiveBadDelays_ + 1 > 5)) ∧
      (¬ |m.calculateAVOffset n| > 1 / 2 →
        (m.syncDelay e n).2.consecutiveBadDelays_ = 0 ∧
          (m.syncDelay e n).2.lastGoodOffset_ = m.calculateAVOffset n ∧
          (m.syncDelay e n).2.forceSystemMode_ = false) := by
  have hf : m.forceSystemMode_ = false := by
    by_contra h
    exact hc (Or.inr (Or.inl (by simpa using h)))
  have hF : FALLBACK_TO_SYSTEM_THRESHOLD = 1 / 2 := by
    unfold FALLBACK_TO_SYSTEM_THRESHOLD
    norm_num
  by_cases hb : |m.calculateAVOffset n| > FALLBACK_TO_SYSTEM_THRESHOLD
  · rw [syncDelay_fallback m e n hc hb]
    have hb2 : |m.calculateAVOffset n| > 1 / 2 := by rw [← hF]; exact hb
    have hcnt : (m.logSyncOffset (m.calculateAVOffset n)).consecutiveBadDelays_ =
        m.consecutiveBadDelays_ := rfl
    refine ⟨?_, fun _ => ?_, fun h => absurd hb2 h⟩
    · simp only
      split_ifs <;> rfl
    · simp only [hcnt]
      by_cases h5 : m.consecutiveBadDelays_ + 1 > 5
      · rw [if_pos h5]
        exact ⟨rfl, rfl, by simp [h5]⟩
      · rw [if_neg h5]
        refine ⟨rfl, rfl, ?_⟩
        show m.forceSystemMode_ = _
        rw [hf]
        simp [h5]
  · rw [syncDelay_good m e n hc hb]
    have hb2 : ¬ |m.calculateAVOffset n| > 1 / 2 := by rw [← hF]; exact hb
    refine ⟨rfl, fun h => absurd h hb2, fun _ => ⟨rfl, rfl, ?_⟩⟩
    show m.forceSystemMode_ = false
    exact hf

/-- One frame on the PTS-sync path: an unpaused engine without force-system-mode whose
valid audio clock reads `t` at time `now`, given a frame with a valid pts while the
gate is open, logs the offset `t - pts`; a bad offset (above 0.5 s) advances the
counter and sets force-system-mode when the counter passes 5, a good one clears the
counter and becomes the last-good offset. -/
theorem frame_step (m : AVSyncManager) (A : Clock) (s : ℚ) (logs : List ℚ) (cnt : Int)
    (lg now pts d t : ℚ) (vv : Bool)
    (h : Tracks m A s logs cnt lg false vv) (hA : A.isValid = true)
    (ht : A.getCurrentMediaTime now = t) (hv : isValidPts pts = true)
    (hg : (m.isSystemStable = true ∧ |lg| < 8 / 100) ∨ cnt ≤ 3)
    (hlen : logs.length < 30) :
    (|t - pts| > 1 / 2 →
        Tracks (m.calculateVideoDelay pts d now now).2 A s (logs ++ [t - pts]) (cnt + 1) lg
          (decide (cnt + 1 > 5)) true) ∧
      (¬ |t - pts| > 1 / 2 →
        Tracks (m.calculateVideoDelay pts d now now).2 A s (logs ++ [t - pts]) 0 (t - pts)
          false true) := by
  obtain ⟨hp, haud, hsp, hlogs, hcnt, hlg, hf, _⟩ := h
  obtain ⟨f1, f2, f3, f4, f5, f6, f7⟩ := afterVideoUpdate_fields m pts d now
  have hne : pts ≠ AV_NOPTS_VALUE := by
    simp only [isValidPts, Bool.and_eq_true, decide_eq_true_eq] at hv
    exact hv.1
  have hvc : (m.afterVideoUpdate pts d now).videoClock_ =
      m.videoClock_.update pts (m.effectiveDurationOf d) now m.speed_ := by
    unfold afterVideoUpdate
    rw [if_pos hv]
  have hvalid : (m.afterVideoUpdate pts d now).videoClock_.isValid = true := by
    rw [hvc]
    simp only [Clock.update, decide_eq_true_eq]
    exact hne
  have ha1 : (m.afterVideoUpdate pts d now).audioClock_.isValid = true := by
    rw [f2, haud]; exact hA
  have hoff : (m.afterVideoUpdate pts d now).calculateAVOffset now = t - pts := by
    unfold calculateAVOffset
    rw [if_neg (by simp [ha1, hvalid])]
    simp only
    rw [hvc, Clock_update_mediaTime_now _ _ _ _ _ hne, f2, haud, ht]
  have hst : (m.afterVideoUpdate pts d now).isSystemStable = m.isSystemStable :=
    isSystemStable_congr m _ f4 f3
  have hu : (m.afterVideoUpdate pts d now).shouldUsePtsSync = true := by
    rw [shouldUsePtsSync_iff _ ha1 hvalid, hst, f6, f5, hlg, hcnt]
    exact hg
  have hc : ¬ ((m.afterVideoUpdate pts d now).audioClock_.isValid = false ∨
      (m.afterVideoUpdate pts d now).forceSystemMode_ = true ∨
      (m.afterVideoUpdate pts d now).shouldUsePtsSync = false) := by
    simp [ha1, f7, hf, hu]
  obtain ⟨u1, u2, u3, u4⟩ :=
    syncDelay_unchanged_fields (m.afterVideoUpdate pts d now) (m.effectiveDurationOf d) now
  obtain ⟨g1, g2, g3⟩ :=
    syncDelay_pts_fields (m.afterVideoUpdate pts d now) (m.effectiveDurationOf d) now hc
  rw [hoff] at g1 g2 g3
  have hlog : ((m.afterVideoUpdate pts d now).syncDelay (m.effectiveDurationOf d) now).2.syncLogs_
      = logs ++ [t - pts] := by
    rw [g1, logSyncOffset_logs _ _ (by rw [f4, hlogs]; exact hlen), f4, hlogs]
  rw [calculateVideoDelay_snd m pts d now now hp]
  unfold Tracks
  constructor
  · intro hb
    obtain ⟨b1, b2, b3⟩ := g2 hb
    refine ⟨?_, ?_, ?_, hlog, ?_, ?_, ?_, ?_⟩
    · show (_ : AVSyncManager).paused_ = false
      rw [u4, f1, hp]
    · show (_ : AVSyncManager).audioClock_ = A
      rw [u3, f2, haud]
    · show (_ : AVSyncManager).speed_ = s
      rw [u1, f3, hsp]
    · show (_ : AVSyncManager).consecutiveBadDelays_ = cnt + 1
      rw [b1, f5, hcnt]
    · show (_ : AVSyncManager).lastGoodOffset_ = lg
      rw [b2, f6, hlg]
    · show (_ : AVSyncManager).forceSystemMode_ = _
      rw [b3, f5, hcnt]
    · show (_ : AVSyncManager).videoClock_.isValid = true
      rw [u2, hvalid]
  · intro hb
    obtain ⟨b1, b2, b3⟩ := g3 hb
    refine ⟨?_, ?_, ?_, hlog, ?_, ?_, ?_, ?_⟩
    · show (_ : AVSyncManager).paused_ = false
      rw [u4, f1, hp]
    · show (_ : AVSyncManager).audioClock_ = A
      rw [u3, f2, haud]
    · show (_ : AVSyncManager).speed_ = s
      rw [u1, f3, hsp]
    · show (_ : AVSyncManager).consecutiveBadDelays_ = 0
      rw [b1]
    · show (_ : AVSyncManager).lastGoodOffset_ = t - pts
      rw [b2]
    · show (_ : AVSyncManager).forceSystemMode_ = false
      rw [b3]
    · show (_ : AVSyncManager).videoClock_.isValid = true
      rw [u2, hvalid]

end AVSyncManager

/-! ### Sync engine: runs of frames and the example states -/

/-- A left fold that adds `f` of every element is the start value plus the sum. -/
theorem foldl_add_eq_sum (f : ℚ → ℚ) (l : List ℚ) (a : ℚ) :
    l.foldl (fun acc o => acc + f o) a = a + (l.map f).sum := by
  induction l generalizing a with
  | nil => simp
  | cons x xs ih =>
    simp only [List.foldl_cons, List.map_cons, List.sum_cons]
    rw [ih]
    ring

namespace AVSyncManager

/-- The test `isSystemStable` in the words of the specification: at least 8 samples
whose variance is below 0.0002 times the speed. -/
theorem isSystemStable_iff (m : AVSyncManager) :
    m.isSystemStable = true ↔
      8 ≤ m.syncLogs_.length ∧ historyVariance m.syncLogs_ < 2 / 10000 * m.speed_ := by
  unfold isSystemStable MIN_STABLE_SAMPLES STABLE_VARIANCE_THRESHOLD historyVariance
  by_cases h : m.syncLogs_.length < 8
  · rw [if_pos h]
    constructor
    · intro hf
      exact absurd hf (by simp)
    · rintro ⟨h8, _⟩
      omega
  · rw [if_neg h]
    simp only [decide_eq_true_eq]
    rw [foldl_add_eq_sum (fun o => o) m.syncLogs_ 0, foldl_add_eq_sum _ m.syncLogs_ 0]
    simp only [zero_add, List.map_id']
    constructor
    · intro hv
      exact ⟨by omega, hv⟩
    · rintro ⟨_, hv⟩
      exact hv

/-- Feeding frames keeps the state reachable. -/
theorem feedFrames_reachable (now : ℚ) (ptss : List ℚ) (m : AVSyncManager)
    (h : Reachable m) : Reachable (m.feedFrames now ptss) := by
  induction ptss generalizing m with
  | nil => exact h
  | cons p ps ih =>
    exact ih _ (Reachable.calculateVideoDelay p (33 / 1000) now now h)

/-- A run of `k + 1` frames with the same good offset `t - pts`, fed while the counter
is 0: every offset is logged, the counter stays 0 and the offset becomes the last-good
offset. -/
theorem feedFrames_good (A : Clock) (s now pts t : ℚ) (hA : A.isValid = true)
    (ht : A.getCurrentMediaTime now = t) (hv : isValidPts pts = true)
    (hgood : ¬ |t - pts| > 1 / 2) (k : Nat) (m : AVSyncManager) (logs : List ℚ)
    (lg : ℚ) (vv : Bool) (h : Tracks m A s logs 0 lg false vv)
    (hlen : logs.length + (k + 1) ≤ 30) :
    Tracks (m.feedFrames now (List.replicate (k + 1) pts)) A s
      (logs ++ List.replicate (k + 1) (t - pts)) 0 (t - pts) false true := by
  induction k generalizing m logs lg vv with
  | zero =>
    exact (frame_step m A s logs 0 lg now pts (33 / 1000) t vv h hA ht hv
      (Or.inr (by norm_num)) (by omega)).2 hgood
  | succ k ih =>
    have h1 := (frame_step m A s logs 0 lg now pts (33 / 1000) t vv h hA ht hv
      (Or.inr (by norm_num)) (by omega)).2 hgood
    have h2 := ih _ (logs ++ [t - pts]) (t - pts) true h1
      (by simp only [List.length_append, List.length_singleton]; omega)
    rw [List.append_assoc, List.singleton_append] at h2
    exact h2

/-- A run of `k` frames with the same bad offset `t - pts`, fed while the counter stays
at most 4: every offset is logged, the counter advances by `k` and force-system-mode
stays off. -/
theorem feedFrames_bad (A : Clock) (s now pts t : ℚ) (hA : A.isValid = true)
    (ht : A.getCurrentMediaTime now = t) (hv : isValidPts pts = true)
    (hbad : |t - pts| > 1 / 2) (k : Nat) (m : AVSyncManager) (logs : List ℚ)
    (cnt : Int) (lg : ℚ) (vv : Bool) (h : Tracks m A s logs cnt lg false vv)
    (hk : 1 ≤ k) (hcnt : cnt + k ≤ 4) (hlen : logs.length + k ≤ 30) :
    Tracks (m.feedFrames now (List.replicate k pts)) A s
      (logs ++ List.replicate k (t - pts)) (cnt + k) lg false true := by
  induction k generalizing m logs cnt vv with
  | zero => omega
  | succ k ih =>
    have h1 := (frame_step m A s logs cnt lg now pts (33 / 1000) t vv h hA ht hv
      (Or.inr (by omega)) (by omega)).1 hbad
    have hd : decide (cnt + 1 > 5) = false := by
      simp only [decide_eq_false_iff_not]
      omega
    rw [hd] at h1
    by_cases hk0 : k = 0
    · subst hk0
      simpa using h1
    · have h2 := ih _ (logs ++ [t - pts]) (cnt + 1) true h1 (by omega)
        (by push_cast at hcnt ⊢; omega)
        (by simp only [List.length_append, List.length_singleton]; omega)
      rw [List.append_assoc, List.singleton_append] at h2
      have e : cnt + 1 + (k : Int) = cnt + ((k + 1 : Nat) : Int) := by push_cast; ring
      rw [e] at h2
      exact h2

/-- The audio clock of `audioAtTen`: stamped with pts 10 s at time 100, speed 1. -/
theorem audioAtTen_tracks :
    Tracks audioAtTen (Clock.init.update 10 (2 / 100) 100 1) 1 [] 0 0 false false := by
  have e : audioAtTen =
      { AVSyncManager.new with audioClock_ := Clock.init.update 10 (2 / 100) 100 1 } := by
    unfold audioAtTen updateAudioClock
    rw [if_pos (by simp [isValidPts, isValidDuration, AV_NOPTS_VALUE]; norm_num)]
    rfl
  rw [e]
  exact ⟨rfl, rfl, rfl, rfl, rfl, rfl, rfl, rfl⟩

/-- A clock stamped with pts 10 s at time 100 is valid and reads 10 s at time 100. -/
theorem clock_at_ten (c : Clock) (e speed : ℚ) :
    (c.update 10 e 100 speed).isValid = true ∧
      (c.update 10 e 100 speed).getCurrentMediaTime 100 = 10 := by
  have hne : (10 : ℚ) ≠ AV_NOPTS_VALUE := by
    unfold AV_NOPTS_VALUE
    norm_num
  refine ⟨?_, Clock_update_mediaTime_now c 10 e 100 speed hne⟩
  simp only [Clock.update, decide_eq_true_eq]
  exact hne

/-- A pts that is a non-negative number of seconds is valid. -/
theorem isValidPts_of_nonneg (pts : ℚ) (h : 0 ≤ pts) : isValidPts pts = true := by
  have hne : pts ≠ AV_NOPTS_VALUE := by
    unfold AV_NOPTS_VALUE
    intro he
    rw [he] at h
    norm_num at h
  simp [isValidPts, hne, h]

/-- The state `fourBad`: four offsets of 1 s logged, counter 4, last-good offset 0. -/
theorem fourBad_tracks :
    Tracks fourBad (Clock.init.update 10 (2 / 100) 100 1) 1 [1, 1, 1, 1] 4 0 false true := by
  have h := feedFrames_bad (Clock.init.update 10 (2 / 100) 100 1) 1 100 9 10
    (clock_at_ten _ _ _).1 (clock_at_ten _ _ _).2 (isValidPts_of_nonneg 9 (by norm_num))
    (by norm_num [abs_lt, lt_abs, le_abs, abs_le]) 4 audioAtTen [] 0 0 false audioAtTen_tracks
    (by norm_num) (by norm_num) (by simp)
  have e : ([] : List ℚ) ++ List.replicate 4 ((10 : ℚ) - 9) = [1, 1, 1, 1] := by
    norm_num [List.replicate]
  have ec : (0 : Int) + ((4 : Nat) : Int) = 4 := by norm_num
  rw [e, ec] at h
  exact h

end AVSyncManager

/-! ### Sync engine: the gate of the PTS-sync path -/

namespace AVSyncManager

end AVSyncManager

/-! ### Sync engine: force-system-mode and the closed gate -/

namespace AVSyncManager

/-- The state `syncDelay` leaves keeps the invariant that force-system-mode is set only
with a counter above 5. -/
theorem syncDelay_force_counter (m : AVSyncManager) (e n : ℚ)
    (h : m.forceSystemMode_ = true → m.consecutiveBadDelays_ > 5) :
    (m.syncDelay e n).2.forceSystemMode_ = true →
      (m.syncDelay e n).2.consecutiveBadDelays_ > 5 := by
  by_cases hc : m.audioClock_.isValid = false ∨ m.forceSystemMode_ = true ∨
      m.shouldUsePtsSync = false
  · rw [syncDelay_system m e n hc]
    exact h
  · obtain ⟨_, g2, g3⟩ := syncDelay_pts_fields m e n hc
    by_cases hb : |m.calculateAVOffset n| > 1 / 2
    · obtain ⟨b1, _, b3⟩ := g2 hb
      rw [b1, b3]
      intro hd
      simpa using hd
    · obtain ⟨_, _, b3⟩ := g3 hb
      rw [b3]
      intro hd
      exact absurd hd (by simp)

/-- In every reachable state force-system-mode is set only with a counter above 5. -/
theorem reachable_force_counter (m : AVSyncManager) (h : Reachable m) :
    m.forceSystemMode_ = true → m.consecutiveBadDelays_ > 5 := by
  induction h with
  | new =>
    intro hf
    exact absurd hf (by simp [AVSyncManager.new])
  | reset _ _ =>
    intro hf
    exact absurd hf (by simp [reset])
  | pause _ ih => exact ih
  | resume _ ih => exact ih
  | setSpeed speed _ ih =>
    unfold setSpeed
    split_ifs
    · exact ih
    · intro hf
      exact absurd hf (by simp)
    · intro hf
      exact absurd hf (by simp)
  | updateAudioClock pts duration now _ ih =>
    unfold updateAudioClock
    split
    · exact ih
    · exact ih
  | @calculateVideoDelay k pts duration now1 now2 _ ih =>
    by_cases hpt : k.paused_ = true
    · have e : (k.calculateVideoDelay pts duration now1 now2).2 = k := by
        simp [calculateVideoDelay, hpt]
      rw [e]
      exact ih
    · have hp : k.paused_ = false := by simpa using hpt
      rw [calculateVideoDelay_snd k pts duration now1 now2 hp]
      obtain ⟨_, _, _, _, f5, _, f7⟩ := afterVideoUpdate_fields k pts duration now1
      exact syncDelay_force_counter _ _ _ (by rw [f5, f7]; exact ih)

/-- Force-system-mode, once set, stays set in every later state. -/
theorem later_force (m k : AVSyncManager) (hf : m.forceSystemMode_ = true)
    (hl : Later m k) : k.forceSystemMode_ = true := by
  induction hl with
  | refl => exact hf
  | pause _ ih => exact ih
  | resume _ ih => exact ih
  | updateAudioClock pts duration now _ ih =>
    unfold updateAudioClock
    split
    · exact ih
    · exact ih
  | @calculateVideoDelay j pts duration now1 now2 _ ih =>
    by_cases hpt : j.paused_ = true
    · have e : (j.calculateVideoDelay pts duration now1 now2).2 = j := by
        simp [calculateVideoDelay, hpt]
      rw [e]
      exact ih
    · have hp : j.paused_ = false := by simpa using hpt
      rw [calculateVideoDelay_snd j pts duration now1 now2 hp]
      obtain ⟨_, _, _, _, _, _, f7⟩ := afterVideoUpdate_fields j pts duration now1
      rw [syncDelay_system _ _ _ (Or.inr (Or.inl (by rw [f7]; exact ih)))]
      show (j.afterVideoUpdate pts duration now1).forceSystemMode_ = true
      rw [f7]
      exact ih
  | setSpeedSame speed hs _ ih =>
    unfold setSpeed
    rw [if_pos hs]
    exact ih

/-- The engine switched to speed 10000 with an audio block at pts 10 s, time 100. -/
theorem highSpeed_tracks :
    Tracks ((AVSyncManager.new.setSpeed 10000).updateAudioClock 10 (2 / 100) 100)
      (Clock.init.update 10 (2 / 100) 100 10000) 10000 [] 0 0 false false := by
  have e1 : AVSyncManager.new.setSpeed 10000 = { AVSyncManager.new with speed_ := 10000 } := by
    unfold setSpeed
    rw [if_neg (by norm_num [AVSyncManager.new, abs_lt, lt_abs, le_abs, abs_le])]
    simp only
    split <;> rfl
  have e2 : (AVSyncManager.new.setSpeed 10000).updateAudioClock 10 (2 / 100) 100 =
      { AVSyncManager.new with
        speed_ := 10000, audioClock_ := Clock.init.update 10 (2 / 100) 100 10000 } := by
    rw [e1]
    unfold updateAudioClock
    rw [if_pos (by simp [isValidPts, isValidDuration, AV_NOPTS_VALUE]; norm_num)]
    rfl
  rw [e2]
  exact ⟨rfl, rfl, rfl, rfl, rfl, rfl, rfl, rfl⟩

/-- Variance of eight offsets 0 followed by four offsets of 1 s. -/
theorem variance_eight_zero_four_one :
    historyVariance [0, 0, 0, 0, 0, 0, 0, 0, 1, 1, 1, 1] = 2 / 9 := by
  norm_num [historyVariance]

/-- Variance of eight offsets 0 followed by five offsets of 1 s. -/
theorem variance_eight_zero_five_one :
    historyVariance [0, 0, 0, 0, 0, 0, 0, 0, 1, 1, 1, 1, 1] = 40 / 169 := by
  norm_num [historyVariance]

/-- The state `sixBadAtHighSpeed`: six bad delays in a row were counted and
force-system-mode is set. -/
theorem sixBadAtHighSpeed_tracks :
    Tracks sixBadAtHighSpeed (Clock.init.update 10 (2 / 100) 100 10000) 10000
      [0, 0, 0, 0, 0, 0, 0, 0, 1, 1, 1, 1, 1, 1] 6 0 true true := by
  have hA := (clock_at_ten Clock.init (2 / 100) 10000).1
  have ht := (clock_at_ten Clock.init (2 / 100) 10000).2
  have hbad : |(10 : ℚ) - 9| > 1 / 2 := by norm_num [abs_lt, lt_abs, le_abs, abs_le]
  have h1 := feedFrames_good (Clock.init.update 10 (2 / 100) 100 10000) 10000 100 10 10
    hA ht (isValidPts_of_nonneg _ (by norm_num))
    (by norm_num [abs_lt, lt_abs, le_abs, abs_le]) 7 _ [] 0 false highSpeed_tracks (by simp)
  have h2 := feedFrames_bad (Clock.init.update 10 (2 / 100) 100 10000) 10000 100 9 10
    hA ht (isValidPts_of_nonneg _ (by norm_num)) hbad 4 _ _ 0 _ true h1
    (by norm_num) (by norm_num) (by simp)
  have e12 : ([] : List ℚ) ++ List.replicate (7 + 1) ((10 : ℚ) - 10) ++
      List.replicate 4 ((10 : ℚ) - 9) = [0, 0, 0, 0, 0, 0, 0, 0, 1, 1, 1, 1] := by
    norm_num [List.replicate]
  have ec : (0 : Int) + ((4 : Nat) : Int) = 4 := by norm_num
  have el : (10 : ℚ) - 10 = 0 := by norm_num
  have eb : (10 : ℚ) - 9 = 1 := by norm_num
  rw [e12, ec, el] at h2
  have hs2 : isSystemStable
      ((((AVSyncManager.new.setSpeed 10000).updateAudioClock 10 (2 / 100) 100).feedFrames
        100 (List.replicate (7 + 1) 10)).feedFrames 100 (List.replicate 4 9)) = true := by
    rw [isSystemStable_iff, h2.2.2.2.1, h2.2.2.1, variance_eight_zero_four_one]
    constructor
    · simp
    · norm_num
  have h3 := (frame_step _ _ _ _ _ _ 100 9 (33 / 1000) 10 _ h2 hA ht
    (isValidPts_of_nonneg _ (by norm_num)) (Or.inl ⟨hs2, by norm_num⟩) (by simp)).1 hbad
  have e3 : [0, 0, 0, 0, 0, 0, 0, 0, 1, 1, 1, 1] ++ [(10 : ℚ) - 9] =
      [0, 0, 0, 0, 0, 0, 0, 0, 1, 1, 1, 1, 1] := by norm_num
  have ed3 : decide ((4 : Int) + 1 > 5) = false := by decide
  have ec3 : (4 : Int) + 1 = 5 := by norm_num
  rw [e3, ed3, ec3] at h3
  have hs3 : isSystemStable
      (((((AVSyncManager.new.setSpeed 10000).updateAudioClock 10 (2 / 100) 100).feedFrames
        100 (List.replicate (7 + 1) 10)).feedFrames 100 (List.replicate 4 9)).calculateVideoDelay
        9 (33 / 1000) 100 100).2 = true := by
    rw [isSystemStable_iff, h3.2.2.2.1, h3.2.2.1, variance_eight_zero_five_one]
    constructor
    · simp
    · norm_num
  have h4 := (frame_step _ _ _ _ _ _ 100 9 (33 / 1000) 10 _ h3 hA ht
    (isValidPts_of_nonneg _ (by norm_num)) (Or.inl ⟨hs3, by norm_num⟩) (by simp)).1 hbad
  have e4 : [0, 0, 0, 0, 0, 0, 0, 0, 1, 1, 1, 1, 1] ++ [(10 : ℚ) - 9] =
      [0, 0, 0, 0, 0, 0, 0, 0, 1, 1, 1, 1, 1, 1] := by norm_num
  have ed4 : decide ((5 : Int) + 1 > 5) = true := by decide
  have ec4 : (5 : Int) + 1 = 6 := by norm_num
  rw [e4, ed4, ec4] at h4
  exact h4

/-- The state `sixBadAtHighSpeed` is reachable. -/
theorem sixBadAtHighSpeed_reachable : Reachable sixBadAtHighSpeed :=
  feedFrames_reachable _ _ _
    (Reachable.updateAudioClock 10 (2 / 100) 100 (Reachable.setSpeed 10000 Reachable.new))

/-- C26: in every reachable engine state force-system-mode is set only if the
consecutive-bad counter exceeds 5, and once set it stays set in every state that
follows by `calculateVideoDelay`, `updateAudioClock`, `pause`, `resume` and `setSpeed`
calls that do not change the speed, with the counter still above 5; only a
speed-changing `setSpeed` or a `reset` clears it. -/
theorem force_mode_needs_six_bad_and_stays (m k : AVSyncManager) (hr : Reachable m)
    (hf : m.forceSystemMode_ = true) (hl : Later m k) :
    m.consecutiveBadDelays_ > 5 ∧ k.forceSystemMode_ = true ∧
      k.consecutiveBadDelays_ > 5 := by
  have hk : Reachable k := by
    induction hl with
    | refl => exact hr
    | pause _ ih => exact Reachable.pause ih
    | resume _ ih => exact Reachable.resume ih
    | updateAudioClock pts duration now _ ih => exact Reachable.updateAudioClock pts duration now ih
    | calculateVideoDelay pts duration now1 now2 _ ih =>
      exact Reachable.calculateVideoDelay pts duration now1 now2 ih
    | setSpeedSame speed _ _ ih => exact Reachable.setSpeed speed ih
  have hkf := later_force m k hf hl
  exact ⟨reachable_force_counter m hr hf, hkf, reachable_force_counter k hk hkf⟩

/-- Witness for C26: `sixBadAtHighSpeed` has force-system-mode set; a further audio
block, a frame, a pause and a resume follow. -/
theorem force_mode_needs_six_bad_and_stays_witness :
    sixBadAtHighSpeed.consecutiveBadDelays_ > 5 ∧
      (((sixBadAtHighSpeed.updateAudioClock 11 (2 / 100) 101).calculateVideoDelay
        11 (33 / 1000) 101 101).2.pause.resume).forceSystemMode_ = true ∧
      (((sixBadAtHighSpeed.updateAudioClock 11 (2 / 100) 101).calculateVideoDelay
        11 (33 / 1000) 101 101).2.pause.resume).consecutiveBadDelays_ > 5 :=
  force_mode_needs_six_bad_and_stays sixBadAtHighSpeed
    (((sixBadAtHighSpeed.updateAudioClock 11 (2 / 100) 101).calculateVideoDelay
      11 (33 / 1000) 101 101).2.pause.resume)
    sixBadAtHighSpeed_reachable sixBadAtHighSpeed_tracks.2.2.2.2.2.2.1
    (Later.resume (Later.pause (Later.calculateVideoDelay 11 (33 / 1000) 101 101
      (Later.updateAudioClock 11 (2 / 100) 101 Later.refl))))

end AVSyncManager

namespace AVSyncManager

/-- With more than 3 bad delays counted and the stability condition failing, the gate
`shouldUsePtsSync` is closed. -/
theorem shouldUsePtsSync_of_closed (m : AVSyncManager) (h3 : m.consecutiveBadDelays_ > 3)
    (hns : ¬ (m.isSystemStable = true ∧ |m.lastGoodOffset_| < 8 / 100)) :
    m.shouldUsePtsSync = false := by
  unfold shouldUsePtsSync AV_SYNC_THRESHOLD_MAX
  split_ifs
  · rfl
  · rfl

/-- Fine-tuning by the last-good offset returns the base delay when the stability
condition of the gate fails. -/
theorem applyFineTune_of_closed (m : AVSyncManager) (base : Int)
    (hns : ¬ (m.isSystemStable = true ∧ |m.lastGoodOffset_| < 8 / 100)) :
    m.applyFineTune base m.lastGoodOffset_ = base := by
  by_cases hst : m.isSystemStable = true
  · have hlg : ¬ |m.lastGoodOffset_| < 8 / 100 := fun h => hns ⟨hst, h⟩
    unfold applyFineTune FINE_TUNE_RANGE AV_SYNC_THRESHOLD_HALF
    rw [if_neg (fun h => hlg (lt_trans h (by norm_num))), if_neg (by simp [hst])]
    simp only
    rw [if_neg (fun h => hlg (lt_trans h (by norm_num)))]
    simp
  · exact applyFineTune_of_unstable m base _ (by simpa using hst)

/-- One `calculateVideoDelay` on a state whose gate is closed for good: the delay is the
sanitized system-based delay (0 when paused) and the history, the counter, the
last-good offset and the speed are left as they are. -/
theorem calculateVideoDelay_of_closed (m : AVSyncManager) (pts d now1 now2 : ℚ)
    (h3 : m.consecutiveBadDelays_ > 3)
    (hns : ¬ (m.isSystemStable = true ∧ |m.lastGoodOffset_| < 8 / 100)) :
    (m.paused_ = false →
        (m.afterVideoUpdate pts d now1).syncDelay (m.effectiveDurationOf d) now2 =
            ((m.afterVideoUpdate pts d now1).calculateSystemBasedDelay (m.effectiveDurationOf d),
              m.afterVideoUpdate pts d now1) ∧
          (m.calculateVideoDelay pts d now1 now2).1 =
            (m.afterVideoUpdate pts d now1).sanitizeDelay
              ((m.afterVideoUpdate pts d now1).calculateSystemBasedDelay
                (m.effectiveDurationOf d)) (m.effectiveDurationOf d)) ∧
      (m.calculateVideoDelay pts d now1 now2).2.syncLogs_ = m.syncLogs_ ∧
      (m.calculateVideoDelay pts d now1 now2).2.consecutiveBadDelays_ =
        m.consecutiveBadDelays_ ∧
      (m.calculateVideoDelay pts d now1 now2).2.lastGoodOffset_ = m.lastGoodOffset_ ∧
      (m.calculateVideoDelay pts d now1 now2).2.speed_ = m.speed_ := by
  obtain ⟨f1, f2, f3, f4, f5, f6, f7⟩ := afterVideoUpdate_fields m pts d now1
  have hst : (m.afterVideoUpdate pts d now1).isSystemStable = m.isSystemStable :=
    isSystemStable_congr m _ f4 f3
  have hns1 : ¬ ((m.afterVideoUpdate pts d now1).isSystemStable = true ∧
      |(m.afterVideoUpdate pts d now1).lastGoodOffset_| < 8 / 100) := by
    rw [hst, f6]
    exact hns
  have hu : (m.afterVideoUpdate pts d now1).shouldUsePtsSync = false :=
    shouldUsePtsSync_of_closed _ (by rw [f5]; exact h3) hns1
  have hsys := syncDelay_system (m.afterVideoUpdate pts d now1) (m.effectiveDurationOf d) now2
    (Or.inr (Or.inr hu))
  by_cases hpt : m.paused_ = true
  · have e : (m.calculateVideoDelay pts d now1 now2).2 = m := by
      simp [calculateVideoDelay, hpt]
    rw [e]
    exact ⟨fun hp => absurd hpt (by simp [hp]), rfl, rfl, rfl, rfl⟩
  · have hp : m.paused_ = false := by simpa using hpt
    rw [calculateVideoDelay_snd m pts d now1 now2 hp, hsys]
    refine ⟨fun _ => ⟨rfl, ?_⟩, f4, f5, f6, f3⟩
    rw [calculateVideoDelay_fst m pts d now1 now2 hp, hsys]
    simp only
    rw [applyFineTune_of_closed _ _ hns1, ite_self]

/-- Every later state of a state whose gate is closed for good has the same history,
counter, last-good offset and speed. -/
theorem later_of_closed (m k : AVSyncManager) (h3 : m.consecutiveBadDelays_ > 3)
    (hns : ¬ (m.isSystemStable = true ∧ |m.lastGoodOffset_| < 8 / 100))
    (hl : Later m k) :
    k.syncLogs_ = m.syncLogs_ ∧ k.consecutiveBadDelays_ = m.consecutiveBadDelays_ ∧
      k.lastGoodOffset_ = m.lastGoodOffset_ ∧ k.speed_ = m.speed_ := by
  induction hl with
  | refl => exact ⟨rfl, rfl, rfl, rfl⟩
  | pause _ ih => exact ih
  | resume _ ih => exact ih
  | updateAudioClock pts duration now _ ih =>
    unfold updateAudioClock
    split
    · exact ih
    · exact ih
  | @calculateVideoDelay j pts duration now1 now2 _ ih =>
    obtain ⟨i1, i2, i3, i4⟩ := ih
    have hj : ¬ (j.isSystemStable = true ∧ |j.lastGoodOffset_| < 8 / 100) := by
      rw [isSystemStable_congr m j i1 i4, i3]
      exact hns
    obtain ⟨_, c1, c2, c3, c4⟩ :=
      calculateVideoDelay_of_closed j pts duration now1 now2 (by rw [i2]; exact h3) hj
    exact ⟨c1.trans i1, c2.trans i2, c3.trans i3, c4.trans i4⟩
  | setSpeedSame speed hs _ ih =>
    unfold setSpeed
    rw [if_pos hs]
    exact ih

/-- C30: once the consecutive-bad counter exceeds 3 while the stability condition of
the gate fails (history not stable, or last-good offset of magnitude at least 0.08 s),
every later `calculateVideoDelay` - after any `pause`, `resume`, `updateAudioClock`,
`calculateVideoDelay` and speed-keeping `setSpeed` calls - takes the system-based path
(the gate is closed, the delay is the sanitized system-based delay) and leaves the
offset history, the counter and the last-good offset unchanged, so the gate is closed
afterwards as well. -/
theorem closed_gate_stays_closed (m k : AVSyncManager) (pts d now1 now2 : ℚ)
    (h3 : m.consecutiveBadDelays_ > 3)
    (hns : m.isSystemStable = false ∨ |m.lastGoodOffset_| ≥ 8 / 100)
    (hl : Later m k) :
    k.shouldUsePtsSync = false ∧
      (k.paused_ = false →
        (k.afterVideoUpdate pts d now1).syncDelay (k.effectiveDurationOf d) now2 =
            ((k.afterVideoUpdate pts d now1).calculateSystemBasedDelay (k.effectiveDurationOf d),
              k.afterVideoUpdate pts d now1) ∧
          (k.calculateVideoDelay pts d now1 now2).1 =
            (k.afterVideoUpdate pts d now1).sanitizeDelay
              ((k.afterVideoUpdate pts d now1).calculateSystemBasedDelay
                (k.effectiveDurationOf d)) (k.effectiveDurationOf d)) ∧
      (k.calculateVideoDelay pts d now1 now2).2.syncLogs_ = m.syncLogs_ ∧
      (k.calculateVideoDelay pts d now1 now2).2.consecutiveBadDelays_ =
        m.consecutiveBadDelays_ ∧
      (k.calculateVideoDelay pts d now1 now2).2.lastGoodOffset_ = m.lastGoodOffset_ ∧
      (k.calculateVideoDelay pts d now1 now2).2.shouldUsePtsSync = false := by
  have hns0 : ¬ (m.isSystemStable = true ∧ |m.lastGoodOffset_| < 8 / 100) := by
    rintro ⟨a, b⟩
    rcases hns with h | h
    · rw [a] at h
      exact absurd h (by simp)
    · exact absurd b (not_lt.mpr h)
  obtain ⟨i1, i2, i3, i4⟩ := later_of_closed m k h3 hns0 hl
  have hk : ¬ (k.isSystemStable = true ∧ |k.lastGoodOffset_| < 8 / 100) := by
    rw [isSystemStable_congr m k i1 i4, i3]
    exact hns0
  have hk3 : k.consecutiveBadDelays_ > 3 := by rw [i2]; exact h3
  obtain ⟨c0, c1, c2, c3, c4⟩ := calculateVideoDelay_of_closed k pts d now1 now2 hk3 hk
  have hn : ¬ ((k.calculateVideoDelay pts d now1 now2).2.isSystemStable = true ∧
      |(k.calculateVideoDelay pts d now1 now2).2.lastGoodOffset_| < 8 / 100) := by
    rw [isSystemStable_congr k _ c1 c4, c3]
    exact hk
  exact ⟨shouldUsePtsSync_of_closed k hk3 hk, c0, c1.trans i1, c2.trans i2, c3.trans i3,
    shouldUsePtsSync_of_closed _ (by rw [c2]; exact hk3) hn⟩

/-- Witness for C30: `fourBad` has counted 4 bad delays with a history of 4 samples; an
audio block and a frame follow, then the delay of the next frame is asked. -/
theorem closed_gate_stays_closed_witness :
    ((fourBad.updateAudioClock 11 (2 / 100) 101).calculateVideoDelay
        11 (33 / 1000) 101 101).2.shouldUsePtsSync = false ∧
      (((fourBad.updateAudioClock 11 (2 / 100) 101).calculateVideoDelay
          11 (33 / 1000) 101 101).2.paused_ = false →
        ((((fourBad.updateAudioClock 11 (2 / 100) 101).calculateVideoDelay
            11 (33 / 1000) 101 101).2).afterVideoUpdate (1103 / 100) (33 / 1000) 102).syncDelay
            ((((fourBad.updateAudioClock 11 (2 / 100) 101).calculateVideoDelay
              11 (33 / 1000) 101 101).2).effectiveDurationOf (33 / 1000)) 102 =
          (((((fourBad.updateAudioClock 11 (2 / 100) 101).calculateVideoDelay
              11 (33 / 1000) 101 101).2).afterVideoUpdate (1103 / 100) (33 / 1000)
              102).calculateSystemBasedDelay
              ((((fourBad.updateAudioClock 11 (2 / 100) 101).calculateVideoDelay
                11 (33 / 1000) 101 101).2).effectiveDurationOf (33 / 1000)),
            (((fourBad.updateAudioClock 11 (2 / 100) 101).calculateVideoDelay
              11 (33 / 1000) 101 101).2).afterVideoUpdate (1103 / 100) (33 / 1000) 102) ∧
          ((((fourBad.updateAudioClock 11 (2 / 100) 101).calculateVideoDelay
              11 (33 / 1000) 101 101).2).calculateVideoDelay
              (1103 / 100) (33 / 1000) 102 102).1 =
            ((((fourBad.updateAudioClock 11 (2 / 100) 101).calculateVideoDelay
              11 (33 / 1000) 101 101).2).afterVideoUpdate (1103 / 100) (33 / 1000)
              102).sanitizeDelay
              (((((fourBad.updateAudioClock 11 (2 / 100) 101).calculateVideoDelay
                11 (33 / 1000) 101 101).2).afterVideoUpdate (1103 / 100) (33 / 1000)
                102).calculateSystemBasedDelay
                ((((fourBad.updateAudioClock 11 (2 / 100) 101).calculateVideoDelay
                  11 (33 / 1000) 101 101).2).effectiveDurationOf (33 / 1000)))
              ((((fourBad.updateAudioClock 11 (2 / 100) 101).calculateVideoDelay
                11 (33 / 1000) 101 101).2).effectiveDurationOf (33 / 1000))) ∧
      ((((fourBad.updateAudioClock 11 (2 / 100) 101).calculateVideoDelay
          11 (33 / 1000) 101 101).2).calculateVideoDelay
          (1103 / 100) (33 / 1000) 102 102).2.syncLogs_ = fourBad.syncLogs_ ∧
      ((((fourBad.updateAudioClock 11 (2 / 100) 101).calculateVideoDelay
          11 (33 / 1000) 101 101).2).calculateVideoDelay
          (1103 / 100) (33 / 1000) 102 102).2.consecutiveBadDelays_ =
        fourBad.consecutiveBadDelays_ ∧
      ((((fourBad.updateAudioClock 11 (2 / 100) 101).calculateVideoDelay
          11 (33 / 1000) 101 101).2).calculateVideoDelay
          (1103 / 100) (33 / 1000) 102 102).2.lastGoodOffset_ = fourBad.lastGoodOffset_ ∧
      ((((fourBad.updateAudioClock 11 (2 / 100) 101).calculateVideoDelay
          11 (33 / 1000) 101 101).2).calculateVideoDelay
          (1103 / 100) (33 / 1000) 102 102).2.shouldUsePtsSync = false :=
  closed_gate_stays_closed fourBad
    ((fourBad.updateAudioClock 11 (2 / 100) 101).calculateVideoDelay 11 (33 / 1000) 101 101).2
    (1103 / 100) (33 / 1000) 102 102
    (by rw [fourBad_tracks.2.2.2.2.1]; norm_num)
    (Or.inl (isSystemStable_of_short _ (by rw [fourBad_tracks.2.2.2.1]; simp)))
    (Later.calculateVideoDelay 11 (33 / 1000) 101 101
      (Later.updateAudioClock 11 (2 / 100) 101 Later.refl))

end AVSyncManager

/-! ### Machine arithmetic -/

/-- The nearest integer is within one half. -/
theorem roundNearestEven_error (x : ℚ) : |(roundNearestEven x : ℚ) - x| ≤ 1 / 2 := by
  have h1 := Int.floor_le x
  have h2 := Int.lt_floor_add_one x
  unfold roundNearestEven
  split_ifs with a b c
  · rw [abs_le]; constructor <;> linarith
  · push_cast
    rw [abs_le]; constructor <;> linarith
  · rw [abs_le]; constructor <;> linarith
  · push_cast
    rw [abs_le]; constructor <;> linarith

/-- An integer closer than one half is the nearest integer. -/
theorem roundNearestEven_eq (x : ℚ) (n : Int) (h : |x - n| < 1 / 2) :
    roundNearestEven x = n := by
  rw [abs_lt] at h
  obtain ⟨h1, h2⟩ := h
  unfold roundNearestEven
  by_cases hx : (n : ℚ) ≤ x
  · have hf : ⌊x⌋ = n := by
      rw [Int.floor_eq_iff]
      exact ⟨hx, by linarith⟩
    rw [hf, if_pos (by linarith)]
  · have hf : ⌊x⌋ = n - 1 := by
      rw [Int.floor_eq_iff]
      push_cast
      exact ⟨by linarith, by linarith⟩
    rw [hf]
    push_cast
    rw [if_neg (by linarith), if_pos (by linarith)]
    ring

/-- A number halfway between two integers is rounded to the even one. -/
theorem roundNearestEven_tie (x : ℚ) (f : Int) (h : x = f + 1 / 2) :
    roundNearestEven x = if f % 2 = 0 then f else f + 1 := by
  have hf : ⌊x⌋ = f := by
    rw [Int.floor_eq_iff, h]
    exact ⟨by linarith, by linarith⟩
  unfold roundNearestEven
  rw [hf, if_neg (by rw [h]; norm_num), if_neg (by rw [h]; norm_num)]

/-- The exponent of a positive number between two consecutive powers of 2. -/
theorem log_two_eq (x : ℚ) (e : Int) (hx : 0 < x) (h1 : (2 : ℚ) ^ e ≤ x)
    (h2 : x < (2 : ℚ) ^ (e + 1)) : Int.log 2 x = e := by
  have a := (Int.zpow_le_iff_le_log (b := 2) (by norm_num) hx).mp h1
  have b := (Int.lt_zpow_iff_log_lt (b := 2) (by norm_num) hx).mp h2
  omega

/-- Evaluation of `roundPos`: for `x` with exponent `e`, the multiple `n * 2^(e - p + 1)`
closer to `x` than half a unit in the last place. -/
theorem roundPos_eq (p : Nat) (x y : ℚ) (e n : Int) (hx : 0 < x) (h1 : (2 : ℚ) ^ e ≤ x)
    (h2 : x < (2 : ℚ) ^ (e + 1)) (hn : |x / 2 ^ (e - p + 1) - n| < 1 / 2)
    (hy : y = n * 2 ^ (e - p + 1)) : roundPos p x = y := by
  unfold roundPos
  rw [log_two_eq x e hx h1 h2, roundNearestEven_eq _ n hn, hy]

/-- Evaluation of `roundPos` halfway between two multiples of `2^(e - p + 1)`. -/
theorem roundPos_eq_tie (p : Nat) (x y : ℚ) (e f n : Int) (hx : 0 < x)
    (h1 : (2 : ℚ) ^ e ≤ x) (h2 : x < (2 : ℚ) ^ (e + 1))
    (hf : x / 2 ^ (e - p + 1) = f + 1 / 2) (hn : n = if f % 2 = 0 then f else f + 1)
    (hy : y = n * 2 ^ (e - p + 1)) : roundPos p x = y := by
  unfold roundPos
  rw [log_two_eq x e hx h1 h2, roundNearestEven_tie _ f hf, ← hn, hy]

/-- Rounding a positive number changes it by at most the fraction `2^-p` of itself. -/
theorem roundPos_error (p : Nat) (x : ℚ) (hx : 0 < x) :
    |roundPos p x - x| ≤ x / 2 ^ p := by
  unfold roundPos
  set e := Int.log 2 x with he
  have hu : (0 : ℚ) < 2 ^ (e - p + 1) := zpow_pos (by norm_num) _
  have h2e : (2 : ℚ) ^ e ≤ x := Int.zpow_log_le_self (by norm_num) hx
  have herr := roundNearestEven_error (x / 2 ^ (e - p + 1))
  have e1 : (roundNearestEven (x / 2 ^ (e - p + 1)) : ℚ) * 2 ^ (e - p + 1) - x =
      ((roundNearestEven (x / 2 ^ (e - p + 1)) : ℚ) - x / 2 ^ (e - p + 1)) * 2 ^ (e - p + 1) := by
    field_simp
  rw [e1, abs_mul, abs_of_pos hu]
  have e2 : (2 : ℚ) ^ (e - p + 1) = 2 ^ e / 2 ^ p * 2 := by
    rw [zpow_add₀ (by norm_num), zpow_sub₀ (by norm_num), zpow_natCast]
    norm_num
  have hp : (0 : ℚ) < 2 ^ p := pow_pos (by norm_num) _
  calc |(roundNearestEven (x / 2 ^ (e - p + 1)) : ℚ) - x / 2 ^ (e - p + 1)| * 2 ^ (e - p + 1)
      ≤ 1 / 2 * 2 ^ (e - p + 1) := mul_le_mul_of_nonneg_right herr hu.le
    _ = 2 ^ e / 2 ^ p := by rw [e2]; ring
    _ ≤ x / 2 ^ p := div_le_div_of_nonneg_right h2e hp.le

/-- Rounding changes a number by at most the fraction `2^-p` of its magnitude. -/
theorem roundFloat_error (p : Nat) (x : ℚ) : |roundFloat p x - x| ≤ |x| / 2 ^ p := by
  unfold roundFloat
  split_ifs with h0 hneg
  · simp [h0]
  · have hx : 0 < -x := by linarith
    have := roundPos_error p (-x) hx
    rw [abs_of_neg hneg]
    have e : -roundPos p (-x) - x = -(roundPos p (-x) - -x) := by ring
    rw [e, abs_neg]
    exact this
  · have hx : 0 < x := lt_of_le_of_ne (not_lt.mp hneg) (Ne.symm h0)
    rw [abs_of_pos hx]
    exact roundPos_error p x hx

/-- Zero is rounded to zero. -/
theorem roundFloat_zero (p : Nat) : roundFloat p 0 = 0 := by
  simp [roundFloat]

/-- Bounds of the rounded value of a non-negative number. -/
theorem roundFloat_bounds_of_nonneg (p : Nat) (x : ℚ) (hx : 0 ≤ x) :
    x * (1 - 1 / 2 ^ p) ≤ roundFloat p x ∧ roundFloat p x ≤ x * (1 + 1 / 2 ^ p) := by
  have h := roundFloat_error p x
  rw [abs_of_nonneg hx, abs_le] at h
  constructor
  · have : x * (1 - 1 / 2 ^ p) = x - x / 2 ^ p := by ring
    linarith [h.1]
  · have : x * (1 + 1 / 2 ^ p) = x + x / 2 ^ p := by ring
    linarith [h.2]

/-- A non-negative number is rounded to a non-negative number. -/
theorem roundFloat_nonneg (p : Nat) (x : ℚ) (hx : 0 ≤ x) : 0 ≤ roundFloat p x := by
  have h := (roundFloat_bounds_of_nonneg p x hx).1
  have hp : (1 : ℚ) ≤ 2 ^ p := one_le_pow₀ (by norm_num)
  have h1 : (0 : ℚ) ≤ 1 - 1 / 2 ^ p := by
    rw [sub_nonneg, div_le_one (by positivity)]
    exact hp
  exact le_trans (mul_nonneg hx h1) h

/-- A positive number is rounded to a positive number. -/
theorem roundFloat_pos (p : Nat) (x : ℚ) (hp1 : 1 ≤ p) (hx : 0 < x) : 0 < roundFloat p x := by
  have h := (roundFloat_bounds_of_nonneg p x hx.le).1
  have hp : (2 : ℚ) ≤ 2 ^ p := by
    calc (2 : ℚ) = 2 ^ 1 := by norm_num
      _ ≤ 2 ^ p := pow_le_pow_right₀ (by norm_num) hp1
  have h1 : (0 : ℚ) < 1 - 1 / 2 ^ p := by
    rw [sub_pos, div_lt_one (by positivity)]
    linarith
  exact lt_of_lt_of_le (mul_pos hx h1) h

/-- Rounding commutes with negation. -/
theorem roundFloat_neg (p : Nat) (x : ℚ) : roundFloat p (-x) = -roundFloat p x := by
  unfold roundFloat
  rcases lt_trichotomy x 0 with h | h | h
  · have h1 : ¬ -x = 0 := by intro e; linarith
    have h2 : ¬ -x < 0 := by linarith
    have h3 : ¬ x = 0 := by intro e; linarith
    rw [if_neg h1, if_neg h2, if_neg h3, if_pos h]
    simp
  · subst h
    simp
  · have h1 : ¬ -x = 0 := by intro e; linarith
    have h2 : -x < 0 := by linarith
    have h3 : ¬ x = 0 := by intro e; linarith
    have h4 : ¬ x < 0 := by linarith
    rw [if_neg h1, if_pos h2, if_neg h3, if_neg h4]
    simp

/-- Evaluation of `fl64` at a positive number. -/
theorem fl64_eq (x y : ℚ) (e n : Int) (hx : 0 < x) (h1 : (2 : ℚ) ^ e ≤ x)
    (h2 : x < (2 : ℚ) ^ (e + 1)) (hn : |x / 2 ^ (e - 52) - n| < 1 / 2)
    (hy : y = n * 2 ^ (e - 52)) : fl64 x = y := by
  unfold fl64 roundFloat
  rw [if_neg hx.ne', if_neg (not_lt.mpr hx.le)]
  have e52 : e - ((53 : ℕ) : ℤ) + 1 = e - 52 := by push_cast; ring
  exact roundPos_eq 53 x y e n hx h1 h2 (by rw [e52]; exact hn) (by rw [e52]; exact hy)

/-- Evaluation of `fl64` halfway between two binary64 numbers. -/
theorem fl64_eq_tie (x y : ℚ) (e f n : Int) (hx : 0 < x) (h1 : (2 : ℚ) ^ e ≤ x)
    (h2 : x < (2 : ℚ) ^ (e + 1)) (hf : x / 2 ^ (e - 52) = f + 1 / 2)
    (hn : n = if f % 2 = 0 then f else f + 1) (hy : y = n * 2 ^ (e - 52)) : fl64 x = y := by
  unfold fl64 roundFloat
  rw [if_neg hx.ne', if_neg (not_lt.mpr hx.le)]
  have e52 : e - ((53 : ℕ) : ℤ) + 1 = e - 52 := by push_cast; ring
  exact roundPos_eq_tie 53 x y e f n hx h1 h2 (by rw [e52]; exact hf) hn
    (by rw [e52]; exact hy)

/-- Evaluation of `fl32` at a positive number. -/
theorem fl32_eq (x y : ℚ) (e n : Int) (hx : 0 < x) (h1 : (2 : ℚ) ^ e ≤ x)
    (h2 : x < (2 : ℚ) ^ (e + 1)) (hn : |x / 2 ^ (e - 23) - n| < 1 / 2)
    (hy : y = n * 2 ^ (e - 23)) : fl32 x = y := by
  unfold fl32 roundFloat
  rw [if_neg hx.ne', if_neg (not_lt.mpr hx.le)]
  have e23 : e - ((24 : ℕ) : ℤ) + 1 = e - 23 := by push_cast; ring
  exact roundPos_eq 24 x y e n hx h1 h2 (by rw [e23]; exact hn) (by rw [e23]; exact hy)

/-- Zero is a binary64 number. -/
theorem fl64_zero : fl64 0 = 0 := roundFloat_zero 53

/-- Zero is a binary32 number. -/
theorem fl32_zero : fl32 0 = 0 := roundFloat_zero 24

/-- Function `fl64` keeps the sign of a non-negative number. -/
theorem fl64_nonneg (x : ℚ) (hx : 0 ≤ x) : 0 ≤ fl64 x := roundFloat_nonneg 53 x hx

/-- Function `fl64` keeps the sign of a positive number. -/
theorem fl64_pos (x : ℚ) (hx : 0 < x) : 0 < fl64 x := roundFloat_pos 53 x (by norm_num) hx

/-- Binary64 rounding of a non-negative number: relative error at most `2^-53`. -/
theorem fl64_bounds (x : ℚ) (hx : 0 ≤ x) :
    x * (1 - 1 / 2 ^ 53) ≤ fl64 x ∧ fl64 x ≤ x * (1 + 1 / 2 ^ 53) :=
  roundFloat_bounds_of_nonneg 53 x hx

/-- Binary32 rounding of a non-negative number: relative error at most `2^-24`. -/
theorem fl32_bounds (x : ℚ) (hx : 0 ≤ x) :
    x * (1 - 1 / 2 ^ 24) ≤ fl32 x ∧ fl32 x ≤ x * (1 + 1 / 2 ^ 24) :=
  roundFloat_bounds_of_nonneg 24 x hx

/-- Function `fl64` commutes with negation. -/
theorem fl64_neg (x : ℚ) : fl64 (-x) = -fl64 x := roundFloat_neg 53 x

/-- Function `fl32` commutes with negation. -/
theorem fl32_neg (x : ℚ) : fl32 (-x) = -fl32 x := roundFloat_neg 24 x

/-- Inside the range of `int` the conversion is the truncation. -/
theorem toInt32_of_range (x : ℚ) (h1 : INT_MIN ≤ castInt x) (h2 : castInt x ≤ INT_MAX) :
    toInt32 x = castInt x := by
  unfold toInt32
  rw [if_pos ⟨h1, h2⟩]

/-- A non-negative value below 2^31 is converted by truncation, to a value that is not
negative. -/
theorem toInt32_of_nonneg (x : ℚ) (h0 : 0 ≤ x) (h : x < 2147483648) :
    toInt32 x = castInt x ∧ 0 ≤ castInt x ∧ castInt x ≤ INT_MAX := by
  have hc : 0 ≤ castInt x := castInt_nonneg h0
  have hle : castInt x ≤ INT_MAX := by
    have h3 : ((castInt x : Int) : ℚ) < 2147483648 := lt_of_le_of_lt (castInt_le_self h0) h
    have h4 : castInt x < 2147483648 := by exact_mod_cast h3
    unfold INT_MAX
    omega
  refine ⟨toInt32_of_range x ?_ hle, hc, hle⟩
  unfold INT_MIN
  omega

/-- An `int` result inside the range is not changed by the wrap-around. -/
theorem wrapInt32_of_range (x : Int) (h1 : INT_MIN ≤ x) (h2 : x ≤ INT_MAX) :
    wrapInt32 x = x := by
  unfold INT_MIN at h1
  unfold INT_MAX at h2
  unfold wrapInt32
  rw [Int.emod_eq_of_lt (by omega) (by omega)]
  omega

/-- The literal `0.001` is a positive `double`. -/
theorem SPEED_TOLERANCE_pos : 0 < Machine.SPEED_TOLERANCE :=
  fl64_pos _ (by norm_num)

/-- The test `std::fabs(speed - 1.0) < 0.001` holds at speed 1. -/
theorem speed_one_test : |fl64 ((1 : ℚ) - 1)| < Machine.SPEED_TOLERANCE := by
  rw [sub_self, fl64_zero, abs_zero]
  exact SPEED_TOLERANCE_pos

/-- The `double` value of the literal `0.002`. -/
theorem fl64_two_thousandths :
    fl64 (2 / 1000) = 1152921504606847 / 576460752303423488 := by
  apply fl64_eq _ _ (-9) 4611686018427388
  · norm_num
  · norm_num
  · norm_num
  · norm_num [abs_lt]
  · norm_num

/-- A number that is not positive is rounded to a number that is not positive. -/
theorem fl64_nonpos (x : ℚ) (hx : x ≤ 0) : fl64 x ≤ 0 := by
  have h := fl64_nonneg (-x) (by linarith)
  rw [fl64_neg] at h
  linarith

/-! ### Sync engine with machine arithmetic: shape of `calculateVideoDelay` -/

namespace Machine

/-- What `syncDelay` leaves as it was: speed, both clocks and the paused flag. -/
theorem syncDelay_keeps (m : AVSyncManager) (e now2 : ℚ) :
    (syncDelay m e now2).2.speed_ = m.speed_ ∧
      (syncDelay m e now2).2.videoClock_ = m.videoClock_ ∧
      (syncDelay m e now2).2.audioClock_ = m.audioClock_ ∧
      (syncDelay m e now2).2.paused_ = m.paused_ := by
  unfold syncDelay
  simp only [AVSyncManager.logSyncOffset]
  split_ifs <;> exact ⟨rfl, rfl, rfl, rfl⟩

/-- The video clock update leaves the speed, the audio clock and the flags as they
were. -/
theorem afterVideoUpdate_keeps (m : AVSyncManager) (pts d now1 : ℚ) :
    (afterVideoUpdate m pts d now1).speed_ = m.speed_ ∧
      (afterVideoUpdate m pts d now1).audioClock_ = m.audioClock_ ∧
      (afterVideoUpdate m pts d now1).paused_ = m.paused_ ∧
      (afterVideoUpdate m pts d now1).forceSystemMode_ = m.forceSystemMode_ ∧
      (afterVideoUpdate m pts d now1).syncLogs_ = m.syncLogs_ ∧
      (afterVideoUpdate m pts d now1).consecutiveBadDelays_ = m.consecutiveBadDelays_ ∧
      (afterVideoUpdate m pts d now1).lastGoodOffset_ = m.lastGoodOffset_ := by
  unfold afterVideoUpdate
  split <;> exact ⟨rfl, rfl, rfl, rfl, rfl, rfl, rfl⟩

/-- The delay of an unpaused `calculateVideoDelay`, written with its stages. -/
theorem calculateVideoDelay_stages (m : AVSyncManager) (pts d now1 now2 : ℚ)
    (hp : m.paused_ = false) :
    (calculateVideoDelay m pts d now1 now2).1 =
      sanitizeDelay (syncDelay (afterVideoUpdate m pts d now1) (effectiveDurationOf m d) now2).2
        (if (syncDelay (afterVideoUpdate m pts d now1)
              (effectiveDurationOf m d) now2).2.forceSystemMode_ = false ∧
            (syncDelay (afterVideoUpdate m pts d now1)
              (effectiveDurationOf m d) now2).2.audioClock_.isValid = true then
          applyFineTune
            (syncDelay (afterVideoUpdate m pts d now1) (effectiveDurationOf m d) now2).2
            (syncDelay (afterVideoUpdate m pts d now1) (effectiveDurationOf m d) now2).1
            (syncDelay (afterVideoUpdate m pts d now1)
              (effectiveDurationOf m d) now2).2.lastGoodOffset_
        else (syncDelay (afterVideoUpdate m pts d now1) (effectiveDurationOf m d) now2).1)
        (effectiveDurationOf m d) := by
  unfold calculateVideoDelay
  rw [if_neg (by simp [hp])]

/-- The video clock after an unpaused `calculateVideoDelay` is the one after the video
clock update. -/
theorem calculateVideoDelay_videoClock (m : AVSyncManager) (pts d now1 now2 : ℚ)
    (hp : m.paused_ = false) :
    (calculateVideoDelay m pts d now1 now2).2.videoClock_ =
      (afterVideoUpdate m pts d now1).videoClock_ := by
  unfold calculateVideoDelay
  rw [if_neg (by simp [hp])]
  exact (syncDelay_keeps _ _ _).2.1

/-- An update keeps the average duration positive and the sample count non-negative. -/
theorem clockUpdate_keeps_avg_pos (c : Clock) (newPts newDuration now speed : ℚ)
    (h : 0 < c.avgDuration ∧ 0 ≤ c.updateCount) :
    0 < (clockUpdate c newPts newDuration now speed).avgDuration ∧
      0 ≤ (clockUpdate c newPts newDuration now speed).updateCount := by
  obtain ⟨ha, hc⟩ := h
  have hcq : (0 : ℚ) ≤ (c.updateCount : ℚ) := by exact_mod_cast hc
  simp only [clockUpdate]
  split
  · rename_i hd
    split
    · refine ⟨fl64_pos _ (div_pos (fl64_pos _ ?_) ?_), by omega⟩
      · have := fl64_nonneg _ (mul_nonneg ha.le hcq)
        linarith [hd.1]
      · push_cast
        linarith
    · refine ⟨fl64_pos _ ?_, hc⟩
      have h1 : 0 ≤ fl64 (c.avgDuration * fl64 (95 / 100)) :=
        fl64_nonneg _ (mul_nonneg ha.le (fl64_nonneg _ (by norm_num)))
      have h2 : 0 < fl64 (newDuration * fl64 (5 / 100)) :=
        fl64_pos _ (mul_pos hd.1 (fl64_pos _ (by norm_num)))
      linarith
  · exact ⟨ha, hc⟩

/-- What `setSpeed` leaves as it was: both clocks and the paused flag. -/
theorem setSpeed_keeps (m : AVSyncManager) (speed : ℚ) :
    (Machine.setSpeed m speed).videoClock_ = m.videoClock_ ∧
      (Machine.setSpeed m speed).audioClock_ = m.audioClock_ ∧
      (Machine.setSpeed m speed).paused_ = m.paused_ := by
  unfold Machine.setSpeed
  split_ifs <;> exact ⟨rfl, rfl, rfl⟩

/-- A speed that differs from the current one by 0.001 or more is stored. -/
theorem setSpeed_speed (m : AVSyncManager) (speed : ℚ)
    (h : ¬ |fl64 (m.speed_ - speed)| < SPEED_TOLERANCE) :
    (Machine.setSpeed m speed).speed_ = speed := by
  unfold Machine.setSpeed
  rw [if_neg h]
  split_ifs <;> rfl

/-- In every reachable state the video clock has a positive average duration and a
non-negative sample count. -/
theorem reachable_video_avg_pos (m : AVSyncManager) (h : Reachable m) :
    0 < m.videoClock_.avgDuration ∧ 0 ≤ m.videoClock_.updateCount := by
  have hinit : 0 < clockInit.avgDuration ∧ 0 ≤ clockInit.updateCount :=
    ⟨fl64_pos _ (by norm_num), le_refl _⟩
  induction h with
  | new =>
    have e : Machine.new.videoClock_ = clockInit := rfl
    rw [e]
    exact hinit
  | @reset m _ _ =>
    have e : (Machine.reset m).videoClock_ = clockInit := rfl
    rw [e]
    exact hinit
  | pause _ ih => exact ih
  | resume _ ih => exact ih
  | @setSpeed m speed _ ih =>
    rw [(setSpeed_keeps m speed).1]
    exact ih
  | @updateAudioClock m pts duration now _ ih =>
    unfold Machine.updateAudioClock
    split <;> exact ih
  | @calculateVideoDelay m pts duration now1 now2 _ ih =>
    by_cases hpt : m.paused_ = true
    · have e : (Machine.calculateVideoDelay m pts duration now1 now2).2 = m := by
        simp [Machine.calculateVideoDelay, hpt]
      rw [e]
      exact ih
    · have hp : m.paused_ = false := by simpa using hpt
      rw [calculateVideoDelay_videoClock m pts duration now1 now2 hp]
      unfold afterVideoUpdate
      split
      · exact clockUpdate_keeps_avg_pos _ _ _ _ _ ih
      · exact ih

/-- The clamp of `sanitizeDelay`, whatever the delay, the duration and the speed: the
result is between 0 and 200, it is 0 when the limit `maxDelay` is negative (also when the
`int` conversion of the limit overflows), and it does not exceed the binary64 value of
`duration / speed * 2000` when that value is not negative. -/
theorem sanitizeDelay_range (m : AVSyncManager) (delay : Int) (e : ℚ) :
    0 ≤ sanitizeDelay m delay e ∧ sanitizeDelay m delay e ≤ 200 ∧
      sanitizeDelay m delay e ≤ max 0 (toInt32 (fl64 (fl64 (e / m.speed_) * 2000))) ∧
      (0 ≤ fl64 (fl64 (e / m.speed_) * 2000) →
        ((sanitizeDelay m delay e : Int) : ℚ) ≤ fl64 (fl64 (e / m.speed_) * 2000)) := by
  unfold sanitizeDelay qBound MAX_REASONABLE_DELAY_MS
  simp only
  have h3 : max 0 (min (min (toInt32 (fl64 (fl64 (e / m.speed_) * 2000))) 200) delay) ≤
      max 0 (toInt32 (fl64 (fl64 (e / m.speed_) * 2000))) :=
    max_le_max (le_refl _) (le_trans (min_le_left _ _) (min_le_left _ _))
  refine ⟨le_max_left _ _, ?_, h3, ?_⟩
  · exact max_le (by norm_num) (le_trans (min_le_left _ _) (min_le_right _ _))
  · intro hx
    have h4 : ((max 0 (toInt32 (fl64 (fl64 (e / m.speed_) * 2000))) : Int) : ℚ) ≤
        fl64 (fl64 (e / m.speed_) * 2000) := by
      unfold toInt32
      split_ifs with hr
      · rcases max_cases (0 : Int) (castInt (fl64 (fl64 (e / m.speed_) * 2000))) with
          ⟨h1, _⟩ | ⟨h1, _⟩
        · rw [h1]; exact_mod_cast hx
        · rw [h1]; exact castInt_le_self hx
      · have : max (0 : Int) INT_MIN = 0 := by decide
        rw [this]
        exact_mod_cast hx
    have h5 : ((max 0 (min (min (toInt32 (fl64 (fl64 (e / m.speed_) * 2000))) 200) delay) :
        Int) : ℚ) ≤ ((max 0 (toInt32 (fl64 (fl64 (e / m.speed_) * 2000))) : Int) : ℚ) := by
      exact_mod_cast h3
    exact le_trans h5 h4

/-- C9: for every reachable engine state with speed > 0 and not paused, and every input
(pts, duration) and clock reading, `calculateVideoDelay` - with binary64 arithmetic and
32-bit `int` conversions - returns a delay between 0 and the smaller of
`MAX_REASONABLE_DELAY_MS` = 200 and the limit `maxDelay` of `sanitizeDelay`, the `int`
value of 2 x effectiveDuration / speed in milliseconds (0 when that conversion
overflows), where effectiveDuration is the duration when it is valid and the average
duration of the video clock otherwise; the delay is never negative, never above
200 ms, never above the binary64 value of effectiveDuration / speed x 2000, and never
above the exact value of 2 x effectiveDuration / speed in milliseconds by more than the
rounding error (a factor 1 + 2^-51). -/
theorem delay_within_bounds (m : AVSyncManager) (pts duration now1 now2 : ℚ)
    (hr : Reachable m) (hs : 0 < m.speed_) (hp : m.paused_ = false) :
    0 ≤ (calculateVideoDelay m pts duration now1 now2).1 ∧
      (calculateVideoDelay m pts duration now1 now2).1 ≤
        min MAX_REASONABLE_DELAY_MS
          (max 0 (toInt32 (fl64 (fl64
            ((if AVSyncManager.isValidDuration duration = true then duration
              else m.videoClock_.avgDuration) / m.speed_) * 2000)))) ∧
      (calculateVideoDelay m pts duration now1 now2).1 ≤ 200 ∧
      (((calculateVideoDelay m pts duration now1 now2).1 : Int) : ℚ) ≤
        fl64 (fl64 ((if AVSyncManager.isValidDuration duration = true then duration
          else m.videoClock_.avgDuration) / m.speed_) * 2000) ∧
      (((calculateVideoDelay m pts duration now1 now2).1 : Int) : ℚ) ≤
        (if AVSyncManager.isValidDuration duration = true then duration
          else m.videoClock_.avgDuration) / m.speed_ * 2000 * (1 + 1 / 2 ^ 51) := by
  have heq : effectiveDurationOf m duration =
      (if AVSyncManager.isValidDuration duration = true then duration
        else m.videoClock_.avgDuration) := by
    unfold effectiveDurationOf
    cases AVSyncManager.isValidDuration duration <;> simp
  have he : 0 ≤ (if AVSyncManager.isValidDuration duration = true then duration
      else m.videoClock_.avgDuration) := by
    split
    · rename_i hv
      simp only [AVSyncManager.isValidDuration, Bool.and_eq_true, decide_eq_true_eq] at hv
      exact hv.1.le
    · exact (reachable_video_avg_pos m hr).1.le
  have h5 : (syncDelay (afterVideoUpdate m pts duration now1)
      (effectiveDurationOf m duration) now2).2.speed_ = m.speed_ := by
    rw [(syncDelay_keeps _ _ _).1, (afterVideoUpdate_keeps m pts duration now1).1]
  have hx : 0 ≤ fl64 (fl64 ((if AVSyncManager.isValidDuration duration = true then duration
      else m.videoClock_.avgDuration) / m.speed_) * 2000) :=
    fl64_nonneg _ (mul_nonneg (fl64_nonneg _ (div_nonneg he hs.le)) (by norm_num))
  have hq : 0 ≤ (if AVSyncManager.isValidDuration duration = true then duration
      else m.videoClock_.avgDuration) / m.speed_ := div_nonneg he hs.le
  have hy := (fl64_bounds _ hq).2
  have hz := (fl64_bounds _ (mul_nonneg (fl64_nonneg _ hq) (by norm_num : (0 : ℚ) ≤ 2000))).2
  have hx2 : fl64 (fl64 ((if AVSyncManager.isValidDuration duration = true then duration
      else m.videoClock_.avgDuration) / m.speed_) * 2000) ≤
      (if AVSyncManager.isValidDuration duration = true then duration
        else m.videoClock_.avgDuration) / m.speed_ * 2000 * (1 + 1 / 2 ^ 51) := by
    generalize fl64 (fl64 ((if AVSyncManager.isValidDuration duration = true then duration
      else m.videoClock_.avgDuration) / m.speed_) * 2000) = X at hz ⊢
    generalize fl64 ((if AVSyncManager.isValidDuration duration = true then duration
      else m.videoClock_.avgDuration) / m.speed_) = Y at hy hz
    generalize (if AVSyncManager.isValidDuration duration = true then duration
      else m.videoClock_.avgDuration) / m.speed_ = q at hq hy ⊢
    norm_num at hy hz ⊢
    linarith
  rw [calculateVideoDelay_stages m pts duration now1 now2 hp]
  generalize syncDelay (afterVideoUpdate m pts duration now1)
    (effectiveDurationOf m duration) now2 = r at h5 ⊢
  generalize (if r.2.forceSystemMode_ = false ∧ r.2.audioClock_.isValid = true then
    applyFineTune r.2 r.1 r.2.lastGoodOffset_ else r.1) = delay
  obtain ⟨b1, b2, b3, b4⟩ := sanitizeDelay_range r.2 delay (effectiveDurationOf m duration)
  rw [heq] at b1 b2 b3 b4
  rw [h5] at b3 b4
  rw [heq]
  unfold MAX_REASONABLE_DELAY_MS
  exact ⟨b1, le_min b2 b3, b2, b4 hx, le_trans (b4 hx) hx2⟩

end Machine
/-! ### Sync engine with machine arithmetic: the clamp at a speed where `maxDelay` overflows -/

namespace Machine

/-- The speed of the constructed engine. -/
theorem new_speed : Machine.new.speed_ = 1 := rfl

/-- Setting the speed of the constructed engine to 10^-9 stores that speed. -/
theorem tiny_speed_stored :
    (Machine.setSpeed Machine.new (1 / 1000000000)).speed_ = 1 / 1000000000 := by
  apply setSpeed_speed
  rw [new_speed, not_lt]
  have h1 := (fl64_bounds (1 - 1 / 1000000000) (by norm_num)).1
  have h2 := (fl64_bounds (1 / 1000) (by norm_num)).2
  unfold SPEED_TOLERANCE
  rw [abs_of_nonneg (fl64_nonneg _ (by norm_num))]
  linarith

/-- When the binary64 value of `duration / speed * 2000` is 2^31 or more, the conversion
to `int` gives `INT_MIN`, the limits of the clamp are out of order and `sanitizeDelay`
returns 0 whatever the delay. -/
theorem sanitizeDelay_of_overflow (m : AVSyncManager) (delay : Int) (e : ℚ)
    (h : 2147483648 ≤ fl64 (fl64 (e / m.speed_) * 2000)) : sanitizeDelay m delay e = 0 := by
  have h0 : (0 : ℚ) ≤ fl64 (fl64 (e / m.speed_) * 2000) := le_trans (by norm_num) h
  have h1 : (2147483648 : Int) ≤ castInt (fl64 (fl64 (e / m.speed_) * 2000)) := by
    rw [castInt_of_nonneg h0]
    exact Int.le_floor.mpr (by exact_mod_cast h)
  have h2 : toInt32 (fl64 (fl64 (e / m.speed_) * 2000)) = INT_MIN := by
    unfold toInt32
    rw [if_neg]
    intro hc
    have := hc.2
    unfold INT_MAX at this
    omega
  unfold sanitizeDelay qBound
  simp only
  rw [h2]
  unfold INT_MIN MAX_REASONABLE_DELAY_MS
  have h3 : min (min (-2147483648 : Int) 200) delay ≤ 0 :=
    le_trans (min_le_left _ _) (le_trans (min_le_left _ _) (by norm_num))
  exact max_eq_left h3

/-- At speed 10^-9 a frame of 33 ms gets the delay 0: twice the duration over the speed
is 66 000 000 ms, beyond `int`. -/
theorem delay_at_tiny_speed (pts now1 now2 : ℚ) :
    (calculateVideoDelay (Machine.setSpeed Machine.new (1 / 1000000000)) pts (33 / 1000)
      now1 now2).1 = 0 := by
  have hp : (Machine.setSpeed Machine.new (1 / 1000000000)).paused_ = false :=
    (setSpeed_keeps _ _).2.2
  have hv : AVSyncManager.isValidDuration (33 / 1000) = true := by
    simp [AVSyncManager.isValidDuration]
    norm_num
  have he : effectiveDurationOf (Machine.setSpeed Machine.new (1 / 1000000000)) (33 / 1000) =
      33 / 1000 := by
    unfold effectiveDurationOf
    rw [hv]
    rfl
  rw [calculateVideoDelay_stages _ pts _ now1 now2 hp, he]
  apply sanitizeDelay_of_overflow
  rw [(syncDelay_keeps _ _ _).1, (afterVideoUpdate_keeps _ pts _ now1).1, tiny_speed_stored]
  have h1 := (fl64_bounds (33 / 1000 / (1 / 1000000000)) (by norm_num)).1
  have h2 := (fl64_bounds (fl64 (33 / 1000 / (1 / 1000000000)) * 2000)
    (mul_nonneg (fl64_nonneg _ (by norm_num)) (by norm_num))).1
  norm_num at h1 h2 ⊢
  linarith

/-- C9 at a concrete state, the constructed engine set to speed 10^-9, where the
conversion of the limit overflows: the bounds hold for a frame of 33 ms. -/
theorem delay_within_bounds_witness :
    Reachable (Machine.setSpeed Machine.new (1 / 1000000000)) ∧
      0 < (Machine.setSpeed Machine.new (1 / 1000000000)).speed_ ∧
      0 ≤ (calculateVideoDelay (Machine.setSpeed Machine.new (1 / 1000000000)) 0 (33 / 1000)
        100 100).1 ∧
      (calculateVideoDelay (Machine.setSpeed Machine.new (1 / 1000000000)) 0 (33 / 1000)
        100 100).1 ≤ 200 :=
  have hs : 0 < (Machine.setSpeed Machine.new (1 / 1000000000)).speed_ := by
    rw [tiny_speed_stored]
    norm_num
  ⟨Reachable.setSpeed _ Reachable.new, hs,
    (delay_within_bounds _ 0 (33 / 1000) 100 100 (Reachable.setSpeed _ Reachable.new) hs
      (setSpeed_keeps _ _).2.2).1,
    (delay_within_bounds _ 0 (33 / 1000) 100 100 (Reachable.setSpeed _ Reachable.new) hs
      (setSpeed_keeps _ _).2.2).2.2.1⟩

end Machine
/-! ### Sync engine with machine arithmetic: the system-based delay at speed 1 -/

namespace Machine

/-- At speed 1 the system-based delay is the frame duration less the overhead, floored
at 0, in milliseconds. -/
theorem calculateSystemBasedDelay_speed_one (m : AVSyncManager) (d : ℚ) (hs : m.speed_ = 1) :
    calculateSystemBasedDelay m d =
      toInt32 (fl64 (max 0 (fl64 (d - SYSTEM_DELAY_ESTIMATE)) * 1000)) := by
  unfold calculateSystemBasedDelay getSpeedAdjustedSystemDelay
  rw [hs, if_pos speed_one_test, if_pos speed_one_test]

/-- Without a valid audio clock the delay before fine-tuning is the system-based one and
the state is not touched. -/
theorem syncDelay_of_audio_invalid (m : AVSyncManager) (e now2 : ℚ)
    (h : m.audioClock_.isValid = false) :
    syncDelay m e now2 = (calculateSystemBasedDelay m e, m) := by
  unfold syncDelay
  rw [if_pos (Or.inl h)]

/-- A delay inside the limits passes `sanitizeDelay` unchanged. -/
theorem sanitizeDelay_eq_self (m : AVSyncManager) (delay : Int) (e : ℚ) (h0 : 0 ≤ delay)
    (h1 : delay ≤ 200) (h2 : delay ≤ toInt32 (fl64 (fl64 (e / m.speed_) * 2000))) :
    sanitizeDelay m delay e = delay := by
  unfold sanitizeDelay MAX_REASONABLE_DELAY_MS
  exact qBound_eq_self h0 (le_min h2 h1)

/-- A duration above 0 and at most 0.1 is valid. -/
theorem isValidDuration_of_small (d : ℚ) (hd0 : 0 < d) (hd1 : d ≤ 1 / 10) :
    AVSyncManager.isValidDuration d = true := by
  simp only [AVSyncManager.isValidDuration, Bool.and_eq_true, decide_eq_true_eq]
  exact ⟨hd0, by linarith⟩

/-- With the audio clock invalid, the engine not paused and speed 1, the delay of a frame
of duration `d`, `0 < d ≤ 0.1`, is the truncation of the binary64 value of
`max(0, d - SYSTEM_DELAY_ESTIMATE) * 1000`: fine-tuning is skipped and the clamp does not
bite. -/
theorem calculateVideoDelay_system_speed_one (m : AVSyncManager) (pts d now1 now2 : ℚ)
    (ha : m.audioClock_.isValid = false) (hp : m.paused_ = false) (hs : m.speed_ = 1)
    (hd0 : 0 < d) (hd1 : d ≤ 1 / 10) :
    (calculateVideoDelay m pts d now1 now2).1 =
      castInt (fl64 (max 0 (fl64 (d - fl64 (2 / 1000))) * 1000)) := by
  have he : effectiveDurationOf m d = d := by
    unfold effectiveDurationOf
    rw [isValidDuration_of_small d hd0 hd1]
    rfl
  obtain ⟨k1, k2, -⟩ := afterVideoUpdate_keeps m pts d now1
  have ha1 : (afterVideoUpdate m pts d now1).audioClock_.isValid = false := by rw [k2, ha]
  have hs1 : (afterVideoUpdate m pts d now1).speed_ = 1 := by rw [k1, hs]
  rw [calculateVideoDelay_stages m pts d now1 now2 hp, he,
    syncDelay_of_audio_invalid _ d now2 ha1]
  simp only
  rw [if_neg (by rw [ha1]; simp), calculateSystemBasedDelay_speed_one _ d hs1]
  unfold SYSTEM_DELAY_ESTIMATE
  -- the numbers involved
  have hC : 0 ≤ fl64 (2 / 1000) := fl64_nonneg _ (by norm_num)
  have ha0 : 0 ≤ max 0 (fl64 (d - fl64 (2 / 1000))) := le_max_left _ _
  have ha2 : max 0 (fl64 (d - fl64 (2 / 1000))) ≤ d * (1 + 1 / 2 ^ 53) := by
    apply max_le
    · positivity
    · by_cases hx : 0 ≤ d - fl64 (2 / 1000)
      · have := (fl64_bounds _ hx).2
        nlinarith
      · have := fl64_nonpos _ (le_of_lt (not_le.mp hx))
        have : 0 ≤ d * (1 + 1 / 2 ^ 53) := by positivity
        linarith
  have hb := fl64_bounds (max 0 (fl64 (d - fl64 (2 / 1000))) * 1000)
    (mul_nonneg ha0 (by norm_num))
  have hb0 : 0 ≤ fl64 (max 0 (fl64 (d - fl64 (2 / 1000))) * 1000) :=
    fl64_nonneg _ (mul_nonneg ha0 (by norm_num))
  have hd := fl64_bounds d hd0.le
  have hX := fl64_bounds (fl64 d * 2000) (mul_nonneg (fl64_nonneg _ hd0.le) (by norm_num))
  have hX0 : 0 ≤ fl64 (fl64 d * 2000) :=
    fl64_nonneg _ (mul_nonneg (fl64_nonneg _ hd0.le) (by norm_num))
  generalize max 0 (fl64 (d - fl64 (2 / 1000))) = a at ha0 ha2 hb hb0 ⊢
  generalize fl64 (a * 1000) = b at hb hb0 ⊢
  have hbX : b ≤ fl64 (fl64 d * 2000) := by
    generalize fl64 (fl64 d * 2000) = X at hX
    generalize fl64 d = fd at hd hX
    norm_num at hb hd hX ha2
    linarith
  have hb200 : b < 200 := by
    norm_num at hb ha2
    linarith
  have hXlt : fl64 (fl64 d * 2000) < 2147483648 := by
    generalize fl64 (fl64 d * 2000) = X at hX
    generalize fl64 d = fd at hd hX
    norm_num at hd hX
    linarith
  rw [(toInt32_of_nonneg b hb0 (by linarith)).1]
  apply sanitizeDelay_eq_self
  · exact castInt_nonneg hb0
  · have h1 := castInt_le_self hb0
    have h2 : ((castInt b : Int) : ℚ) < 200 := lt_of_le_of_lt h1 hb200
    have h3 : castInt b < 200 := by exact_mod_cast h2
    omega
  · rw [hs1, div_one, (toInt32_of_nonneg _ hX0 hXlt).1]
    exact castInt_mono hb0 hbX

end Machine
/-! ### Binary64 values of the examples of the system-based delay -/

/-- The `int` conversion of a non-negative number between `n` and `n + 1`. -/
theorem castInt_eq_of_bounds (x : ℚ) (n : Int) (h0 : 0 ≤ x) (h1 : (n : ℚ) ≤ x)
    (h2 : x < n + 1) : castInt x = n := by
  rw [castInt_of_nonneg h0, Int.floor_eq_iff]
  exact ⟨h1, h2⟩

/-- The value of `std::round` on a non-negative number within one half of `n`. -/
theorem stdRound_eq_of_bounds (x : ℚ) (n : Int) (h0 : 0 ≤ x) (h1 : (n : ℚ) ≤ x + 1 / 2)
    (h2 : x + 1 / 2 < n + 1) : stdRound x = n := by
  unfold stdRound
  rw [if_pos h0]
  congr 1
  rw [Int.floor_eq_iff]
  exact ⟨h1, h2⟩

/-- The truncation is above the number less 1. -/
theorem castInt_gt_sub_one {x : ℚ} (h : 0 ≤ x) : x - 1 < ((castInt x : Int) : ℚ) := by
  rw [castInt_of_nonneg h]
  exact Int.sub_one_lt_floor x

/-- The binary64 number nearest to 0.03. -/
theorem fl64_thirty_ms :
    fl64 (3 / 100) = 1080863910568919 / 36028797018963968 := by
  apply fl64_eq _ _ (-6) 8646911284551352
  · norm_num
  · norm_num
  · norm_num
  · norm_num [abs_lt]
  · norm_num

/-- The binary64 difference of the doubles 0.03 and 0.002. -/
theorem fl64_thirty_ms_less_overhead :
    fl64 (1080863910568919 / 36028797018963968 - 1152921504606847 / 576460752303423488) = 1008806316530991 / 36028797018963968 := by
  apply fl64_eq_tie _ _ (-6) 8070450532247928 8070450532247928
  · norm_num
  · norm_num
  · norm_num
  · norm_num
  · decide
  · norm_num

/-- The binary64 product of that difference and 1000. -/
theorem fl64_thirty_ms_in_ms :
    fl64 (1008806316530991 / 36028797018963968 * 1000) = 7881299347898367 / 281474976710656 := by
  apply fl64_eq _ _ (4) 7881299347898367
  · norm_num
  · norm_num
  · norm_num
  · norm_num [abs_lt]
  · norm_num

/-- The binary64 number nearest to 0.033. -/
theorem fl64_thirty_three_ms :
    fl64 (33 / 1000) = 1188950301625811 / 36028797018963968 := by
  apply fl64_eq _ _ (-5) 4755801206503244
  · norm_num
  · norm_num
  · norm_num
  · norm_num [abs_lt]
  · norm_num

/-- The binary64 difference of the doubles 0.033 and 0.002. -/
theorem fl64_thirty_three_ms_less_overhead :
    fl64 (1188950301625811 / 36028797018963968 - 1152921504606847 / 576460752303423488) = 1116892707587883 / 36028797018963968 := by
  apply fl64_eq_tie _ _ (-6) 8935141660703064 8935141660703064
  · norm_num
  · norm_num
  · norm_num
  · norm_num
  · decide
  · norm_num

/-- The binary64 product of that difference and 1000. -/
theorem fl64_thirty_three_ms_in_ms :
    fl64 (1116892707587883 / 36028797018963968 * 1000) = 31 := by
  apply fl64_eq _ _ (4) 8725724278030336
  · norm_num
  · norm_num
  · norm_num
  · norm_num [abs_lt]
  · norm_num

/-- The binary64 number nearest to 0.011. -/
theorem fl64_eleven_ms :
    fl64 (11 / 1000) = 3170534137668829 / 288230376151711744 := by
  apply fl64_eq _ _ (-7) 6341068275337658
  · norm_num
  · norm_num
  · norm_num
  · norm_num [abs_lt]
  · norm_num

/-- The binary64 difference of the doubles 0.011 and 0.002. -/
theorem fl64_eleven_ms_less_overhead :
    fl64 (3170534137668829 / 288230376151711744 - 1152921504606847 / 576460752303423488) = 5188146770730811 / 576460752303423488 := by
  apply fl64_eq _ _ (-7) 5188146770730811
  · norm_num
  · norm_num
  · norm_num
  · norm_num [abs_lt]
  · norm_num

/-- The binary64 product of that difference and 1000. -/
theorem fl64_eleven_ms_in_ms :
    fl64 (5188146770730811 / 576460752303423488 * 1000) = 9 := by
  apply fl64_eq _ _ (3) 5066549580791808
  · norm_num
  · norm_num
  · norm_num
  · norm_num [abs_lt]
  · norm_num

namespace Machine

/-- The truncated binary64 value of `max(0, d - 0.002) * 1000` is within 1 (and a
rounding error) of the exact value: at most that value, and above it less 1. -/
theorem system_delay_near_exact (d : ℚ) (hd1 : d ≤ 1 / 10) :
    max 0 (d - 2 / 1000) * 1000 - 1 - 1 / 10 ^ 9 <
        ((castInt (fl64 (max 0 (fl64 (d - fl64 (2 / 1000))) * 1000)) : Int) : ℚ) ∧
      ((castInt (fl64 (max 0 (fl64 (d - fl64 (2 / 1000))) * 1000)) : Int) : ℚ) ≤
        max 0 (d - 2 / 1000) * 1000 + 1 / 10 ^ 9 := by
  rw [fl64_two_thousandths]
  have ha0 : 0 ≤ max 0 (fl64 (d - 1152921504606847 / 576460752303423488)) := le_max_left _ _
  have hb := fl64_bounds (max 0 (fl64 (d - 1152921504606847 / 576460752303423488)) * 1000)
    (mul_nonneg ha0 (by norm_num))
  have hb0 : 0 ≤ fl64 (max 0 (fl64 (d - 1152921504606847 / 576460752303423488)) * 1000) :=
    fl64_nonneg _ (mul_nonneg ha0 (by norm_num))
  have ha : (d - 1152921504606847 / 576460752303423488) * (1 - 1 / 2 ^ 53) ≤
        max 0 (fl64 (d - 1152921504606847 / 576460752303423488)) ∧
      max 0 (fl64 (d - 1152921504606847 / 576460752303423488)) ≤
        max 0 (d - 1152921504606847 / 576460752303423488) * (1 + 1 / 2 ^ 53) := by
    by_cases hx : 0 ≤ d - 1152921504606847 / 576460752303423488
    · have h := fl64_bounds _ hx
      rw [max_eq_right (fl64_nonneg _ hx), max_eq_right hx]
      exact h
    · have h := fl64_nonpos _ (le_of_lt (not_le.mp hx))
      rw [max_eq_left h, max_eq_left (le_of_lt (not_le.mp hx))]
      constructor
      · have : 0 ≤ -(d - 1152921504606847 / 576460752303423488) * (1 - 1 / 2 ^ 53) :=
          mul_nonneg (by linarith) (by norm_num)
        linarith
      · norm_num
  have h1 := castInt_le_self hb0
  have h2 := castInt_gt_sub_one hb0
  generalize max 0 (fl64 (d - 1152921504606847 / 576460752303423488)) = a at ha0 ha hb hb0 h1 h2 ⊢
  generalize fl64 (a * 1000) = b at hb hb0 h1 h2 ⊢
  generalize ((castInt b : Int) : ℚ) = r at h1 h2 ⊢
  obtain ⟨ha1, ha2⟩ := ha
  obtain ⟨hb1, hb2⟩ := hb
  rcases max_cases (0 : ℚ) (d - 2 / 1000) with ⟨e1, e2⟩ | ⟨e1, e2⟩ <;>
    rcases max_cases (0 : ℚ) (d - 1152921504606847 / 576460752303423488) with
      ⟨e3, e4⟩ | ⟨e3, e4⟩ <;>
    rw [e1] <;> rw [e3] at ha2 <;> norm_num at ha1 ha2 hb1 hb2 ⊢ <;>
    constructor <;> linarith

/-- C8 (amended): with the audio clock invalid, the engine not paused and speed 1,
`calculateVideoDelay(pts, d)` - for every pts and every duration `0 < d ≤ 0.1` - is the
binary64 value of `max(0, d - SYSTEM_DELAY_ESTIMATE) * 1000` truncated toward zero to
integer milliseconds; for `d` the double 0.033 it is 31 ms; and it is within 1 ms of the
exact value of `max(0, d - 0.002) * 1000`. -/
theorem system_delay_at_speed_one (m : AVSyncManager) (pts d now1 now2 : ℚ)
    (ha : m.audioClock_.isValid = false) (hp : m.paused_ = false) (hs : m.speed_ = 1)
    (hd0 : 0 < d) (hd1 : d ≤ 1 / 10) :
    (calculateVideoDelay m pts d now1 now2).1 =
        castInt (fl64 (max 0 (fl64 (d - fl64 (2 / 1000))) * 1000)) ∧
      (d = fl64 (33 / 1000) → (calculateVideoDelay m pts d now1 now2).1 = 31) ∧
      max 0 (d - 2 / 1000) * 1000 - 1 - 1 / 10 ^ 9 <
        (((calculateVideoDelay m pts d now1 now2).1 : Int) : ℚ) ∧
      (((calculateVideoDelay m pts d now1 now2).1 : Int) : ℚ) ≤
        max 0 (d - 2 / 1000) * 1000 + 1 / 10 ^ 9 := by
  have h := calculateVideoDelay_system_speed_one m pts d now1 now2 ha hp hs hd0 hd1
  refine ⟨h, ?_, ?_⟩
  · intro hd
    rw [h, hd, fl64_thirty_three_ms, fl64_two_thousandths, fl64_thirty_three_ms_less_overhead,
      max_eq_right (by norm_num), fl64_thirty_three_ms_in_ms]
    exact castInt_eq_of_bounds _ _ (by norm_num) (by norm_num) (by norm_num)
  · rw [h]
    exact system_delay_near_exact d hd1

/-- C8 at a concrete input: the constructed engine (audio clock invalid, speed 1) gives a
frame of 0.033 s the delay 31 ms. -/
theorem system_delay_at_speed_one_witness :
    (calculateVideoDelay Machine.new 0 (fl64 (33 / 1000)) 100 100).1 = 31 :=
  (system_delay_at_speed_one Machine.new 0 (fl64 (33 / 1000)) 100 100 rfl rfl rfl
    (fl64_pos _ (by norm_num)) (by rw [fl64_thirty_three_ms]; norm_num)).2.1 rfl

/-- C8 as stated does not hold: for the double 0.03 the engine returns 27 ms while
`max(0, d - 0.002) * 1000` rounded to the nearest integer is 28, and for the double 0.011
it returns 9 ms while `max(0, d - 0.002) * 1000` truncated is 8. -/
theorem system_delay_not_exact_value_rounded :
    (calculateVideoDelay Machine.new 0 (fl64 (3 / 100)) 100 100).1 = 27 ∧
      stdRound (max 0 (fl64 (3 / 100) - 2 / 1000) * 1000) = 28 ∧
      (calculateVideoDelay Machine.new 0 (fl64 (11 / 1000)) 100 100).1 = 9 ∧
      castInt (max 0 (fl64 (11 / 1000) - 2 / 1000) * 1000) = 8 := by
  refine ⟨?_, ?_, ?_, ?_⟩
  · rw [calculateVideoDelay_system_speed_one Machine.new 0 _ 100 100 rfl rfl rfl
      (fl64_pos _ (by norm_num)) (by rw [fl64_thirty_ms]; norm_num)]
    rw [fl64_thirty_ms, fl64_two_thousandths, fl64_thirty_ms_less_overhead,
      max_eq_right (by norm_num), fl64_thirty_ms_in_ms]
    exact castInt_eq_of_bounds _ _ (by norm_num) (by norm_num) (by norm_num)
  · rw [fl64_thirty_ms, max_eq_right (by norm_num)]
    exact stdRound_eq_of_bounds _ 28 (by norm_num) (by norm_num) (by norm_num)
  · rw [calculateVideoDelay_system_speed_one Machine.new 0 _ 100 100 rfl rfl rfl
      (fl64_pos _ (by norm_num)) (by rw [fl64_eleven_ms]; norm_num)]
    rw [fl64_eleven_ms, fl64_two_thousandths, fl64_eleven_ms_less_overhead,
      max_eq_right (by norm_num), fl64_eleven_ms_in_ms]
    exact castInt_eq_of_bounds _ _ (by norm_num) (by norm_num) (by norm_num)
  · rw [fl64_eleven_ms, max_eq_right (by norm_num)]
    exact castInt_eq_of_bounds _ 8 (by norm_num) (by norm_num) (by norm_num)

end Machine
/-! ### Sync engine with machine arithmetic: the delay by offset band -/

/-- The binary64 number nearest to 9.99. -/
theorem fl64_video_pts :
    fl64 (999 / 100) = 5623870034678907 / 562949953421312 := by
  apply fl64_eq _ _ (3) 5623870034678907
  · norm_num
  · norm_num
  · norm_num
  · norm_num [abs_lt]
  · norm_num

/-- The number 10 is a binary64 number. -/
theorem fl64_ten :
    fl64 (10) = 10 := by
  apply fl64_eq _ _ (3) 5629499534213120
  · norm_num
  · norm_num
  · norm_num
  · norm_num [abs_lt]
  · norm_num

/-- The double 9.99 is a binary64 number. -/
theorem fl64_video_pts_again :
    fl64 (5623870034678907 / 562949953421312) = 5623870034678907 / 562949953421312 := by
  apply fl64_eq _ _ (3) 5623870034678907
  · norm_num
  · norm_num
  · norm_num
  · norm_num [abs_lt]
  · norm_num

/-- The binary64 difference of 10 and the double 9.99. -/
theorem fl64_band_two_offset :
    fl64 (10 - 5623870034678907 / 562949953421312) = 5629499534213 / 562949953421312 := by
  apply fl64_eq _ _ (-7) 5764607523034112
  · norm_num
  · norm_num
  · norm_num
  · norm_num [abs_lt]
  · norm_num

/-- The binary64 number nearest to 0.092. -/
theorem fl64_ninety_two_ms :
    fl64 (92 / 1000) = 3314649325744685 / 36028797018963968 := by
  apply fl64_eq _ _ (-4) 6629298651489370
  · norm_num
  · norm_num
  · norm_num
  · norm_num [abs_lt]
  · norm_num

/-- The binary64 difference of the doubles 0.092 and 0.002. -/
theorem fl64_ninety_two_ms_less_overhead :
    fl64 (3314649325744685 / 36028797018963968 - 1152921504606847 / 576460752303423488) = 3242591731706757 / 36028797018963968 := by
  apply fl64_eq _ _ (-4) 6485183463413514
  · norm_num
  · norm_num
  · norm_num
  · norm_num [abs_lt]
  · norm_num

/-- The binary64 product of that difference and 1000. -/
theorem fl64_ninety_two_ms_in_ms :
    fl64 (3242591731706757 / 36028797018963968 * 1000) = 90 := by
  apply fl64_eq _ _ (6) 6333186975989760
  · norm_num
  · norm_num
  · norm_num
  · norm_num [abs_lt]
  · norm_num

/-- The binary64 number nearest to 0.7. -/
theorem fl64_seven_tenths :
    fl64 (7 / 10) = 3152519739159347 / 4503599627370496 := by
  apply fl64_eq _ _ (-1) 6305039478318694
  · norm_num
  · norm_num
  · norm_num
  · norm_num [abs_lt]
  · norm_num

/-- The binary64 product of 90 and the double 0.7. -/
theorem fl64_ninety_times_seven_tenths :
    fl64 (90 * (3152519739159347 / 4503599627370496)) = 8866461766385663 / 140737488355328 := by
  apply fl64_eq _ _ (5) 8866461766385663
  · norm_num
  · norm_num
  · norm_num
  · norm_num [abs_lt]
  · norm_num

namespace Machine

/-- The fallback threshold is the number 1/2. -/
theorem FALLBACK_TO_SYSTEM_THRESHOLD_eq : FALLBACK_TO_SYSTEM_THRESHOLD = 1 / 2 := by
  unfold FALLBACK_TO_SYSTEM_THRESHOLD
  apply fl64_eq _ _ (-1) 4503599627370496
  · norm_num
  · norm_num
  · norm_num
  · norm_num [abs_lt]
  · norm_num

/-- The no-sync threshold is the number 5. -/
theorem AV_NOSYNC_THRESHOLD_eq : AV_NOSYNC_THRESHOLD = 5 := by
  unfold AV_NOSYNC_THRESHOLD
  apply fl64_eq _ _ 2 5629499534213120
  · norm_num
  · norm_num
  · norm_num
  · norm_num [abs_lt]
  · norm_num

/-- The basic delay, written with the nominal delay and the overhead. -/
theorem calculateBasicDelay_eq_nominal (m : AVSyncManager) (e : ℚ) :
    calculateBasicDelay m e =
      toInt32 (fl64 (max 0 (fl64 (nominalDelay m e - getSpeedAdjustedSystemDelay m)) * 1000)) :=
  rfl

/-- The corrected delay, written with the nominal delay and the overhead. -/
theorem calculateCorrectedDelay_eq_nominal (m : AVSyncManager) (o e : ℚ) :
    calculateCorrectedDelay m o e =
      toInt32 (fl64 (max 0 (fl64 (fl64 (nominalDelay m e *
        (if o > 0 then DELAY_REDUCTION_FACTOR else DELAY_INCREASE_FACTOR)) -
          getSpeedAdjustedSystemDelay m)) * 1000)) := by
  unfold calculateCorrectedDelay nominalDelay
  simp only
  split_ifs <;> rfl

/-- The basic delay depends on the state through the speed only. -/
theorem calculateBasicDelay_congr (m m2 : AVSyncManager) (e : ℚ) (h : m2.speed_ = m.speed_) :
    calculateBasicDelay m2 e = calculateBasicDelay m e := by
  unfold calculateBasicDelay getSpeedAdjustedSystemDelay
  rw [h]

/-- The corrected delay depends on the state through the speed only. -/
theorem calculateCorrectedDelay_congr (m m2 : AVSyncManager) (o e : ℚ)
    (h : m2.speed_ = m.speed_) :
    calculateCorrectedDelay m2 o e = calculateCorrectedDelay m o e := by
  unfold calculateCorrectedDelay getSpeedAdjustedSystemDelay
  rw [h]

/-- The delay of `syncDelay` on the PTS path when the measured offset is within the
fallback threshold: the five-way choice of the source, on the state `m`. -/
theorem syncDelay_good_delay (m : AVSyncManager) (e n : ℚ)
    (hc : ¬ (m.audioClock_.isValid = false ∨ m.forceSystemMode_ = true ∨
      shouldUsePtsSync m = false))
    (hb : ¬ |calculateAVOffset m n| > FALLBACK_TO_SYSTEM_THRESHOLD) :
    (syncDelay m e n).1 =
      (if |calculateAVOffset m n| < AV_SYNC_THRESHOLD_MIN then calculateBasicDelay m e
        else if |calculateAVOffset m n| < AV_SYNC_THRESHOLD_HALF then
          toInt32 (fl64 ((calculateBasicDelay m e : ℚ) * fl64 (7 / 10)))
        else if |calculateAVOffset m n| < AV_SYNC_THRESHOLD_MAX then
          calculateCorrectedDelay m (calculateAVOffset m n) e
        else if |calculateAVOffset m n| > AV_NOSYNC_THRESHOLD then calculateBasicDelay m e
        else calculateCorrectedDelay m (calculateAVOffset m n) e) := by
  unfold syncDelay
  rw [if_neg hc]
  simp only
  rw [if_neg hb]
  have h1 : ∀ x : ℚ, calculateBasicDelay ({ m.logSyncOffset (calculateAVOffset m n) with
      consecutiveBadDelays_ := 0, lastGoodOffset_ := x } : AVSyncManager) e =
      calculateBasicDelay m e := fun _ => calculateBasicDelay_congr m _ e rfl
  have h2 : ∀ x : ℚ, calculateCorrectedDelay ({ m.logSyncOffset (calculateAVOffset m n) with
      consecutiveBadDelays_ := 0, lastGoodOffset_ := x } : AVSyncManager)
      (calculateAVOffset m n) e = calculateCorrectedDelay m (calculateAVOffset m n) e :=
    fun _ => calculateCorrectedDelay_congr m _ _ e rfl
  simp only [h1, h2]

/-- The delay by offset band, on the PTS path with the offset within the fallback
threshold. -/
theorem syncDelay_by_band (m : AVSyncManager) (e n : ℚ)
    (hc : ¬ (m.audioClock_.isValid = false ∨ m.forceSystemMode_ = true ∨
      shouldUsePtsSync m = false))
    (hb : ¬ |calculateAVOffset m n| > 1 / 2) :
    (syncDelay m e n).1 =
      (if |calculateAVOffset m n| < fl64 (8 / 1000) then calculateBasicDelay m e
        else if |calculateAVOffset m n| < fl64 (25 / 1000) then
          toInt32 (fl64 ((calculateBasicDelay m e : ℚ) * fl64 (7 / 10)))
        else calculateCorrectedDelay m (calculateAVOffset m n) e) := by
  rw [syncDelay_good_delay m e n hc (by rw [FALLBACK_TO_SYSTEM_THRESHOLD_eq]; exact hb)]
  rw [AV_NOSYNC_THRESHOLD_eq]
  unfold AV_SYNC_THRESHOLD_MIN AV_SYNC_THRESHOLD_HALF
  have hle : |calculateAVOffset m n| ≤ 1 / 2 := not_lt.mp hb
  generalize calculateAVOffset m n = o at hle ⊢
  by_cases h1 : |o| < fl64 (8 / 1000)
  · rw [if_pos h1, if_pos h1]
  · rw [if_neg h1, if_neg h1]
    by_cases h2 : |o| < fl64 (25 / 1000)
    · rw [if_pos h2, if_pos h2]
    · rw [if_neg h2, if_neg h2]
      by_cases h3 : |o| < AV_SYNC_THRESHOLD_MAX
      · rw [if_pos h3]
      · rw [if_neg h3, if_neg (by linarith)]

end Machine
namespace Machine

/-- A number whose binary64 value is below the double 0.001 in magnitude is below 0.002
in magnitude. -/
theorem abs_lt_of_speed_test (x : ℚ) (h : |fl64 x| < SPEED_TOLERANCE) : |x| < 2 / 1000 := by
  have h1 : |fl64 x - x| ≤ |x| / 2 ^ 53 := roundFloat_error 53 x
  have h2 := (fl64_bounds (1 / 1000) (by norm_num)).2
  unfold SPEED_TOLERANCE at h
  generalize fl64 (1 / 1000) = t at h h2
  generalize fl64 x = y at h h1
  rcases abs_cases x with ⟨e1, s1⟩ | ⟨e1, s1⟩ <;>
    rcases abs_cases y with ⟨e2, s2⟩ | ⟨e2, s2⟩ <;>
    rcases abs_cases (y - x) with ⟨e3, s3⟩ | ⟨e3, s3⟩ <;>
    rw [e1] at h1 ⊢ <;> rw [e2] at h <;> rw [e3] at h1 <;> norm_num at h1 h2 <;> linarith

/-- The nominal delay is `duration / speed` up to 0.5 percent: the closed forms are chosen
for speeds within 0.002 of 1, 2, 0.5 and 1.5, and every operation is rounded. -/
theorem nominalDelay_near_quotient (m : AVSyncManager) (e : ℚ) (he : 0 ≤ e)
    (hs : 0 < m.speed_) :
    |nominalDelay m e - e / m.speed_| ≤ e / m.speed_ * (5 / 1000) := by
  have hq : 0 ≤ e / m.speed_ := div_nonneg he hs.le
  have he2 : e = e / m.speed_ * m.speed_ := by
    field_simp
  have key : ∀ c : ℚ, |m.speed_ - c| < 2 / 1000 →
      e / m.speed_ * (c - 2 / 1000) ≤ e ∧ e ≤ e / m.speed_ * (c + 2 / 1000) := by
    intro c hc
    rw [abs_lt] at hc
    constructor
    · calc e / m.speed_ * (c - 2 / 1000) ≤ e / m.speed_ * m.speed_ :=
          mul_le_mul_of_nonneg_left (by linarith) hq
        _ = e := he2.symm
    · calc e = e / m.speed_ * m.speed_ := he2
        _ ≤ e / m.speed_ * (c + 2 / 1000) := mul_le_mul_of_nonneg_left (by linarith) hq
  unfold nominalDelay
  generalize e / m.speed_ = q at hq key ⊢
  split_ifs with t1 t2 t3 t4
  · obtain ⟨k1, k2⟩ := key 1 (abs_lt_of_speed_test _ t1)
    rw [abs_le]
    constructor <;> linarith
  · obtain ⟨k1, k2⟩ := key 2 (abs_lt_of_speed_test _ t2)
    obtain ⟨b1, b2⟩ := fl64_bounds (e * (1 / 2)) (by linarith)
    generalize fl64 (e * (1 / 2)) = N at b1 b2 ⊢
    norm_num at b1 b2
    rw [abs_le]
    constructor <;> linarith
  · obtain ⟨k1, k2⟩ := key (1 / 2) (abs_lt_of_speed_test _ t3)
    obtain ⟨b1, b2⟩ := fl64_bounds (e * 2) (by linarith)
    generalize fl64 (e * 2) = N at b1 b2 ⊢
    norm_num at b1 b2
    rw [abs_le]
    constructor <;> linarith
  · obtain ⟨k1, k2⟩ := key (3 / 2) (abs_lt_of_speed_test _ t4)
    obtain ⟨b1, b2⟩ := fl64_bounds (e * 2) (by linarith)
    have hM : 0 ≤ fl64 (e * 2) := fl64_nonneg _ (by linarith)
    obtain ⟨c1, c2⟩ := fl64_bounds (fl64 (e * 2) / 3) (by linarith)
    generalize fl64 (fl64 (e * 2) / 3) = N at c1 c2 ⊢
    generalize fl64 (e * 2) = M at b1 b2 c1 c2 hM
    norm_num at b1 b2 c1 c2
    rw [abs_le]
    constructor <;> linarith
  · obtain ⟨b1, b2⟩ := fl64_bounds q hq
    generalize fl64 q = N at b1 b2 ⊢
    norm_num at b1 b2
    rw [abs_le]
    constructor <;> linarith

end Machine
namespace Machine

/-- A valid audio block stamps the audio clock. -/
theorem updateAudioClock_valid (m : AVSyncManager) (pts duration now : ℚ)
    (h1 : AVSyncManager.isValidPts pts = true)
    (h2 : AVSyncManager.isValidDuration duration = true) :
    Machine.updateAudioClock m pts duration now =
      { m with audioClock_ := clockUpdate m.audioClock_ pts duration now m.speed_ } := by
  unfold Machine.updateAudioClock
  rw [h1, h2]
  rfl

/-- A frame with a valid pts stamps the video clock. -/
theorem afterVideoUpdate_valid (m : AVSyncManager) (pts duration now1 : ℚ)
    (h1 : AVSyncManager.isValidPts pts = true) :
    afterVideoUpdate m pts duration now1 =
      { m with videoClock_ :=
          clockUpdate m.videoClock_ pts (effectiveDurationOf m duration) now1 m.speed_ } := by
  unfold afterVideoUpdate
  rw [if_pos h1]

/-- Fields of a clock after an update with a pts other than `AV_NOPTS_VALUE`. -/
theorem clockUpdate_fields (c : Clock) (pts d now speed : ℚ) (h : pts ≠ AV_NOPTS_VALUE) :
    (clockUpdate c pts d now speed).isValid = true ∧
      (clockUpdate c pts d now speed).pts = pts ∧
      (clockUpdate c pts d now speed).systemTime = now ∧
      (clockUpdate c pts d now speed).speed = speed := by
  refine ⟨?_, rfl, rfl, rfl⟩
  simp only [clockUpdate, decide_eq_true_eq]
  exact h

/-- A non-negative pts is valid. -/
theorem nonneg_pts_is_valid (pts : ℚ) (h : 0 ≤ pts) : AVSyncManager.isValidPts pts = true := by
  simp only [AVSyncManager.isValidPts, Bool.and_eq_true, decide_eq_true_eq, AV_NOPTS_VALUE]
  refine ⟨?_, h⟩
  intro hc
  rw [hc] at h
  norm_num at h

/-- A non-negative pts is not `AV_NOPTS_VALUE`. -/
theorem ne_nopts_of_nonneg (pts : ℚ) (h : 0 ≤ pts) : pts ≠ AV_NOPTS_VALUE := by
  intro hc
  rw [hc] at h
  unfold AV_NOPTS_VALUE at h
  norm_num at h

/-- The media time of a valid clock at speed 1, read at the instant it was stamped, is
its pts. -/
theorem clockGetCurrentMediaTime_at_stamp (c : Clock) (t : ℚ) (hv : c.isValid = true)
    (hs : c.speed = 1) (ht : c.systemTime = t) :
    clockGetCurrentMediaTime c t = fl64 c.pts := by
  unfold clockGetCurrentMediaTime
  rw [if_neg (by rw [hv]; simp)]
  simp only
  rw [hs, if_pos speed_one_test, ht, sub_self, fl64_zero, add_zero]

/-- With both clocks valid and at most three bad offsets in a row the gate is open. -/
theorem shouldUsePtsSync_of_few_bad (m : AVSyncManager) (ha : m.audioClock_.isValid = true)
    (hv : m.videoClock_.isValid = true) (hb : ¬ m.consecutiveBadDelays_ > 3) :
    shouldUsePtsSync m = true := by
  unfold shouldUsePtsSync
  rw [if_neg (by rw [ha, hv]; simp), if_neg hb]
  split_ifs <;> rfl

/-- Fields of the example state `bandTwoState`. -/
theorem bandTwoState_fields :
    bandTwoState.speed_ = 1 ∧ bandTwoState.forceSystemMode_ = false ∧
      bandTwoState.consecutiveBadDelays_ = 0 ∧
      bandTwoState.audioClock_.isValid = true ∧ bandTwoState.audioClock_.pts = 10 ∧
      bandTwoState.audioClock_.systemTime = 100 ∧ bandTwoState.audioClock_.speed = 1 ∧
      bandTwoState.videoClock_.isValid = true ∧
      bandTwoState.videoClock_.pts = fl64 (999 / 100) ∧
      bandTwoState.videoClock_.systemTime = 100 ∧ bandTwoState.videoClock_.speed = 1 := by
  have hd : AVSyncManager.isValidDuration (fl64 (2 / 100)) = true := by
    have h := fl64_bounds (2 / 100) (by norm_num)
    simp only [AVSyncManager.isValidDuration, Bool.and_eq_true, decide_eq_true_eq]
    exact ⟨fl64_pos _ (by norm_num), by linarith [h.2]⟩
  have hv : (0 : ℚ) ≤ fl64 (999 / 100) := fl64_nonneg _ (by norm_num)
  have hA := updateAudioClock_valid Machine.new 10 (fl64 (2 / 100)) 100
    (nonneg_pts_is_valid 10 (by norm_num)) hd
  have hB := afterVideoUpdate_valid (Machine.updateAudioClock Machine.new 10 (fl64 (2 / 100)) 100)
    (fl64 (999 / 100)) (fl64 (92 / 1000)) 100 (nonneg_pts_is_valid _ hv)
  obtain ⟨a1, a2, a3, a4⟩ := clockUpdate_fields Machine.new.audioClock_ 10 (fl64 (2 / 100)) 100
    Machine.new.speed_ (ne_nopts_of_nonneg 10 (by norm_num))
  obtain ⟨v1, v2, v3, v4⟩ := clockUpdate_fields
    (Machine.updateAudioClock Machine.new 10 (fl64 (2 / 100)) 100).videoClock_
    (fl64 (999 / 100))
    (effectiveDurationOf (Machine.updateAudioClock Machine.new 10 (fl64 (2 / 100)) 100)
      (fl64 (92 / 1000))) 100
    (Machine.updateAudioClock Machine.new 10 (fl64 (2 / 100)) 100).speed_
    (ne_nopts_of_nonneg _ hv)
  have s1 : (Machine.updateAudioClock Machine.new 10 (fl64 (2 / 100)) 100).speed_ = 1 := by
    rw [hA]
    rfl
  unfold bandTwoState
  rw [hB]
  refine ⟨s1, ?_, ?_, ?_, ?_, ?_, ?_, v1, v2, v3, v4.trans s1⟩
  · rw [hA]; rfl
  · rw [hA]; rfl
  · rw [hA]; exact a1
  · rw [hA]; exact a2
  · rw [hA]; exact a3
  · rw [hA]; exact a4

/-- In `bandTwoState` the audio clock is 10 s and the video clock the double 9.99 s, so
the offset read at time 100 is their binary64 difference, just below 10 ms. -/
theorem bandTwoState_offset :
    calculateAVOffset bandTwoState 100 = 5629499534213 / 562949953421312 := by
  obtain ⟨-, -, -, a1, a2, a3, a4, v1, v2, v3, v4⟩ := bandTwoState_fields
  unfold calculateAVOffset
  rw [if_neg (by rw [a1, v1]; simp)]
  simp only
  rw [clockGetCurrentMediaTime_at_stamp _ 100 a1 a4 a3,
    clockGetCurrentMediaTime_at_stamp _ 100 v1 v4 v3, a2, v2, fl64_ten, fl64_video_pts,
    fl64_video_pts_again, fl64_band_two_offset]

/-- In `bandTwoState` the PTS path is taken. -/
theorem bandTwoState_on_pts_path :
    ¬ (bandTwoState.audioClock_.isValid = false ∨ bandTwoState.forceSystemMode_ = true ∨
      shouldUsePtsSync bandTwoState = false) := by
  obtain ⟨-, f, c, a1, -, -, -, v1, -, -, -⟩ := bandTwoState_fields
  rw [a1, f, shouldUsePtsSync_of_few_bad _ a1 v1 (by rw [c]; norm_num)]
  simp

/-- In `bandTwoState` the basic delay of a frame of 0.092 s is 90 ms. -/
theorem bandTwoState_basic_delay :
    calculateBasicDelay bandTwoState (fl64 (92 / 1000)) = 90 := by
  obtain ⟨s, -⟩ := bandTwoState_fields
  unfold calculateBasicDelay getSpeedAdjustedSystemDelay
  rw [s, if_pos speed_one_test, if_pos speed_one_test]
  simp only
  unfold SYSTEM_DELAY_ESTIMATE
  rw [fl64_ninety_two_ms, fl64_two_thousandths, fl64_ninety_two_ms_less_overhead,
    max_eq_right (by norm_num), fl64_ninety_two_ms_in_ms,
    (toInt32_of_nonneg 90 (by norm_num) (by norm_num)).1]
  exact castInt_eq_of_bounds _ _ (by norm_num) (by norm_num) (by norm_num)

/-- The offset of `bandTwoState` lies in the second band. -/
theorem bandTwoState_in_second_band :
    ¬ |(5629499534213 / 562949953421312 : ℚ)| < fl64 (8 / 1000) ∧
      |(5629499534213 / 562949953421312 : ℚ)| < fl64 (25 / 1000) ∧
      ¬ |(5629499534213 / 562949953421312 : ℚ)| > 1 / 2 := by
  have h1 := (fl64_bounds (8 / 1000) (by norm_num)).2
  have h2 := (fl64_bounds (25 / 1000) (by norm_num)).1
  rw [abs_of_pos (by norm_num)]
  refine ⟨?_, ?_, ?_⟩
  · rw [not_lt]
    norm_num at h1 ⊢
    linarith
  · norm_num at h2 ⊢
    linarith
  · norm_num

/-- In `bandTwoState` a frame of 0.092 s gets 62 ms before fine-tuning. -/
theorem bandTwoState_delay : (syncDelay bandTwoState (fl64 (92 / 1000)) 100).1 = 62 := by
  obtain ⟨b1, b2, b3⟩ := bandTwoState_in_second_band
  rw [syncDelay_by_band _ _ _ bandTwoState_on_pts_path (by rw [bandTwoState_offset]; exact b3),
    bandTwoState_offset, if_neg b1, if_pos b2, bandTwoState_basic_delay]
  push_cast
  rw [fl64_seven_tenths, fl64_ninety_times_seven_tenths,
    (toInt32_of_nonneg _ (by norm_num) (by norm_num)).1]
  exact castInt_eq_of_bounds _ _ (by norm_num) (by norm_num) (by norm_num)

end Machine
/-! ### Binary64 values of the example of the corrected delay -/

/-- The binary64 number nearest to 0.04. -/
theorem fl64_forty_ms :
    fl64 (4 / 100) = 5764607523034235 / 144115188075855872 := by
  apply fl64_eq _ _ (-5) 5764607523034235
  · norm_num
  · norm_num
  · norm_num
  · norm_num [abs_lt]
  · norm_num

/-- The binary64 number nearest to 1.4. -/
theorem fl64_fourteen_tenths :
    fl64 (14 / 10) = 3152519739159347 / 2251799813685248 := by
  apply fl64_eq _ _ (0) 6305039478318694
  · norm_num
  · norm_num
  · norm_num
  · norm_num [abs_lt]
  · norm_num

/-- The binary64 product of the doubles 0.04 and 1.4. -/
theorem fl64_forty_ms_grown :
    fl64 (5764607523034235 / 144115188075855872 * (3152519739159347 / 2251799813685248)) = 1008806316530991 / 18014398509481984 := by
  apply fl64_eq _ _ (-5) 8070450532247928
  · norm_num
  · norm_num
  · norm_num
  · norm_num [abs_lt]
  · norm_num

/-- The binary64 difference of that product and the double 0.002. -/
theorem fl64_forty_ms_grown_less_overhead :
    fl64 (1008806316530991 / 18014398509481984 - 1152921504606847 / 576460752303423488) = 972777519512027 / 18014398509481984 := by
  apply fl64_eq _ _ (-5) 7782220156096216
  · norm_num
  · norm_num
  · norm_num
  · norm_num [abs_lt]
  · norm_num

/-- The binary64 product of that difference and 1000. -/
theorem fl64_forty_ms_grown_in_ms :
    fl64 (972777519512027 / 18014398509481984 * 1000) = 7599824371187711 / 140737488355328 := by
  apply fl64_eq _ _ (5) 7599824371187711
  · norm_num
  · norm_num
  · norm_num
  · norm_num [abs_lt]
  · norm_num

namespace Machine

/-- The overhead is `0.002 / speed` up to 0.6 percent. -/
theorem getSpeedAdjustedSystemDelay_near_quotient (m : AVSyncManager) (hs : 0 < m.speed_) :
    |getSpeedAdjustedSystemDelay m - 2 / 1000 / m.speed_| ≤ 2 / 1000 / m.speed_ * (6 / 1000) := by
  have h0 : getSpeedAdjustedSystemDelay m = nominalDelay m SYSTEM_DELAY_ESTIMATE := rfl
  have h1 := nominalDelay_near_quotient m SYSTEM_DELAY_ESTIMATE
    (fl64_nonneg _ (by norm_num)) hs
  rw [h0]
  unfold SYSTEM_DELAY_ESTIMATE at h1 ⊢
  rw [fl64_two_thousandths] at h1 ⊢
  have hw : (1152921504606847 / 576460752303423488 : ℚ) / m.speed_ =
      1152921504606847 / 576460752303423488 * 500 * (2 / 1000 / m.speed_) := by
    field_simp
    ring
  have hw0 : (0 : ℚ) ≤ 2 / 1000 / m.speed_ := div_nonneg (by norm_num) hs.le
  rw [hw] at h1
  generalize nominalDelay m (1152921504606847 / 576460752303423488) = N at h1 ⊢
  generalize (2 / 1000 / m.speed_ : ℚ) = w at h1 hw0 ⊢
  rw [abs_le] at h1 ⊢
  obtain ⟨h2, h3⟩ := h1
  constructor <;> linarith

/-- At speed 1 the corrected delay of a frame of 0.04 s for an offset that is not
positive is 53 ms. -/
theorem corrected_delay_of_forty_ms :
    calculateCorrectedDelay Machine.new (-(3 / 100)) (fl64 (4 / 100)) = 53 := by
  unfold calculateCorrectedDelay getSpeedAdjustedSystemDelay
  rw [new_speed, if_pos speed_one_test, if_pos speed_one_test]
  simp only
  rw [if_neg (by norm_num : ¬ (-(3 / 100) : ℚ) > 0)]
  unfold SYSTEM_DELAY_ESTIMATE DELAY_INCREASE_FACTOR
  rw [fl64_forty_ms, fl64_fourteen_tenths, fl64_forty_ms_grown, fl64_two_thousandths,
    fl64_forty_ms_grown_less_overhead, max_eq_right (by norm_num), fl64_forty_ms_grown_in_ms,
    (toInt32_of_nonneg _ (by norm_num) (by norm_num)).1]
  exact castInt_eq_of_bounds _ _ (by norm_num) (by norm_num) (by norm_num)

/-- C25 (amended): on the PTS-sync path (audio clock valid, force-system-mode off, gate
open) with `|offset|` not above the fallback threshold 0.5 s, the delay before
fine-tuning is the basic delay when `|offset|` is below the double 0.008, the product of
the basic delay and the double 0.7, computed in binary64 and truncated toward zero to an
`int`, when `|offset|` is below the double 0.025, and otherwise the corrected delay.  The
basic delay is the nominal delay minus the system overhead, floored at 0, times 1000 and
truncated to an `int`; the corrected delay multiplies the nominal delay by the double
0.6 when the offset is positive and by the double 1.4 when it is not, before the
overhead is subtracted; every operation is rounded to binary64.  The nominal delay is
`duration / speed` and the overhead `0.002 / speed`, each up to 0.6 percent (closed forms
are used for speeds near 1, 2, 0.5 and 1.5). -/
theorem pts_delay_by_offset_band (m : AVSyncManager) (e n : ℚ)
    (hc : ¬ (m.audioClock_.isValid = false ∨ m.forceSystemMode_ = true ∨
      shouldUsePtsSync m = false))
    (hb : ¬ |calculateAVOffset m n| > 1 / 2) :
    (syncDelay m e n).1 =
        (if |calculateAVOffset m n| < fl64 (8 / 1000) then
          toInt32 (fl64 (max 0 (fl64 (nominalDelay m e - getSpeedAdjustedSystemDelay m)) * 1000))
        else if |calculateAVOffset m n| < fl64 (25 / 1000) then
          toInt32 (fl64 (((toInt32 (fl64 (max 0
            (fl64 (nominalDelay m e - getSpeedAdjustedSystemDelay m)) * 1000)) : Int) : ℚ) *
              fl64 (7 / 10)))
        else
          toInt32 (fl64 (max 0 (fl64 (fl64 (nominalDelay m e *
            (if calculateAVOffset m n > 0 then fl64 (6 / 10) else fl64 (14 / 10))) -
              getSpeedAdjustedSystemDelay m)) * 1000))) ∧
      (0 ≤ e → 0 < m.speed_ →
        |nominalDelay m e - e / m.speed_| ≤ e / m.speed_ * (5 / 1000)) ∧
      (0 < m.speed_ →
        |getSpeedAdjustedSystemDelay m - 2 / 1000 / m.speed_| ≤
          2 / 1000 / m.speed_ * (6 / 1000)) := by
  refine ⟨?_, nominalDelay_near_quotient m e, getSpeedAdjustedSystemDelay_near_quotient m⟩
  rw [syncDelay_by_band m e n hc hb, calculateBasicDelay_eq_nominal,
    calculateCorrectedDelay_eq_nominal]
  rfl

/-- C25 at a concrete state: in `bandTwoState` (speed 1, offset just below 10 ms, second
band) a frame of 0.092 s gets the truncated binary64 product of its basic delay and
0.7. -/
theorem pts_delay_by_offset_band_witness :
    (syncDelay bandTwoState (fl64 (92 / 1000)) 100).1 =
      (if |calculateAVOffset bandTwoState 100| < fl64 (8 / 1000) then
          toInt32 (fl64 (max 0 (fl64 (nominalDelay bandTwoState (fl64 (92 / 1000)) -
            getSpeedAdjustedSystemDelay bandTwoState)) * 1000))
        else if |calculateAVOffset bandTwoState 100| < fl64 (25 / 1000) then
          toInt32 (fl64 (((toInt32 (fl64 (max 0
            (fl64 (nominalDelay bandTwoState (fl64 (92 / 1000)) -
              getSpeedAdjustedSystemDelay bandTwoState)) * 1000)) : Int) : ℚ) *
              fl64 (7 / 10)))
        else
          toInt32 (fl64 (max 0 (fl64 (fl64 (nominalDelay bandTwoState (fl64 (92 / 1000)) *
            (if calculateAVOffset bandTwoState 100 > 0 then fl64 (6 / 10)
              else fl64 (14 / 10))) -
              getSpeedAdjustedSystemDelay bandTwoState)) * 1000))) :=
  (pts_delay_by_offset_band bandTwoState (fl64 (92 / 1000)) 100 bandTwoState_on_pts_path
    (by rw [bandTwoState_offset]; exact bandTwoState_in_second_band.2.2)).1

/-- C25 as stated does not hold: in `bandTwoState` the PTS path is taken, the offset is
between 0.008 and 0.025, the basic delay of a frame of 0.092 s is 90 ms, and the delay
before fine-tuning is 62 ms, not 90 x 0.7 = 63 ms; and at speed 1 the corrected delay of
a frame of 0.04 s for a negative offset is 53 ms, not (0.04 x 1.4 - 0.002) x 1000 =
54 ms. -/
theorem band_two_delay_below_exact_product :
    ¬ (bandTwoState.audioClock_.isValid = false ∨ bandTwoState.forceSystemMode_ = true ∨
        shouldUsePtsSync bandTwoState = false) ∧
      8 / 1000 ≤ |calculateAVOffset bandTwoState 100| ∧
      |calculateAVOffset bandTwoState 100| < 25 / 1000 ∧
      calculateBasicDelay bandTwoState (fl64 (92 / 1000)) = 90 ∧
      (syncDelay bandTwoState (fl64 (92 / 1000)) 100).1 = 62 ∧
      castInt ((90 : ℚ) * (7 / 10)) = 63 ∧
      calculateCorrectedDelay Machine.new (-(3 / 100)) (fl64 (4 / 100)) = 53 ∧
      castInt (max 0 (4 / 100 * (14 / 10) - 2 / 1000) * 1000) = 54 := by
  refine ⟨bandTwoState_on_pts_path, ?_, ?_, bandTwoState_basic_delay, bandTwoState_delay, ?_,
    corrected_delay_of_forty_ms, ?_⟩
  · rw [bandTwoState_offset, abs_of_pos (by norm_num)]
    norm_num
  · rw [bandTwoState_offset, abs_of_pos (by norm_num)]
    norm_num
  · exact castInt_eq_of_bounds _ _ (by norm_num) (by norm_num) (by norm_num)
  · rw [max_eq_right (by norm_num)]
    exact castInt_eq_of_bounds _ _ (by norm_num) (by norm_num) (by norm_num)

end Machine
/-! ### Sync engine with machine arithmetic: fine-tuning -/

namespace Machine

/-- A symmetric clamp does not increase the magnitude. -/
theorem qBound_symmetric_abs_le (M a : Int) (hM : 0 ≤ M) : |qBound (-M) a M| ≤ |a| := by
  unfold qBound
  rcases max_cases (-M) (min M a) with ⟨e1, s1⟩ | ⟨e1, s1⟩ <;>
    rcases min_cases M a with ⟨e2, s2⟩ | ⟨e2, s2⟩ <;>
    rcases abs_cases a with ⟨e3, s3⟩ | ⟨e3, s3⟩ <;>
    rw [e1, e3] <;> rw [e2] at s1 <;>
    first
      | (rw [e2]; rw [abs_le]; constructor <;> omega)
      | (rw [abs_le]; constructor <;> omega)

/-- The dead-band threshold, the double 0.005, is not below 0.005. -/
theorem FINE_TUNE_RANGE_ge : 5 / 1000 ≤ FINE_TUNE_RANGE := by
  have h : FINE_TUNE_RANGE = 5764607523034235 / 1152921504606846976 := by
    unfold FINE_TUNE_RANGE
    apply fl64_eq _ _ (-8) 5764607523034235
    · norm_num
    · norm_num
    · norm_num
    · norm_num [abs_lt]
    · norm_num
  rw [h]
  norm_num

/-- Inside the dead-band, or with an offset history that is not stable, `applyFineTune`
returns the base delay. -/
theorem applyFineTune_of_dead_band (m : AVSyncManager) (b : Int) (o : ℚ)
    (h : |o| < FINE_TUNE_RANGE ∨ isSystemStable m = false) : applyFineTune m b o = b := by
  unfold applyFineTune
  by_cases h1 : |o| < FINE_TUNE_RANGE
  · rw [if_pos h1]
  · rw [if_neg h1]
    rcases h with h | h
    · exact absurd h h1
    · rw [if_pos h]

/-- The proportional correction before the cap: for a magnitude `a` of the offset below
the double 0.025 the binary64 product of `a` and `150 / speed` is between 0 and
`10 / speed`. -/
theorem fine_tune_product_bound (s a : ℚ) (hs : 0 < s) (ha0 : 0 ≤ a)
    (ha : a < AV_SYNC_THRESHOLD_HALF) :
    0 ≤ fl64 (a * fl64 (150 / s)) ∧ fl64 (a * fl64 (150 / s)) ≤ 10 / s := by
  have hq : 0 < 10 / s := div_pos (by norm_num) hs
  have e : 150 / s = 15 * (10 / s) := by
    field_simp
    ring
  rw [e]
  generalize 10 / s = q at hq ⊢
  have hF0 : 0 ≤ fl64 (15 * q) := fl64_nonneg _ (by linarith)
  have hF := (fl64_bounds (15 * q) (by linarith)).2
  have hT := (fl64_bounds (25 / 1000) (by norm_num)).2
  unfold AV_SYNC_THRESHOLD_HALF at ha
  have hx0 : 0 ≤ a * fl64 (15 * q) := mul_nonneg ha0 hF0
  have hx := (fl64_bounds (a * fl64 (15 * q)) hx0).2
  have h1 : a * fl64 (15 * q) ≤ a * (15 * q * (1 + 1 / 2 ^ 53)) :=
    mul_le_mul_of_nonneg_left hF ha0
  have h2 : a * (15 * q * (1 + 1 / 2 ^ 53)) ≤
      25 / 1000 * (1 + 1 / 2 ^ 53) * (15 * q * (1 + 1 / 2 ^ 53)) :=
    mul_le_mul_of_nonneg_right (by linarith) (by positivity)
  refine ⟨fl64_nonneg _ hx0, ?_⟩
  generalize fl64 (a * fl64 (15 * q)) = x at hx ⊢
  generalize a * fl64 (15 * q) = y at hx h1
  generalize a * (15 * q * (1 + 1 / 2 ^ 53)) = z at h1 h2
  norm_num at hx h2
  linarith

/-- The correction of `applyFineTune` before the cap, as an `int`: at most
`trunc(10 / speed)` in magnitude when `10 / speed` fits in an `int`. -/
theorem fine_tune_adjustment_bound (s o : ℚ) (hs : 0 < s) (hcap : 10 / s ≤ 2147483647)
    (ho : |o| < AV_SYNC_THRESHOLD_HALF) :
    |(if o > 0 then wrapInt32 (-toInt32 (fl64 (o * fl64 (150 / s))))
      else toInt32 (fl64 (-o * fl64 (150 / s))))| ≤ castInt (10 / s) := by
  have hK : castInt (10 / s) ≤ 2147483647 := by
    have h1 := castInt_le_self (div_pos (by norm_num : (0 : ℚ) < 10) hs).le
    have h2 : ((castInt (10 / s) : Int) : ℚ) ≤ 2147483647 := le_trans h1 hcap
    exact_mod_cast h2
  by_cases hpos : o > 0
  · rw [if_pos hpos]
    rw [abs_of_pos hpos] at ho
    obtain ⟨b0, b1⟩ := fine_tune_product_bound s o hs hpos.le ho
    have hmono := castInt_mono b0 b1
    have hnn := castInt_nonneg b0
    rw [(toInt32_of_nonneg _ b0 (by linarith)).1,
      wrapInt32_of_range _ (by unfold INT_MIN; omega) (by unfold INT_MAX; omega), abs_neg,
      abs_of_nonneg hnn]
    exact hmono
  · rw [if_neg hpos]
    have hle : o ≤ 0 := not_lt.mp hpos
    rw [abs_of_nonpos hle] at ho
    obtain ⟨b0, b1⟩ := fine_tune_product_bound s (-o) hs (by linarith) ho
    have hmono := castInt_mono b0 b1
    have hnn := castInt_nonneg b0
    rw [(toInt32_of_nonneg _ b0 (by linarith)).1, abs_of_nonneg hnn]
    exact hmono

/-- The cap of `applyFineTune` as an `int` when `10 / speed` fits: not negative. -/
theorem fine_tune_cap (s : ℚ) (hs : 0 < s) (hcap : 10 / s ≤ 2147483647) :
    0 ≤ toInt32 (fl64 (10 / s)) ∧
      wrapInt32 (-toInt32 (fl64 (10 / s))) = -toInt32 (fl64 (10 / s)) := by
  have hq : 0 < 10 / s := div_pos (by norm_num) hs
  have h0 : 0 ≤ fl64 (10 / s) := fl64_nonneg _ hq.le
  have h1 := (fl64_bounds (10 / s) hq.le).2
  have h2 : fl64 (10 / s) < 2147483648 := by
    generalize fl64 (10 / s) = x at h1
    generalize 10 / s = q at hq hcap h1
    norm_num at h1
    linarith
  obtain ⟨e, c0, c1⟩ := toInt32_of_nonneg _ h0 h2
  rw [e]
  refine ⟨c0, wrapInt32_of_range _ ?_ ?_⟩
  · unfold INT_MIN
    unfold INT_MAX at c1
    omega
  · unfold INT_MAX
    omega

/-- The change `applyFineTune` makes to a base delay, when `10 / speed` fits in an `int`
and the base delay is at least `trunc(10 / speed)` away from the ends of the `int`
range. -/
theorem applyFineTune_change_bound (m : AVSyncManager) (b : Int) (o : ℚ) (hs : 0 < m.speed_)
    (hcap : 10 / m.speed_ ≤ 2147483647) (hlo : INT_MIN ≤ b - castInt (10 / m.speed_))
    (hhi : b + castInt (10 / m.speed_) ≤ INT_MAX) :
    |applyFineTune m b o - b| ≤ castInt (10 / m.speed_) := by
  have hK : 0 ≤ castInt (10 / m.speed_) := castInt_nonneg (div_pos (by norm_num) hs).le
  by_cases hd : |o| < FINE_TUNE_RANGE ∨ isSystemStable m = false
  · rw [applyFineTune_of_dead_band m b o hd, sub_self, abs_zero]
    exact hK
  · rw [not_or] at hd
    obtain ⟨h1, h2⟩ := hd
    unfold applyFineTune
    rw [if_neg h1, if_neg h2]
    simp only
    by_cases h3 : |o| < AV_SYNC_THRESHOLD_HALF
    · rw [if_pos h3]
      obtain ⟨c0, c1⟩ := fine_tune_cap m.speed_ hs hcap
      have ha := fine_tune_adjustment_bound m.speed_ o hs hcap h3
      rw [c1]
      have hq := qBound_symmetric_abs_le (toInt32 (fl64 (10 / m.speed_)))
        (if o > 0 then wrapInt32 (-toInt32 (fl64 (o * fl64 (150 / m.speed_))))
          else toInt32 (fl64 (-o * fl64 (150 / m.speed_)))) c0
      generalize qBound (-toInt32 (fl64 (10 / m.speed_)))
        (if o > 0 then wrapInt32 (-toInt32 (fl64 (o * fl64 (150 / m.speed_))))
          else toInt32 (fl64 (-o * fl64 (150 / m.speed_))))
        (toInt32 (fl64 (10 / m.speed_))) = adj at hq ⊢
      have hadj : |adj| ≤ castInt (10 / m.speed_) := le_trans hq ha
      rw [abs_le] at hadj
      rw [wrapInt32_of_range _ (by omega) (by omega), add_sub_cancel_left, abs_le]
      exact hadj
    · rw [if_neg h3, add_zero]
      rw [wrapInt32_of_range _ (by omega) (by omega), sub_self, abs_zero]
      exact hK

end Machine
/-! ### Binary64 values of the example of fine-tuning -/

/-- The binary64 number nearest to 0.01. -/
theorem fl64_ten_ms :
    fl64 (1 / 100) = 5764607523034235 / 576460752303423488 := by
  apply fl64_eq _ _ (-7) 5764607523034235
  · norm_num
  · norm_num
  · norm_num
  · norm_num [abs_lt]
  · norm_num

/-- The number 150 is a binary64 number. -/
theorem fl64_one_hundred_fifty :
    fl64 (150) = 150 := by
  apply fl64_eq _ _ (7) 5277655813324800
  · norm_num
  · norm_num
  · norm_num
  · norm_num [abs_lt]
  · norm_num

/-- The binary64 product of the double 0.01 and 150. -/
theorem fl64_ten_ms_times_factor :
    fl64 (5764607523034235 / 576460752303423488 * 150) = 3 / 2 := by
  apply fl64_eq _ _ (0) 6755399441055744
  · norm_num
  · norm_num
  · norm_num
  · norm_num [abs_lt]
  · norm_num

namespace Machine

/-- The history of `stableZeros` is stable. -/
theorem stableZeros_stable : isSystemStable stableZeros = true := by
  have hl : stableZeros.syncLogs_ = [0, 0, 0, 0, 0, 0, 0, 0] := rfl
  have hsp : stableZeros.speed_ = 1 := rfl
  unfold isSystemStable
  rw [hl, hsp]
  simp only [List.length_cons, List.length_nil, List.foldl_cons, List.foldl_nil,
    MIN_STABLE_SAMPLES, add_zero, fl64_zero, sub_self, mul_zero, zero_div, mul_one,
    lt_self_iff_false, if_false, decide_eq_true_eq, Nat.reduceAdd, Nat.lt_irrefl]
  exact fl64_pos _ (fl64_pos _ (by norm_num))

/-- The cap of the adjustment at speed 1 is 10. -/
theorem fine_tune_cap_at_speed_one : toInt32 (fl64 (10 / 1)) = 10 := by
  rw [div_one, fl64_ten, (toInt32_of_nonneg _ (by norm_num) (by norm_num)).1]
  exact castInt_eq_of_bounds _ _ (by norm_num) (by norm_num) (by norm_num)

/-- The correction for an offset of magnitude 0.01 (a double) at speed 1 is 1 ms. -/
theorem fine_tune_step_at_speed_one : toInt32 (fl64 (fl64 (1 / 100) * fl64 (150 / 1))) = 1 := by
  rw [div_one, fl64_one_hundred_fifty, fl64_ten_ms, fl64_ten_ms_times_factor,
    (toInt32_of_nonneg _ (by norm_num) (by norm_num)).1]
  exact castInt_eq_of_bounds _ _ (by norm_num) (by norm_num) (by norm_num)

/-- The offsets 0.01 and -0.01 (doubles) are outside the dead-band and below 0.025. -/
theorem ten_ms_in_fine_tune_band :
    ¬ |fl64 (1 / 100)| < FINE_TUNE_RANGE ∧ |fl64 (1 / 100)| < AV_SYNC_THRESHOLD_HALF := by
  have h1 := (fl64_bounds (5 / 1000) (by norm_num)).2
  have h2 := (fl64_bounds (25 / 1000) (by norm_num)).1
  unfold FINE_TUNE_RANGE AV_SYNC_THRESHOLD_HALF
  rw [fl64_ten_ms, abs_of_pos (by norm_num)]
  constructor
  · rw [not_lt]
    norm_num at h1 ⊢
    linarith
  · norm_num at h2 ⊢
    linarith

/-- With a stable history at speed 1, the offset 0.01 takes 1 ms off a base delay of
33 ms. -/
theorem applyFineTune_example : applyFineTune stableZeros 33 (fl64 (1 / 100)) = 32 := by
  obtain ⟨h1, h2⟩ := ten_ms_in_fine_tune_band
  have hsp : stableZeros.speed_ = 1 := rfl
  unfold applyFineTune
  rw [if_neg h1, if_neg (by rw [stableZeros_stable]; simp)]
  simp only
  rw [if_pos h2, if_pos (fl64_pos _ (by norm_num)), hsp, fine_tune_cap_at_speed_one,
    fine_tune_step_at_speed_one]
  decide

/-- With a stable history at speed 1, the offset -0.01 turns the base delay `INT_MAX` into
`INT_MIN`: the sum `baseDelay + adjustment` overflows. -/
theorem applyFineTune_at_int_max :
    applyFineTune stableZeros 2147483647 (-fl64 (1 / 100)) = -2147483648 := by
  obtain ⟨h1, h2⟩ := ten_ms_in_fine_tune_band
  have hsp : stableZeros.speed_ = 1 := rfl
  have hneg : ¬ -fl64 (1 / 100) > 0 := by
    have := fl64_pos (1 / 100) (by norm_num)
    rw [not_lt]
    linarith
  unfold applyFineTune
  rw [abs_neg, if_neg h1, if_neg (by rw [stableZeros_stable]; simp)]
  simp only
  rw [if_pos h2, if_neg hneg, hsp, neg_neg, fine_tune_cap_at_speed_one,
    fine_tune_step_at_speed_one]
  decide

/-- C27 (amended): `applyFineTune` returns the base delay unchanged when `|offset|` is
below the dead-band threshold (the double 0.005, which is not below 0.005) or the offset
history is not stable; and for every offset, every speed > 0 with `10 / speed` within the
range of `int`, and every base delay at least `trunc(10 / speed)` away from both ends of
the `int` range, it changes the delay by at most `trunc(10 / speed)` milliseconds. -/
theorem applyFineTune_changes_at_most_max_adjustment (m : AVSyncManager) (b : Int) (o : ℚ) :
    (0 < m.speed_ → 10 / m.speed_ ≤ 2147483647 → INT_MIN ≤ b - castInt (10 / m.speed_) →
        b + castInt (10 / m.speed_) ≤ INT_MAX →
        |applyFineTune m b o - b| ≤ castInt (10 / m.speed_)) ∧
      (|o| < FINE_TUNE_RANGE ∨ isSystemStable m = false → applyFineTune m b o = b) ∧
      (|o| < 5 / 1000 → applyFineTune m b o = b) :=
  ⟨applyFineTune_change_bound m b o, applyFineTune_of_dead_band m b o,
    fun h => applyFineTune_of_dead_band m b o (Or.inl (lt_of_lt_of_le h FINE_TUNE_RANGE_ge))⟩

/-- C27 at a concrete input where the adjustment is made: stable history, speed 1, base
delay 33 ms and offset 0.01 s; the result, 32 ms, is within 10 ms of the base delay. -/
theorem applyFineTune_changes_at_most_max_adjustment_witness :
    isSystemStable stableZeros = true ∧ ¬ |fl64 (1 / 100)| < FINE_TUNE_RANGE ∧
      applyFineTune stableZeros 33 (fl64 (1 / 100)) = 32 ∧
      |applyFineTune stableZeros 33 (fl64 (1 / 100)) - 33| ≤ castInt (10 / stableZeros.speed_) :=
  have hsp : stableZeros.speed_ = 1 := rfl
  have hK : castInt (10 / stableZeros.speed_) = 10 := by
    rw [hsp]
    exact castInt_eq_of_bounds _ _ (by norm_num) (by norm_num) (by norm_num)
  ⟨stableZeros_stable, ten_ms_in_fine_tune_band.1, applyFineTune_example,
    (applyFineTune_changes_at_most_max_adjustment stableZeros 33 (fl64 (1 / 100))).1
      (by rw [hsp]; norm_num) (by rw [hsp]; norm_num) (by rw [hK]; decide)
      (by rw [hK]; decide)⟩

/-- C27 as stated does not hold for every base delay: with a stable history at speed 1
(cap `trunc(10 / speed)` = 10) and the offset -0.01 s, the base delay `INT_MAX` =
2147483647 comes back as `INT_MIN` = -2147483648, a change of more than 10. -/
theorem applyFineTune_overflows_at_int_max :
    0 < stableZeros.speed_ ∧ isSystemStable stableZeros = true ∧
      castInt (10 / stableZeros.speed_) = 10 ∧
      applyFineTune stableZeros 2147483647 (-fl64 (1 / 100)) = -2147483648 ∧
      ¬ |applyFineTune stableZeros 2147483647 (-fl64 (1 / 100)) - 2147483647| ≤
        castInt (10 / stableZeros.speed_) := by
  have hsp : stableZeros.speed_ = 1 := rfl
  have hK : castInt (10 / stableZeros.speed_) = 10 := by
    rw [hsp]
    exact castInt_eq_of_bounds _ _ (by norm_num) (by norm_num) (by norm_num)
  refine ⟨by rw [hsp]; norm_num, stableZeros_stable, hK, applyFineTune_at_int_max, ?_⟩
  rw [applyFineTune_at_int_max, hK]
  decide

end Machine
/-! ### `AudioPlayThread.cpp`: the volume in binary32 -/

/-- The binary32 number nearest to 13/100. -/
theorem fl32_thirteen_percent :
    fl32 (13 / 100) = 1090519 / 8388608 := by
  apply fl32_eq _ _ (-3) 8724152
  · norm_num
  · norm_num
  · norm_num
  · norm_num [abs_lt]
  · norm_num

/-- The binary32 product of 31500 and the binary32 factor of volume 13. -/
theorem fl32_scaled_example :
    fl32 (31500 * (1090519 / 8388608)) = 16773119 / 4096 := by
  apply fl32_eq _ _ (11) 16773119
  · norm_num
  · norm_num
  · norm_num
  · norm_num [abs_lt]
  · norm_num

/-- The number 1 is a binary32 number. -/
theorem fl32_one :
    fl32 (1) = 1 := by
  apply fl32_eq _ _ (0) 8388608
  · norm_num
  · norm_num
  · norm_num
  · norm_num [abs_lt]
  · norm_num

/-- The `int` conversion commutes with negation. -/
theorem castInt_neg (x : ℚ) : castInt (-x) = -castInt x := by
  unfold castInt
  rcases lt_trichotomy x 0 with h | h | h
  · rw [if_pos (by linarith), if_neg (by linarith), Int.floor_neg]
  · rw [h]
    simp
  · rw [if_neg (by linarith), if_pos h.le, Int.ceil_neg]

/-- The `int` conversion of an integer. -/
theorem castInt_intCast (n : Int) : castInt (n : ℚ) = n := by
  unfold castInt
  split_ifs <;> simp

/-- Truncations of two non-negative numbers less than 1 apart differ by at most 1. -/
theorem castInt_near (x y : ℚ) (hx : 0 ≤ x) (hy : 0 ≤ y) (h : |y - x| < 1) :
    |castInt y - castInt x| ≤ 1 := by
  rw [castInt_of_nonneg hx, castInt_of_nonneg hy]
  rw [abs_lt] at h
  have h1 := Int.floor_le x
  have h2 := Int.lt_floor_add_one x
  have h3 := Int.floor_le y
  have h4 := Int.lt_floor_add_one y
  have h5 : ((⌊y⌋ : Int) : ℚ) < ((⌊x⌋ + 2 : Int) : ℚ) := by
    push_cast
    linarith
  have h6 : ((⌊x⌋ : Int) : ℚ) < ((⌊y⌋ + 2 : Int) : ℚ) := by
    push_cast
    linarith
  have h7 : ⌊y⌋ < ⌊x⌋ + 2 := by exact_mod_cast h5
  have h8 : ⌊x⌋ < ⌊y⌋ + 2 := by exact_mod_cast h6
  rw [abs_le]
  constructor <;> omega

namespace AudioPlayThread

/-- The factor stored for a volume from 1 to 99 passes neither the mute test nor the
pass-through test of `processVolume`. -/
theorem volume_factor_tests (v : Int) (hv0 : 1 ≤ v) (hv1 : v ≤ 99) :
    ¬ fl32 ((v : ℚ) / 100) < fl32 (1 / 1000) ∧
      ¬ |fl32 (fl32 ((v : ℚ) / 100) - 1)| < fl32 (1 / 1000) := by
  have q0 : (1 : ℚ) ≤ (v : ℚ) := by exact_mod_cast hv0
  have q1 : (v : ℚ) ≤ 99 := by exact_mod_cast hv1
  obtain ⟨b1, b2⟩ := fl32_bounds ((v : ℚ) / 100) (by positivity)
  have t := (fl32_bounds (1 / 1000) (by norm_num)).2
  generalize fl32 (1 / 1000) = tol at t ⊢
  generalize fl32 ((v : ℚ) / 100) = vol at b1 b2 ⊢
  norm_num at b1 b2 t
  have hneg : 0 ≤ 1 - vol := by linarith
  obtain ⟨c1, c2⟩ := fl32_bounds (1 - vol) hneg
  have e : fl32 (vol - 1) = -fl32 (1 - vol) := by rw [← fl32_neg, neg_sub]
  have hn : 0 ≤ fl32 (1 - vol) := roundFloat_nonneg 24 _ hneg
  rw [e, abs_neg, abs_of_nonneg hn]
  generalize fl32 (1 - vol) = y at c1 c2 hn ⊢
  norm_num at c1 c2
  constructor
  · rw [not_lt]
    linarith
  · rw [not_lt]
    linarith

/-- A non-negative sample `a` up to 32768 scaled by the binary32 factor of a volume from
1 to 99: the truncated binary32 product is between 0 and `a`, and within 1 of the
truncation of `a * v / 100`. -/
theorem scaled_nonneg_bounds (a v : Int) (ha0 : 0 ≤ a) (ha1 : a ≤ 32768) (hv0 : 1 ≤ v)
    (hv1 : v ≤ 99) :
    0 ≤ castInt (fl32 ((a : ℚ) * fl32 ((v : ℚ) / 100))) ∧
      castInt (fl32 ((a : ℚ) * fl32 ((v : ℚ) / 100))) ≤ a ∧
      |castInt (fl32 ((a : ℚ) * fl32 ((v : ℚ) / 100))) - castInt ((a : ℚ) * (v : ℚ) / 100)|
        ≤ 1 := by
  have q0 : (1 : ℚ) ≤ (v : ℚ) := by exact_mod_cast hv0
  have q1 : (v : ℚ) ≤ 99 := by exact_mod_cast hv1
  have p0 : (0 : ℚ) ≤ (a : ℚ) := by exact_mod_cast ha0
  have p1 : (a : ℚ) ≤ 32768 := by exact_mod_cast ha1
  have hf0 : (0 : ℚ) ≤ (v : ℚ) / 100 := by positivity
  obtain ⟨b1, b2⟩ := fl32_bounds ((v : ℚ) / 100) hf0
  have hvol0 : 0 ≤ fl32 ((v : ℚ) / 100) := roundFloat_nonneg 24 _ hf0
  have hx0 : 0 ≤ (a : ℚ) * (v : ℚ) / 100 := by positivity
  have hx1 : (a : ℚ) * (v : ℚ) / 100 ≤ (a : ℚ) * (99 / 100) := by
    have := mul_le_mul_of_nonneg_left q1 p0
    linarith
  have hp0 : 0 ≤ (a : ℚ) * fl32 ((v : ℚ) / 100) := mul_nonneg p0 hvol0
  obtain ⟨c1, c2⟩ := fl32_bounds ((a : ℚ) * fl32 ((v : ℚ) / 100)) hp0
  have hy0 : 0 ≤ fl32 ((a : ℚ) * fl32 ((v : ℚ) / 100)) := roundFloat_nonneg 24 _ hp0
  have d1 : (a : ℚ) * ((v : ℚ) / 100 * (1 - 1 / 2 ^ 24)) ≤ (a : ℚ) * fl32 ((v : ℚ) / 100) :=
    mul_le_mul_of_nonneg_left b1 p0
  have d2 : (a : ℚ) * fl32 ((v : ℚ) / 100) ≤ (a : ℚ) * ((v : ℚ) / 100 * (1 + 1 / 2 ^ 24)) :=
    mul_le_mul_of_nonneg_left b2 p0
  have e1 : (a : ℚ) * ((v : ℚ) / 100 * (1 - 1 / 2 ^ 24)) =
      (a : ℚ) * (v : ℚ) / 100 * (1 - 1 / 2 ^ 24) := by ring
  have e2 : (a : ℚ) * ((v : ℚ) / 100 * (1 + 1 / 2 ^ 24)) =
      (a : ℚ) * (v : ℚ) / 100 * (1 + 1 / 2 ^ 24) := by ring
  rw [e1] at d1
  rw [e2] at d2
  generalize fl32 ((a : ℚ) * fl32 ((v : ℚ) / 100)) = y at c1 c2 hy0 ⊢
  generalize (a : ℚ) * fl32 ((v : ℚ) / 100) = p at c1 c2 d1 d2 hp0
  generalize (a : ℚ) * (v : ℚ) / 100 = x at hx0 hx1 d1 d2 ⊢
  norm_num at c1 c2 d1 d2
  have hya : y ≤ (a : ℚ) := by linarith
  refine ⟨castInt_nonneg hy0, ?_, ?_⟩
  · have := castInt_mono hy0 hya
    rwa [castInt_intCast] at this
  · apply castInt_near x y hx0 hy0
    rw [abs_lt]
    constructor <;> linarith

/-- A 16-bit sample scaled by the binary32 factor of a volume from 1 to 99: the truncated
binary32 product is a 16-bit value, not above the sample in magnitude, and within 1 of
the truncation of `s * v / 100`. -/
theorem scaled_bounds (s v : Int) (hs0 : -32768 ≤ s) (hs1 : s ≤ 32767) (hv0 : 1 ≤ v)
    (hv1 : v ≤ 99) :
    -32768 ≤ castInt (fl32 ((s : ℚ) * fl32 ((v : ℚ) / 100))) ∧
      castInt (fl32 ((s : ℚ) * fl32 ((v : ℚ) / 100))) ≤ 32767 ∧
      |castInt (fl32 ((s : ℚ) * fl32 ((v : ℚ) / 100)))| ≤ |s| ∧
      |castInt (fl32 ((s : ℚ) * fl32 ((v : ℚ) / 100))) - castInt ((s : ℚ) * (v : ℚ) / 100)|
        ≤ 1 := by
  rcases le_total 0 s with h | h
  · obtain ⟨a1, a2, a3⟩ := scaled_nonneg_bounds s v h (by omega) hv0 hv1
    refine ⟨by omega, by omega, ?_, a3⟩
    rw [abs_of_nonneg a1, abs_of_nonneg h]
    exact a2
  · obtain ⟨a1, a2, a3⟩ := scaled_nonneg_bounds (-s) v (by omega) (by omega) hv0 hv1
    have e1 : (s : ℚ) * fl32 ((v : ℚ) / 100) = -(((-s : Int) : ℚ) * fl32 ((v : ℚ) / 100)) := by
      push_cast
      ring
    have e2 : (s : ℚ) * (v : ℚ) / 100 = -(((-s : Int) : ℚ) * (v : ℚ) / 100) := by
      push_cast
      ring
    rw [e1, e2, fl32_neg, castInt_neg, castInt_neg]
    generalize castInt (fl32 (((-s : Int) : ℚ) * fl32 ((v : ℚ) / 100))) = r at a1 a2 a3 ⊢
    generalize castInt (((-s : Int) : ℚ) * (v : ℚ) / 100) = t at a3 ⊢
    refine ⟨by omega, by omega, ?_, ?_⟩
    · rw [abs_neg, abs_of_nonneg a1, abs_of_nonpos h]
      exact a2
    · rw [abs_le] at a3 ⊢
      constructor <;> omega

/-- The samples `processVolume` leaves for the factor stored by `setVolume`: the map of
`scaledSample` for the clamped volume. -/
theorem processVolume_eq_map (volume : Int) (samples : List Int)
    (hs : ∀ s ∈ samples, INT16_MIN ≤ s ∧ s ≤ INT16_MAX) :
    processVolume (setVolume volume) samples =
      samples.map (scaledSample (qBound 0 volume 100)) := by
  have hv : (0 : Int) ≤ qBound 0 volume 100 ∧ qBound 0 volume 100 ≤ 100 :=
    qBound_mem (by decide)
  obtain ⟨hv0, hv100⟩ := hv
  unfold setVolume
  generalize qBound 0 volume 100 = v at hv0 hv100 ⊢
  have htol : 0 < fl32 (1 / 1000) := roundFloat_pos 24 _ (by norm_num) (by norm_num)
  by_cases h0 : v = 0
  · subst h0
    have e : fl32 (((0 : Int) : ℚ) / 100) = 0 := by
      rw [Int.cast_zero, zero_div, fl32_zero]
    unfold processVolume
    rw [e, if_pos htol]
    apply List.map_congr_left
    intro s _
    simp [scaledSample]
  · by_cases h100 : v = 100
    · subst h100
      have e : fl32 (((100 : Int) : ℚ) / 100) = 1 := by
        have : ((100 : Int) : ℚ) / 100 = 1 := by norm_num
        rw [this, fl32_one]
      have t := (fl32_bounds (1 / 1000) (by norm_num)).2
      unfold processVolume
      rw [e, if_neg (by rw [not_lt]; norm_num at t; linarith), sub_self, fl32_zero, abs_zero,
        if_pos htol]
      symm
      calc List.map (scaledSample 100) samples = List.map id samples := by
            apply List.map_congr_left
            intro s _
            simp [scaledSample]
        _ = samples := List.map_id samples
    · obtain ⟨t1, t2⟩ := volume_factor_tests v (by omega) (by omega)
      unfold processVolume
      rw [if_neg t1, if_neg t2]
      apply List.map_congr_left
      intro s hsm
      obtain ⟨r1, r2⟩ := hs s hsm
      unfold INT16_MIN at r1
      unfold INT16_MAX at r2
      obtain ⟨a1, a2, -, -⟩ := scaled_bounds s v r1 r2 (by omega) (by omega)
      simp only [scaledSample, if_neg h0, if_neg h100]
      unfold toInt32 INT_MIN INT_MAX INT16_MIN INT16_MAX
      rw [if_pos ⟨by omega, by omega⟩, max_eq_left a1, min_eq_left a2,
        toInt16_of_range _ a1 a2]

end AudioPlayThread
namespace AudioPlayThread

/-- The factor stored for volume 13 turns the sample -31500 into -4094. -/
theorem scaledSample_example : scaledSample 13 (-31500) = -4094 := by
  have e : ((-31500 : Int) : ℚ) * fl32 (((13 : Int) : ℚ) / 100) =
      -(31500 * (1090519 / 8388608)) := by
    have : ((13 : Int) : ℚ) / 100 = 13 / 100 := by norm_num
    rw [this, fl32_thirteen_percent]
    norm_num
  unfold scaledSample
  rw [if_neg (by decide), if_neg (by decide), e, fl32_neg, fl32_scaled_example, castInt_neg,
    castInt_eq_of_bounds _ 4094 (by norm_num) (by norm_num) (by norm_num)]

/-- C22 (amended): `setVolume` clamps its argument to `v` between 0 and 100 and stores
the binary32 quotient `v / 100`; `processVolume` with that factor turns every 16-bit
sample `s` into 0 for `v = 0`, `s` for `v = 100` and otherwise the binary32 product of
`s` and the stored factor truncated toward zero, a value inside `[-32768, 32767]` whose
magnitude does not exceed the magnitude of `s` and which is within 1 of `s * v / 100`
truncated toward zero. -/
theorem volume_scales_samples (volume : Int) (samples : List Int)
    (hs : ∀ s ∈ samples, INT16_MIN ≤ s ∧ s ≤ INT16_MAX) :
    (0 ≤ qBound 0 volume 100 ∧ qBound 0 volume 100 ≤ 100) ∧
      setVolume volume = fl32 (((qBound 0 volume 100 : Int) : ℚ) / 100) ∧
      processVolume (setVolume volume) samples =
        samples.map (scaledSample (qBound 0 volume 100)) ∧
      ∀ s ∈ samples,
        INT16_MIN ≤ scaledSample (qBound 0 volume 100) s ∧
          scaledSample (qBound 0 volume 100) s ≤ INT16_MAX ∧
          |scaledSample (qBound 0 volume 100) s| ≤ |s| ∧
          |scaledSample (qBound 0 volume 100) s -
            castInt ((s : ℚ) * ((qBound 0 volume 100 : Int) : ℚ) / 100)| ≤ 1 := by
  have hv : (0 : Int) ≤ qBound 0 volume 100 ∧ qBound 0 volume 100 ≤ 100 :=
    qBound_mem (by decide)
  refine ⟨hv, rfl, processVolume_eq_map volume samples hs, ?_⟩
  obtain ⟨hv0, hv100⟩ := hv
  generalize qBound 0 volume 100 = v at hv0 hv100 ⊢
  intro s hsm
  obtain ⟨r1, r2⟩ := hs s hsm
  unfold INT16_MIN at r1 ⊢
  unfold INT16_MAX at r2 ⊢
  by_cases h0 : v = 0
  · subst h0
    have e : castInt ((s : ℚ) * ((0 : Int) : ℚ) / 100) = 0 := by simp [castInt]
    simp only [scaledSample, if_true, e]
    refine ⟨by norm_num, by norm_num, ?_, by norm_num⟩
    rw [abs_zero]
    exact abs_nonneg s
  · by_cases h100 : v = 100
    · subst h100
      have e : castInt ((s : ℚ) * ((100 : Int) : ℚ) / 100) = s := by
        have : (s : ℚ) * ((100 : Int) : ℚ) / 100 = (s : ℚ) := by
          push_cast
          ring
        rw [this, castInt_intCast]
      simp only [scaledSample, if_neg h0, if_true, e]
      refine ⟨r1, r2, le_refl _, ?_⟩
      rw [sub_self, abs_zero]
      norm_num
    · simp only [scaledSample, if_neg h0, if_neg h100]
      exact scaled_bounds s v r1 r2 (by omega) (by omega)

/-- C22 at a concrete input where the samples are scaled: volume 13 and five samples. -/
theorem volume_scales_samples_witness :
    processVolume (setVolume 13) [-32768, -31500, 0, 7, 32767] =
        [-32768, -31500, 0, 7, 32767].map (scaledSample (qBound 0 13 100)) ∧
      ∀ s ∈ [-32768, -31500, 0, 7, 32767],
        INT16_MIN ≤ scaledSample (qBound 0 13 100) s ∧
          scaledSample (qBound 0 13 100) s ≤ INT16_MAX ∧
          |scaledSample (qBound 0 13 100) s| ≤ |s| ∧
          |scaledSample (qBound 0 13 100) s -
            castInt ((s : ℚ) * ((qBound 0 13 100 : Int) : ℚ) / 100)| ≤ 1 :=
  (volume_scales_samples 13 [-32768, -31500, 0, 7, 32767] (by decide)).2.2

/-- C22 as stated does not hold: at volume 13 the sample -31500 becomes -4094, while
`-31500 * 13 / 100` = -4095 exactly, whose truncation is -4095. -/
theorem volume_thirteen_sample_off_by_one :
    processVolume (setVolume 13) [-31500] = [-4094] ∧
      castInt ((-31500 : ℚ) * 13 / 100) = -4095 := by
  constructor
  · rw [processVolume_eq_map 13 [-31500] (by decide)]
    have e : qBound 0 13 100 = 13 := by decide
    rw [e, List.map_cons, List.map_nil, scaledSample_example]
  · have e : (-31500 : ℚ) * 13 / 100 = -4095 := by norm_num
    rw [e, castInt_neg]
    have h : castInt (4095 : ℚ) = 4095 := castInt_eq_of_bounds _ 4095 (by norm_num)
      (by norm_num) (by norm_num)
    rw [h]

end AudioPlayThread
